import Mathlib

/-!
# Map compositing pipeline of `QgsMapRendererJob`

A shallow embedding of `src/core/qgsmaprendererjob.cpp`: the extent reprojector,
the layer job scheduler, the compositor and the second-pass (mask) compositor.

Conventions of the embedding

* C++ `double` values are `Double`: an exact rational, the two infinities or NaN.
  Comparisons follow IEEE 754 (every comparison with NaN is false); rounding and
  overflow of arithmetic are not modelled.
* A `QgsMapLayer *` is represented by the record of the attributes the renderer
  job reads from the layer; a weak pointer (`QPointer`) is an `Option`.
* A `QImage *` is an `Option QImage`; a `QPainter *` stored in a job context is an
  `Option QPainter` that paints on the image of the job that holds it, which is how
  `allocateImageAndPainter` constructs it (`new QPainter( image )`).
* A `LayerRenderJob *` into the first-pass job list is the index of the job.
* Pixels are premultiplied ARGB with rational channels.
-/

namespace QgsMapRendererJob

/-! ## Numbers and rectangles -/

/-- C++ double: a finite value (kept exact), an infinity or NaN. -/
inductive Double where
  | finite (q : ℚ)
  | posInf
  | negInf
  | nan
deriving DecidableEq

namespace Double

/-- Operator `<=` of IEEE 754. -/
def le : Double → Double → Bool
  | finite a, finite b => decide (a ≤ b)
  | nan, _ => false
  | _, nan => false
  | negInf, _ => true
  | _, posInf => true
  | _, _ => false

/-- Operator `<` of IEEE 754. -/
def lt : Double → Double → Bool
  | finite a, finite b => decide (a < b)
  | nan, _ => false
  | _, nan => false
  | negInf, negInf => false
  | negInf, _ => true
  | posInf, posInf => false
  | _, posInf => true
  | _, _ => false

/-- Operator `>=`. -/
def ge (a b : Double) : Bool := le b a

/-- Operator `>`. -/
def gt (a b : Double) : Bool := lt b a

/-- Unary minus. -/
def neg : Double → Double
  | finite a => finite (-a)
  | posInf => negInf
  | negInf => posInf
  | nan => nan

/-- Operator `+` (exact on finite values). -/
def add : Double → Double → Double
  | finite a, finite b => finite (a + b)
  | nan, _ => nan
  | _, nan => nan
  | posInf, negInf => nan
  | negInf, posInf => nan
  | posInf, _ => posInf
  | negInf, _ => negInf
  | _, posInf => posInf
  | _, negInf => negInf

/-- Operator `-`. -/
def sub (a b : Double) : Double := add a (neg b)

/-- A non-negative rational rounded to the nearest natural number, halves to the even
one. -/
def roundHalfEven (q : ℚ) : ℕ :=
  let f := q.num.toNat / q.den
  let r := q.num.toNat % q.den
  if 2 * r < q.den then f else if q.den < 2 * r then f + 1 else if f % 2 = 0 then f else f + 1

/-- Number of times `n` can be halved before it drops below 2, at most `fuel` times: the
position of the leading binary digit of `n` when `fuel` is at least that position. -/
def halvings : ℕ → ℕ → ℕ
  | 0, _ => 0
  | fuel + 1, n => if n < 2 then 0 else halvings fuel (n / 2) + 1

/-- Largest `k` with `2 ^ k ≤ a`, for a positive rational `a`: the difference of the
leading digit positions of numerator and denominator, or one less. -/
def floorLog2 (a : ℚ) : ℤ :=
  let k : ℤ := (halvings a.num.toNat a.num.toNat : ℤ) - (halvings a.den a.den : ℤ)
  if (2 : ℚ) ^ k ≤ a then k else k - 1

/-- Rounding of an exact result to IEEE 754 binary64, round to nearest with ties to even:
a 53-bit significand at the exponent of the value (at exponent -1074 in the subnormal
range), and an infinity beyond the largest finite double. -/
def roundNearestEven (q : ℚ) : Double :=
  if q = 0 then finite 0
  else
    let e : ℤ := Max.max (floorLog2 |q| - 52) (-1074)
    let v : ℚ := (roundHalfEven (|q| / 2 ^ e) : ℚ) * 2 ^ e
    if (2 ^ 53 - 1) * 2 ^ 971 < v then (if 0 < q then posInf else negInf)
    else finite (if 0 < q then v else -v)

/-- Operator `*` of IEEE 754 binary64: the exact product of two finite values rounded to
nearest, ties to even. -/
def mul : Double → Double → Double
  | finite a, finite b => roundNearestEven (a * b)
  | nan, _ => nan
  | _, nan => nan
  | finite a, posInf => if a = 0 then nan else if 0 < a then posInf else negInf
  | finite a, negInf => if a = 0 then nan else if 0 < a then negInf else posInf
  | posInf, finite b => if b = 0 then nan else if 0 < b then posInf else negInf
  | negInf, finite b => if b = 0 then nan else if 0 < b then negInf else posInf
  | posInf, posInf => posInf
  | negInf, negInf => posInf
  | posInf, negInf => negInf
  | negInf, posInf => negInf

/-- Function `std::fabs`. -/
def abs : Double → Double
  | finite a => finite |a|
  | posInf => posInf
  | negInf => posInf
  | nan => nan

/-- Neither an infinity nor NaN (`!std::isinf && !std::isnan`). -/
def isFinite : Double → Bool
  | finite _ => true
  | _ => false

/-- Value of `std::numeric_limits<double>::max()`: (2^53 - 1) * 2^971. -/
def max : Double := finite ((2 ^ 53 - 1) * 2 ^ 971)

/-- Value of `std::numeric_limits<double>::lowest()`, which is `-max()`. -/
def lowest : Double := finite (-((2 ^ 53 - 1) * 2 ^ 971))

/-- Value of the literal `0.2`: the double nearest to 1/5, 3602879701896397 / 2^54. -/
def pointTwo : Double := finite (3602879701896397 / 2 ^ 54)

end Double

/-- Rectangle `QgsRectangle` (qgsrectangle.h is outside the excerpt): its four
stored bounds. -/
structure QgsRectangle where
  xMinimum : Double
  yMinimum : Double
  xMaximum : Double
  yMaximum : Double
deriving DecidableEq

namespace QgsRectangle

/-- Default constructed `QgsRectangle()`: all bounds zero. -/
def null : QgsRectangle := ⟨.finite 0, .finite 0, .finite 0, .finite 0⟩

/-- Modelled from the spec: `QgsRectangle::width()`, the extent of the x range
("20% of width/height"). -/
def width (r : QgsRectangle) : Double := r.xMaximum.sub r.xMinimum

/-- Modelled from the spec: `QgsRectangle::height()`, the extent of the y range. -/
def height (r : QgsRectangle) : Double := r.yMaximum.sub r.yMinimum

/-- Setter `setXMinimum`. -/
def setXMinimum (r : QgsRectangle) (x : Double) : QgsRectangle := { r with xMinimum := x }

/-- Setter `setXMaximum`. -/
def setXMaximum (r : QgsRectangle) (x : Double) : QgsRectangle := { r with xMaximum := x }

/-- Modelled from the spec: `QgsRectangle::grow( delta )`, the view extent
"expanded by a configured buffer margin" on each side. -/
def grow (r : QgsRectangle) (delta : Double) : QgsRectangle :=
  ⟨r.xMinimum.sub delta, r.yMinimum.sub delta, r.xMaximum.add delta, r.yMaximum.add delta⟩

/-- Modelled from the spec: `QgsRectangle::isFinite()`, no bound is an infinity or NaN
("non-finite reprojected extent"). -/
def isFinite (r : QgsRectangle) : Bool :=
  r.xMinimum.isFinite && r.yMinimum.isFinite && r.xMaximum.isFinite && r.yMaximum.isFinite

/-- The whole-world rectangle `QgsRectangle( -180.0, -90.0, 180.0, 90.0 )`. -/
def world : QgsRectangle := ⟨.finite (-180), .finite (-90), .finite 180, .finite 90⟩

/-- The unbounded rectangle `QgsRectangle( lowest, lowest, max, max )`. -/
def unbounded : QgsRectangle := ⟨Double.lowest, Double.lowest, Double.max, Double.max⟩

end QgsRectangle

/-- Modelled from the spec: `qgsDoubleNear( a, b, epsilon )` of qgis.h, "matches
within tolerance": the two values differ by at most `epsilon`. -/
def qgsDoubleNear (a b epsilon : Double) : Bool := ((a.sub b).abs).le epsilon

/-! ## Pixels, images and painters (Qt raster model) -/

/-- Premultiplied ARGB pixel. -/
structure Pixel where
  r : ℚ
  g : ℚ
  b : ℚ
  a : ℚ
deriving DecidableEq

namespace Pixel

/-- Every channel multiplied by `k`. -/
def scale (k : ℚ) (p : Pixel) : Pixel := ⟨k * p.r, k * p.g, k * p.b, k * p.a⟩

/-- Channel-wise sum. -/
def add (p q : Pixel) : Pixel := ⟨p.r + q.r, p.g + q.g, p.b + q.b, p.a + q.a⟩

end Pixel

/-- Enumeration `QPainter::CompositionMode`: the three modes this file names, and any
other mode by its enumeration value. -/
inductive CompositionMode where
  | SourceOver
  | DestinationIn
  | DestinationOut
  | Other (code : Nat)
deriving DecidableEq

/-- Blend function of the paint engine for the modes the compositor only passes on
(layer blend modes): enumeration value, painter opacity, source pixel, destination pixel. -/
abbrev QtBlend := Nat → ℚ → Pixel → Pixel → Pixel

/-- One pixel of `drawImage` under a composition mode and a painter opacity `o`
(Porter-Duff operators on premultiplied pixels, the opacity acting as constant alpha). -/
def blendPixel (qt : QtBlend) : CompositionMode → ℚ → Pixel → Pixel → Pixel
  | .SourceOver, o, s, d => (s.scale o).add (d.scale (1 - o * s.a))
  | .DestinationIn, o, s, d => d.scale (o * s.a + (1 - o))
  | .DestinationOut, o, s, d => d.scale (1 - o * s.a)
  | .Other c, o, s, d => qt c o s d

/-- Image `QImage`: its size and its pixels (read only inside the size). -/
structure QImage where
  width : Nat
  height : Nat
  pixel : Nat → Nat → Pixel

/-- Constructor plus `fill( colour )`. -/
def QImage.filled (w h : Nat) (c : Pixel) : QImage := ⟨w, h, fun _ _ => c⟩

/-- Method `QImage::fill`. -/
def QImage.fill (img : QImage) (c : Pixel) : QImage := { img with pixel := fun _ _ => c }

/-- State of a `QPainter` that this file sets: composition mode and opacity. -/
structure QPainter where
  compositionMode : CompositionMode := .SourceOver
  opacity : ℚ := 1

/-- A newly constructed painter: SourceOver, opacity 1. -/
def QPainter.fresh : QPainter := ⟨.SourceOver, 1⟩

/-- Method `QPainter::setOpacity`, which clamps to [0, 1]. -/
def QPainter.setOpacity (p : QPainter) (o : ℚ) : QPainter :=
  { p with opacity := min 1 (max 0 o) }

/-- Method `QPainter::setCompositionMode`. -/
def QPainter.setCompositionMode (p : QPainter) (m : CompositionMode) : QPainter :=
  { p with compositionMode := m }

/-- Call `painter.drawImage( 0, 0, src )` on the device `dst`: the pixels covered by
`src` are blended, the others are left alone. -/
def drawImage (qt : QtBlend) (p : QPainter) (dst src : QImage) : QImage :=
  { dst with
    pixel := fun x y =>
      if x < src.width ∧ y < src.height then
        blendPixel qt p.compositionMode p.opacity (src.pixel x y) (dst.pixel x y)
      else dst.pixel x y }

/-! ## Layers, settings and jobs -/

/-- Enumeration `QgsMapLayerType`. -/
inductive QgsMapLayerType where
  | VectorLayer
  | RasterLayer
  | PluginLayer
  | MeshLayer
deriving DecidableEq

/-- Direction argument of the coordinate transform. -/
inductive TransformDirection where
  | ForwardTransform
  | ReverseTransform
deriving DecidableEq

/-- Exception `QgsCsException` raised by a failed transform. -/
structure QgsCsException where
  what : String := ""
deriving DecidableEq

/-- Point `QgsPointXY`. -/
structure QgsPointXY where
  x : Double
  y : Double
deriving DecidableEq

/-- Coordinate transform service `QgsCoordinateTransform` (external): validity, whether
the destination CRS is geographic, the ballpark flag, and the two transform operations,
each of which either returns or raises `QgsCsException`. The operations may depend on
the ballpark flag. -/
structure QgsCoordinateTransform where
  isValid : Bool
  destinationCrsIsGeographic : Bool
  ballparkTransformsAreAppropriate : Bool := false
  bbox : Bool → QgsRectangle → TransformDirection → Except QgsCsException QgsRectangle
  point : Bool → Double → Double → TransformDirection → Except QgsCsException QgsPointXY

namespace QgsCoordinateTransform

/-- Method `setBallparkTransformsAreAppropriate`. -/
def setBallparkTransformsAreAppropriate (ct : QgsCoordinateTransform) (v : Bool) :
    QgsCoordinateTransform :=
  { ct with ballparkTransformsAreAppropriate := v }

/-- Method `transformBoundingBox( rect, direction )`. -/
def transformBoundingBox (ct : QgsCoordinateTransform) (r : QgsRectangle)
    (d : TransformDirection) : Except QgsCsException QgsRectangle :=
  ct.bbox ct.ballparkTransformsAreAppropriate r d

/-- Method `transform( x, y, direction )`. -/
def transform (ct : QgsCoordinateTransform) (x y : Double)
    (d : TransformDirection) : Except QgsCsException QgsPointXY :=
  ct.point ct.ballparkTransformsAreAppropriate x y d

end QgsCoordinateTransform

/-- Renderer handle `QgsMapLayerRenderer` returned by `createMapRenderer`. -/
structure QgsMapLayerRenderer where
  layerId : String
  errors : List String := []

/-- Symbol layer identifier `QgsSymbolLayerId`. -/
abbrev QgsSymbolLayerId := String

/-- What the renderer job reads from a `QgsMapLayer`. The vector-only attributes are
read only when `type` is `VectorLayer`, the case in which
`qobject_cast<QgsVectorLayer *>` is non-null. Attributes are the values seen inside
the loop body of `prepareJobs` (under the style override of the map settings). -/
structure QgsMapLayer where
  id : String
  type : QgsMapLayerType := .VectorLayer
  isValid : Bool := true
  isInScaleRange : Double → Bool := fun _ => true
  blendMode : CompositionMode := .SourceOver
  crsIsGeographic : Bool := false
  renderAboveLabels : Bool := false
  mapRenderer : Option QgsMapLayerRenderer := none
  isEditable : Bool := false
  opacity : ℚ := 1
  featureBlendMode : CompositionMode := .SourceOver
  forceRasterRender : Option Bool := none
  labelsEnabled : Bool := false
  labelingRequiresAdvancedEffects : Bool := false
  staticWillUseLayer : Bool := false
  labelMasks : List (String × List (String × List QgsSymbolLayerId)) := []
  symbolLayerMasks : List (String × List QgsSymbolLayerId) := []

/-- Result of `qobject_cast<QgsVectorLayer *>( ml )`. -/
def QgsMapLayer.asVectorLayer (ml : QgsMapLayer) : Option QgsMapLayer :=
  if ml.type = .VectorLayer then some ml else none

/-- Flags of `QgsMapSettings` read by this file. -/
structure QgsMapSettingsFlags where
  antialiasing : Bool := true
  useAdvancedEffects : Bool := true
  renderPartialOutput : Bool := false

/-- What the renderer job reads from `QgsMapSettings`. The layer list is in stack
order, top layer first. -/
structure QgsMapSettings where
  layers : List QgsMapLayer
  scale : Double
  visibleExtent : QgsRectangle
  extentBuffer : Double := .finite 0
  layerTransform : QgsMapLayer → QgsCoordinateTransform
  flags : QgsMapSettingsFlags := {}
  backgroundColor : Pixel := ⟨1, 1, 1, 1⟩
  deviceOutputWidth : Nat := 1
  deviceOutputHeight : Nat := 1
  outputWidth : Nat := 1
  outputHeight : Nat := 1

/-- Part of `QgsRenderContext` that this file reads or writes. -/
structure QgsRenderContext where
  painter : Option QPainter := none
  maskPainter : Option QPainter := none
  maskPainters : List (Option QPainter) := []
  hasLabelingEngine : Bool := false
  coordinateTransformIsValid : Bool := false
  extent : QgsRectangle := QgsRectangle.null
  renderingStopped : Bool := false
  hasFeatureFilterProvider : Bool := false
  disabledSymbolLayers : List QgsSymbolLayerId := []

/-- Struct `LayerRenderJob` (declared in qgsmaprendererjob.h). Pointers to first-pass
jobs (`firstPassJob`, first component of `maskJobs`) are indices into the first-pass
list. -/
structure LayerRenderJob where
  context : QgsRenderContext := {}
  img : Option QImage := none
  imageInitialized : Bool := false
  renderer : Option QgsMapLayerRenderer := none
  blendMode : CompositionMode := .SourceOver
  opacity : ℚ := 1
  cached : Bool := false
  layer : Option QgsMapLayer := none
  renderingTime : Int := 0
  layerId : String := ""
  maskImage : Option QImage := none
  firstPassJob : Option Nat := none
  maskJobs : List (Option Nat × Int) := []

/-- Symbol layer reference `QgsSymbolLayerReference( layerId, symbolLayerId )`. -/
abbrev QgsSymbolLayerReference := String × QgsSymbolLayerId

/-- Modelled from the spec: one row of the mask-id allocation table, a "(layer, label rule,
masked-symbol-set) triple" (qgsmaskidprovider.cpp is outside the excerpt). -/
structure LabelMaskEntry where
  layerId : String
  ruleId : String
  symbolLayers : List QgsSymbolLayerReference

/-- Modelled from the spec: the mask-id allocation table `QgsMaskIdProvider`; the id of a
row is its position. -/
abbrev QgsMaskIdProvider := List LabelMaskEntry

/-- Modelled from the spec: `insertLabelLayer( layerId, ruleId, maskedSymbolLayers )`
"assigns a stable integer id to each distinct (layer, label rule, masked-symbol-set)
triple": the id of the row already holding the triple, else the id of a new row. -/
def insertLabelLayer (p : QgsMaskIdProvider) (layerId ruleId : String)
    (refs : List QgsSymbolLayerReference) : Int × QgsMaskIdProvider :=
  match p.findIdx? fun e =>
      e.layerId = layerId ∧ e.ruleId = ruleId ∧ e.symbolLayers.toFinset = refs.toFinset with
  | some i => (i, p)
  | none => (p.length, p ++ [⟨layerId, ruleId, refs⟩])

/-- Struct `LabelRenderJob` (declared in qgsmaprendererjob.h). -/
structure LabelRenderJob where
  context : QgsRenderContext := {}
  img : Option QImage := none
  maskImages : List (Option QImage) := []
  maskIdProvider : QgsMaskIdProvider := []
  cached : Bool := false
  canUseCache : Bool := false
  complete : Bool := false
  renderingTime : Int := -1
  participatingLayers : List QgsMapLayer := []

/-! ## Extent reprojector: `reprojectToLayerExtent` -/

/-- One call of the coordinate transform made by `reprojectToLayerExtent`, with its
arguments. -/
inductive TransformCall where
  | boundingBox (r : QgsRectangle) (d : TransformDirection)
  | point (x y : Double) (d : TransformDirection)
deriving DecidableEq

/-- Whether a call raises `QgsCsException` on the transform `ct`. -/
def TransformCall.raises (ct : QgsCoordinateTransform) : TransformCall → Bool
  | .boundingBox r d =>
    match ct.transformBoundingBox r d with
    | .ok _ => false
    | .error _ => true
  | .point x y d =>
    match ct.transform x y d with
    | .ok _ => false
    | .error _ => true

/-- Test "can differ by a maximum of up to 20% of height/width" on the four edges, with
the tolerances `extent.width() * 0.2` and `extent.height() * 0.2` computed in double. -/
def roundTripNear (extent extent2 : QgsRectangle) : Bool :=
  qgsDoubleNear extent2.xMinimum extent.xMinimum (extent.width.mul Double.pointTwo)
    && qgsDoubleNear extent2.xMaximum extent.xMaximum (extent.width.mul Double.pointTwo)
    && qgsDoubleNear extent2.yMinimum extent.yMinimum (extent.height.mul Double.pointTwo)
    && qgsDoubleNear extent2.yMaximum extent.yMaximum (extent.height.mul Double.pointTwo)

/-- Test `extent.xMinimum() <= -180 || extent.xMaximum() >= 180 ||
extent.yMinimum() <= -90 || extent.yMaximum() >= 90`. -/
def exceedsGeographicBounds (extent : QgsRectangle) : Bool :=
  extent.xMinimum.le (.finite (-180)) || extent.xMaximum.ge (.finite 180)
    || extent.yMinimum.le (.finite (-90)) || extent.yMaximum.ge (.finite 90)

/-- The `try` block of `reprojectToLayerExtent`: the transform calls made, in order, and
either the new value of `extent` or the exception that left the block. -/
def reprojectTry (ml : QgsMapLayer) (approxTransform : QgsCoordinateTransform)
    (extent : QgsRectangle) : List TransformCall × Except QgsCsException QgsRectangle :=
  if ml.crsIsGeographic then
    if ml.type = .VectorLayer && !approxTransform.destinationCrsIsGeographic then
      -- check if transforming back roughly returns the input extent, else render the world
      match approxTransform.transformBoundingBox extent .ReverseTransform with
      | .error e => ([.boundingBox extent .ReverseTransform], .error e)
      | .ok extent1 =>
        match approxTransform.transformBoundingBox extent1 .ForwardTransform with
        | .error e =>
          ([.boundingBox extent .ReverseTransform, .boundingBox extent1 .ForwardTransform],
            .error e)
        | .ok extent2 =>
          ([.boundingBox extent .ReverseTransform, .boundingBox extent1 .ForwardTransform],
            .ok (if roundTripNear extent extent2 then extent1 else QgsRectangle.world))
    else
      -- ll = lower left point
      match approxTransform.transform extent.xMinimum extent.yMinimum .ReverseTransform with
      | .error e => ([.point extent.xMinimum extent.yMinimum .ReverseTransform], .error e)
      | .ok ll =>
        -- ur = upper right point
        match approxTransform.transform extent.xMaximum extent.yMaximum .ReverseTransform with
        | .error e =>
          ([.point extent.xMinimum extent.yMinimum .ReverseTransform,
            .point extent.xMaximum extent.yMaximum .ReverseTransform], .error e)
        | .ok ur =>
          match approxTransform.transformBoundingBox extent .ReverseTransform with
          | .error e =>
            ([.point extent.xMinimum extent.yMinimum .ReverseTransform,
              .point extent.xMaximum extent.yMaximum .ReverseTransform,
              .boundingBox extent .ReverseTransform], .error e)
          | .ok extent1 =>
            ([.point extent.xMinimum extent.yMinimum .ReverseTransform,
              .point extent.xMaximum extent.yMaximum .ReverseTransform,
              .boundingBox extent .ReverseTransform],
              .ok (if ll.x.gt ur.x then
                  (extent1.setXMinimum (.finite (-180))).setXMaximum (.finite 180)
                else extent1))
  else
    -- cannot cross 180
    if approxTransform.destinationCrsIsGeographic && exceedsGeographicBounds extent then
      ([], .ok QgsRectangle.unbounded)
    else
      match approxTransform.transformBoundingBox extent .ReverseTransform with
      | .error e => ([.boundingBox extent .ReverseTransform], .error e)
      | .ok extent1 => ([.boundingBox extent .ReverseTransform], .ok extent1)

/-- Outputs of `reprojectToLayerExtent`: the returned `split`, the two reference
parameters `extent` and `r2`, and the transform calls made. -/
structure ReprojectResult where
  split : Bool
  extent : QgsRectangle
  r2 : QgsRectangle
  calls : List TransformCall

/-- Function `QgsMapRendererJob::reprojectToLayerExtent`: the `try` block run on the
ballpark copy of `ct`, and the `catch` of `QgsCsException`. -/
def reprojectToLayerExtent (ml : QgsMapLayer) (ct : QgsCoordinateTransform)
    (extent r2 : QgsRectangle) : ReprojectResult :=
  let approxTransform := ct.setBallparkTransformsAreAppropriate true
  match reprojectTry ml approxTransform extent with
  | (calls, .ok extent1) => ⟨false, extent1, r2, calls⟩
  | (calls, .error _) => ⟨false, QgsRectangle.unbounded, QgsRectangle.unbounded, calls⟩

/-! ## Render cache (interface consumed by the scheduler) -/

/-- Cache key of the label image, `QgsMapRendererJob::LABEL_CACHE_ID`. -/
def LABEL_CACHE_ID : String := "_labels_"

/-- Modelled from the spec: a render cache entry, "a decoded image plus the declared set
of dependent layer identifiers" (qgsmaprenderercache.cpp is outside the excerpt). -/
structure CacheEntry where
  image : QImage
  dependentLayers : List String

/-- Modelled from the spec: the render cache `QgsMapRendererCache`, a "keyed store mapping
a layer identifier (or the synthetic labels key) to a previously rendered image", with
"the view extent/scale at which it was captured". -/
structure QgsMapRendererCache where
  extent : QgsRectangle
  scale : Double
  images : String → Option CacheEntry

namespace QgsMapRendererCache

/-- Modelled from the spec: `init( extent, scale ) -> validity`; entries are "valid only
while the visible extent/scale match current state", so a changed extent or scale
empties the cache and records the new state. -/
def init (c : QgsMapRendererCache) (extent : QgsRectangle) (scale : Double) :
    Bool × QgsMapRendererCache :=
  if c.extent = extent ∧ c.scale = scale then (true, c)
  else (false, ⟨extent, scale, fun _ => none⟩)

/-- Modelled from the spec: `hasCacheImage( key ) -> bool`. -/
def hasCacheImage (c : QgsMapRendererCache) (key : String) : Bool := (c.images key).isSome

/-- Modelled from the spec: `cacheImage( key ) -> image` (a null image of size 0 when
the key is absent). -/
def cacheImage (c : QgsMapRendererCache) (key : String) : QImage :=
  match c.images key with
  | some e => e.image
  | none => ⟨0, 0, fun _ _ => ⟨0, 0, 0, 0⟩⟩

/-- Modelled from the spec: `dependentLayers( key ) -> set of layer ids`. -/
def dependentLayers (c : QgsMapRendererCache) (key : String) : List String :=
  match c.images key with
  | some e => e.dependentLayers
  | none => []

/-- Modelled from the spec: `setCacheImage( key, image, dependentLayers )`. -/
def setCacheImage (c : QgsMapRendererCache) (key : String) (image : QImage)
    (deps : List String) : QgsMapRendererCache :=
  { c with images := fun k => if k = key then some ⟨image, deps⟩ else c.images k }

/-- Modelled from the spec: `clearCacheImage( key )`. -/
def clearCacheImage (c : QgsMapRendererCache) (key : String) : QgsMapRendererCache :=
  { c with images := fun k => if k = key then none else c.images k }

end QgsMapRendererCache

/-! ## Layer job scheduler: `prepareJobs` -/

/-- Entry of the error list, `QgsMapRendererJob::Error( layerId, message )`. -/
structure Error where
  layerID : String
  message : String
deriving DecidableEq

/-- Members of the `QgsMapRendererJob` object used by the scheduler, with the state of
the image allocator: `newImage n` is the outcome of the n-th `new QImage` (`none` for a
null image, else the uninitialised pixel content) and `allocations` counts the requests;
`renderersCreated` records the layers `createMapRenderer` was called on.
`mPerLayerRenderingTime` is keyed by layer id, the latest entry first. -/
structure JobState where
  mSettings : QgsMapSettings
  mCache : Option QgsMapRendererCache := none
  mErrors : List Error := []
  mFeatureFilterProvider : Bool := false
  newImage : Nat → Option (Nat → Nat → Pixel) := fun _ => some fun _ _ => ⟨0, 0, 0, 0⟩
  allocations : Nat := 0
  renderersCreated : List String := []
  mPerLayerRenderingTime : List (String × Int) := []

/-- Function `QgsMapRendererJob::allocateImage`: a null image appends the
insufficient-memory error and gives a null pointer. -/
def allocateImage (st : JobState) (layerId : String) : Option QImage × JobState :=
  match st.newImage st.allocations with
  | some px =>
    (some ⟨st.mSettings.deviceOutputWidth, st.mSettings.deviceOutputHeight, px⟩,
      { st with allocations := st.allocations + 1 })
  | none =>
    (none,
      { st with
        allocations := st.allocations + 1
        mErrors := st.mErrors ++ [⟨layerId, "Insufficient memory for image " ++
          toString st.mSettings.outputWidth ++ "x" ++ toString st.mSettings.outputHeight⟩] })

/-- Function `QgsMapRendererJob::allocateImageAndPainter`: the painter (null when the
image is), the image written to the reference parameter, the new state. -/
def allocateImageAndPainter (st : JobState) (layerId : String) :
    Option QPainter × Option QImage × JobState :=
  match allocateImage st layerId with
  | (some image, st1) => (some QPainter.fresh, some image, st1)
  | (none, st1) => (none, none, st1)

/-- Call `qgsDoubleNear( a, b )` with the default epsilon `4 * DBL_EPSILON`. -/
def qgsDoubleNearDefault (a b : Double) : Bool := qgsDoubleNear a b (.finite (4 / 2 ^ 52))

/-- Function `QgsMapRendererJob::needTemporaryImage`. -/
def needTemporaryImage (settings : QgsMapSettings) (ml : QgsMapLayer) : Bool :=
  match ml.type with
  | .VectorLayer =>
    if ml.forceRasterRender = some true then true
    else if settings.flags.useAdvancedEffects &&
        (ml.blendMode != .SourceOver || ml.featureBlendMode != .SourceOver
          || !qgsDoubleNearDefault (.finite ml.opacity) (.finite 1)) then true
    else false
  | .RasterLayer => settings.flags.renderPartialOutput
  | .MeshLayer => false
  | .PluginLayer => false

/-- Extent computation at the head of the loop body of `prepareJobs`: `r1` is the visible
extent grown by the buffer, `r2` default constructed, and `reprojectToLayerExtent` runs
when the layer transform is valid. -/
def layerExtents (settings : QgsMapSettings) (ml : QgsMapLayer) : ReprojectResult :=
  let r1 := settings.visibleExtent.grow settings.extentBuffer
  let r2 := QgsRectangle.null
  let ct := settings.layerTransform ml
  if ct.isValid then reprojectToLayerExtent ml ct r1 r2 else ⟨false, r1, r2, []⟩

/-- Step "force render of layers that are being edited or if there is a labeling engine
that needs the layer to register features": the cache after the conditional
`mCache->clearCacheImage( ml->id() )`. -/
def forceRenderCache (cache : Option QgsMapRendererCache) (ml : QgsMapLayer)
    (labelingEngine2 requiresLabelRedraw : Bool) : Option QgsMapRendererCache :=
  match cache, ml.asVectorLayer with
  | some c, some vl =>
    let requiresLabeling := (labelingEngine2 && vl.staticWillUseLayer) && requiresLabelRedraw
    if vl.isEditable || requiresLabeling then some (c.clearCacheImage ml.id) else some c
  | c, _ => c

/-- Fields of the new job set before the cache test of `prepareJobs`. -/
def newLayerJob (st : JobState) (painter : Option QPainter) (labelingEngine2 : Bool)
    (ml : QgsMapLayer) (r1 : QgsRectangle) : LayerRenderJob :=
  { cached := false
    img := none
    layer := some ml
    layerId := ml.id
    renderingTime := -1
    context :=
      { painter := painter
        hasLabelingEngine := labelingEngine2
        coordinateTransformIsValid := (st.mSettings.layerTransform ml).isValid
        extent := r1
        hasFeatureFilterProvider := st.mFeatureFilterProvider }
    blendMode := ml.blendMode
    opacity :=
      match ml.asVectorLayer with
      | some vl => vl.opacity
      | none => 1 }

/-- Loop body of `prepareJobs` for the layer `ml`: the new object state and the job left
in `layerJobs` for the layer, if any (`continue` before the append, or append followed by
`removeLast`, is `none`). The elapsed time stored in `renderingTime` is not modelled. -/
def prepareJobsLayer (painter : Option QPainter) (labelingEngine2 deferredPainterSet : Bool)
    (requiresLabelRedraw : Bool) (st : JobState) (ml : QgsMapLayer) :
    JobState × Option LayerRenderJob :=
  if !ml.isValid then (st, none)
  else if !ml.isInScaleRange st.mSettings.scale then (st, none)
  else
    let rr := layerExtents st.mSettings ml
    if !rr.extent.isFinite || !rr.r2.isFinite then
      ({ st with mErrors := st.mErrors ++ [⟨ml.id,
          "There was a problem transforming the layer\x27s extent. Layer skipped."⟩] }, none)
    else
      let cache1 := forceRenderCache st.mCache ml labelingEngine2 requiresLabelRedraw
      let st1 : JobState := { st with mCache := cache1 }
      let job := newLayerJob st painter labelingEngine2 ml rr.extent
      if (cache1.map fun c => c.hasCacheImage ml.id) = some true then
        -- if we can use the cache, do it and avoid rendering
        (st1, some { job with
          cached := true
          imageInitialized := true
          img := cache1.map fun c => c.cacheImage ml.id
          renderer := none
          context := { job.context with painter := none } })
      else if cache1.isSome || (painter.isNone && !deferredPainterSet)
          || needTemporaryImage st.mSettings ml then
        match allocateImageAndPainter st1 ml.id with
        | (_, none, st2) => (st2, none)
        | (p, some image, st2) =>
          ({ st2 with renderersCreated := st2.renderersCreated ++ [ml.id] },
            some { job with
              img := some image
              context := { job.context with painter := p }
              renderer := ml.mapRenderer
              renderingTime := 0 })
      else
        ({ st1 with renderersCreated := st1.renderersCreated ++ [ml.id] },
          some { job with renderer := ml.mapRenderer, renderingTime := 0 })

/-- The `while ( li.hasPrevious() )` loop of `prepareJobs` over the layers still to visit. -/
def prepareJobsLoop (painter : Option QPainter) (labelingEngine2 deferredPainterSet : Bool)
    (requiresLabelRedraw : Bool) :
    List QgsMapLayer → JobState → List LayerRenderJob → JobState × List LayerRenderJob
  | [], st, layerJobs => (st, layerJobs)
  | ml :: rest, st, layerJobs =>
    match prepareJobsLayer painter labelingEngine2 deferredPainterSet requiresLabelRedraw st ml with
    | (st1, some job) =>
      prepareJobsLoop painter labelingEngine2 deferredPainterSet requiresLabelRedraw rest st1
        (layerJobs ++ [job])
    | (st1, none) =>
      prepareJobsLoop painter labelingEngine2 deferredPainterSet requiresLabelRedraw rest st1
        layerJobs

/-- State after the `mCache->init( visibleExtent, scale )` at the head of `prepareJobs`. -/
def initCache (st : JobState) : JobState :=
  match st.mCache with
  | some c => { st with mCache := some (c.init st.mSettings.visibleExtent st.mSettings.scale).2 }
  | none => st

/-- Value of `requiresLabelRedraw`: `!( mCache && mCache->hasCacheImage( LABEL_CACHE_ID ) )`. -/
def requiresLabelRedraw (st : JobState) : Bool :=
  !(match st.mCache with
    | some c => c.hasCacheImage LABEL_CACHE_ID
    | none => false)

/-- Function `QgsMapRendererJob::prepareJobs( painter, labelingEngine2, deferredPainterSet )`:
the layer list is walked from its back (bottom layer) to its front. -/
def prepareJobs (st : JobState) (painter : Option QPainter)
    (labelingEngine2 deferredPainterSet : Bool) : JobState × List LayerRenderJob :=
  let st1 := initCache st
  prepareJobsLoop painter labelingEngine2 deferredPainterSet (requiresLabelRedraw st1)
    st1.mSettings.layers.reverse st1 []

/-- A vector layer in edit mode that `prepareJobs` does not skip: valid, within the
scale range, and with finite extents after the reprojection step. -/
def EditedAndProcessed (settings : QgsMapSettings) (ml : QgsMapLayer) : Prop :=
  ml.type = .VectorLayer ∧ ml.isEditable = true ∧ ml.isValid = true ∧
  ml.isInScaleRange settings.scale = true ∧
  (layerExtents settings ml).extent.isFinite = true ∧
  (layerExtents settings ml).r2.isFinite = true

instance (settings : QgsMapSettings) (ml : QgsMapLayer) :
    Decidable (EditedAndProcessed settings ml) := by
  unfold EditedAndProcessed
  infer_instance

/-- Message of the error appended for a layer whose extent cannot be transformed. -/
def extentErrorMessage : String :=
  "There was a problem transforming the layer\x27s extent. Layer skipped."

/-- Message of the error appended by `allocateImage` for a null image. -/
def memoryErrorMessage (settings : QgsMapSettings) : String :=
  "Insufficient memory for image " ++ toString settings.outputWidth ++ "x" ++
    toString settings.outputHeight

/-- The same renderer job object over another layer stack. -/
def JobState.withLayers (st : JobState) (layers : List QgsMapLayer) : JobState :=
  { st with mSettings := { st.mSettings with layers := layers } }

/-- The same renderer job object over another layer stack and with another error list. -/
def JobState.transport (st : JobState) (layers : List QgsMapLayer) (errors : List Error) :
    JobState :=
  { st with mSettings := { st.mSettings with layers := layers }, mErrors := errors }

/-- Test of `prepareJobs` for an isolated image of a layer that is not served from the
cache: `mCache || ( !painter && !deferredPainterSet ) || needTemporaryImage( ml )`. -/
def needsIsolatedImage (cacheSet : Bool) (painter : Option QPainter) (deferredPainterSet : Bool)
    (settings : QgsMapSettings) (ml : QgsMapLayer) : Bool :=
  cacheSet || (painter.isNone && !deferredPainterSet) || needTemporaryImage settings ml

/-- Every image a cache holds is the image the reference cache holds under the same key
(the cache is the reference cache with some entries cleared). -/
def SubCache (cache reference : Option QgsMapRendererCache) : Prop :=
  match cache, reference with
  | some c, some c0 => ∀ k, c.images k = none ∨ c.images k = c0.images k
  | none, none => True
  | _, _ => False

/-! ## Compositor: `composeImage` -/

/-- One executed `painter.drawImage( 0, 0, image )` with the painter state it ran under. -/
structure DrawCall where
  compositionMode : CompositionMode
  opacity : ℚ
  image : QImage

/-- The local `QImage image` and `QPainter painter( &image )` of `composeImage`,
with the record of the draw calls made so far. -/
structure ComposeState where
  image : QImage
  painter : QPainter := {}
  drawn : List DrawCall := []

/-- Call `painter.drawImage( 0, 0, src )` in `composeImage`. -/
def ComposeState.drawImage (qt : QtBlend) (s : ComposeState) (src : QImage) : ComposeState :=
  { s with
    image := QgsMapRendererJob.drawImage qt s.painter s.image src
    drawn := s.drawn ++ [⟨s.painter.compositionMode, s.painter.opacity, src⟩] }

/-- Calls `painter.setCompositionMode( mode ); painter.setOpacity( o )` in `composeImage`. -/
def ComposeState.setPainter (s : ComposeState) (mode : CompositionMode) (o : ℚ) : ComposeState :=
  { s with painter := (s.painter.setCompositionMode mode).setOpacity o }

/-- Test `job.layer && job.layer->customProperty( "rendering/renderAboveLabels" ).toBool()`. -/
def LayerRenderJob.renderAboveLabels (job : LayerRenderJob) : Bool :=
  match job.layer with
  | some l => l.renderAboveLabels
  | none => false

/-- Draw of one job: set blend mode and opacity, `Q_ASSERT( job.img )`, draw.
A failed assertion is `none`. -/
def composeJob (qt : QtBlend) (s : ComposeState) (job : LayerRenderJob) : Option ComposeState :=
  match job.img with
  | none => none
  | some img => some ((s.setPainter job.blendMode job.opacity).drawImage qt img)

/-- First loop of `composeImage`: the jobs not flagged render-above-labels. -/
def composeBelowLabels (qt : QtBlend) : List LayerRenderJob → ComposeState → Option ComposeState
  | [], s => some s
  | job :: rest, s =>
    if job.renderAboveLabels then composeBelowLabels qt rest s
    else if !job.imageInitialized then composeBelowLabels qt rest s
    else
      match composeJob qt s job with
      | none => none
      | some s1 => composeBelowLabels qt rest s1

/-- Label step of `composeImage`: drawn only for an image of a complete label job. -/
def composeLabels (qt : QtBlend) (labelJob : LabelRenderJob) (s : ComposeState) : ComposeState :=
  match labelJob.img with
  | some img =>
    if labelJob.complete then
      (s.setPainter .SourceOver 1).drawImage qt img
    else s
  | none => s

/-- Last loop of `composeImage`: the jobs flagged render-above-labels. -/
def composeAboveLabels (qt : QtBlend) : List LayerRenderJob → ComposeState → Option ComposeState
  | [], s => some s
  | job :: rest, s =>
    if !job.renderAboveLabels then composeAboveLabels qt rest s
    else if !job.imageInitialized then composeAboveLabels qt rest s
    else
      match composeJob qt s job with
      | none => none
      | some s1 => composeAboveLabels qt rest s1

/-- Function `QgsMapRendererJob::composeImage`, returning the final state of its local
image and painter; `none` when a `Q_ASSERT( job.img )` fails. -/
def composeImageState (qt : QtBlend) (settings : QgsMapSettings) (jobs : List LayerRenderJob)
    (labelJob : LabelRenderJob) : Option ComposeState :=
  let image := QImage.filled settings.deviceOutputWidth settings.deviceOutputHeight
    settings.backgroundColor
  match composeBelowLabels qt jobs { image := image } with
  | none => none
  | some s1 => composeAboveLabels qt jobs (composeLabels qt labelJob s1)

/-- Function `QgsMapRendererJob::composeImage`: the returned image. -/
def composeImage (qt : QtBlend) (settings : QgsMapSettings) (jobs : List LayerRenderJob)
    (labelJob : LabelRenderJob) : Option QImage :=
  (composeImageState qt settings jobs labelJob).map (·.image)

/-- Objects `composeSecondPass` reaches through pointers besides the second-pass jobs:
the first-pass jobs (targets of `firstPassJob` and `maskJobs`) and the label job. -/
structure SecondPassState where
  firstPassJobs : List LayerRenderJob
  labelJob : LabelRenderJob

/-- Mask source entry `QPair<LayerRenderJob *, int>`. -/
abbrev MaskJob := Option Nat × Int

/-- Expression `p.first ? p.first->maskImage : labelJob.maskImages[p.second]`: the
pointer read (possibly null); `none` when the job pointer or the index is invalid. -/
def maskImageOf (st : SecondPassState) (p : MaskJob) : Option (Option QImage) :=
  match p.1 with
  | some i => (st.firstPassJobs[i]?).map (·.maskImage)
  | none => if 0 ≤ p.2 then st.labelJob.maskImages[p.2.toNat]? else none

/-- Expression `p.first ? p.first->context.maskPainter() :
labelJob.context.maskPainter( p.second )` (null when there is none). -/
def maskPainterOf (st : SecondPassState) (p : MaskJob) : Option QPainter :=
  match p.1 with
  | some i => (st.firstPassJobs[i]?).bind (·.context.maskPainter)
  | none => if 0 ≤ p.2 then (st.labelJob.context.maskPainters[p.2.toNat]?).join else none

/-- Draw with the mask painter of source `target`: its device is the mask image of
that source. -/
def drawOnMask (qt : QtBlend) (st : SecondPassState) (target : MaskJob) (painter : QPainter)
    (src : QImage) : SecondPassState :=
  match target.1 with
  | some i =>
    match st.firstPassJobs[i]? with
    | some fp =>
      let fp1 : LayerRenderJob :=
        { fp with maskImage := fp.maskImage.map fun m => drawImage qt painter m src }
      { st with firstPassJobs := st.firstPassJobs.set i fp1 }
    | none => st
  | none =>
    match st.labelJob.maskImages[target.2.toNat]? with
    | some m =>
      let m2 : Option QImage := m.map fun m1 => drawImage qt painter m1 src
      let labelJob1 : LabelRenderJob :=
        { st.labelJob with maskImages := st.labelJob.maskImages.set target.2.toNat m2 }
      { st with labelJob := labelJob1 }
    | none => st

/-- Loop "merge all mask images into the first one" of `composeSecondPass`;
`current` is the local `maskPainter` with the source it belongs to. A dereferenced null
or invalid pointer is `none`. -/
def mergeMasks (qt : QtBlend) : List MaskJob → Option (MaskJob × QPainter) → SecondPassState →
    Option SecondPassState
  | [], _, st => some st
  | p :: rest, current, st =>
    match maskImageOf st p with
    | none => none
    | some maskImage =>
      match current with
      | none => mergeMasks qt rest ((maskPainterOf st p).map fun q => (p, q)) st
      | some (target, painter) =>
        match maskImage with
        | none => none
        | some m => mergeMasks qt rest current (drawOnMask qt st target painter m)

/-- Body of the loop of `composeSecondPass` for one second-pass job: returns the updated
shared state and the updated job; `none` when a null pointer is dereferenced. -/
def composeSecondPassJob (qt : QtBlend) (st : SecondPassState) (job : LayerRenderJob) :
    Option (SecondPassState × LayerRenderJob) :=
  match (if job.maskJobs.length > 1 then mergeMasks qt job.maskJobs none st else some st) with
  | none => none
  | some st1 =>
    match job.maskJobs with
    | [] => some (st1, job)
    | p :: _ =>
      match maskImageOf st1 p, job.context.painter, job.firstPassJob with
      | some (some maskImage), some painter0, some fpIdx =>
        -- only retain parts of the second rendering that are inside the mask image
        let painter := painter0.setCompositionMode .DestinationIn
        let img2 := job.img.map fun im => drawImage qt painter im maskImage
        let job1 : LayerRenderJob :=
          { job with context := { job.context with painter := some painter }, img := img2 }
        match st1.firstPassJobs[fpIdx]?, img2 with
        | some fp, some secondImage =>
          -- reuse the first pass painter, if available, else a temporary painter
          let painter1 : QPainter := (fp.context.painter.getD QPainter.fresh).setCompositionMode .DestinationOut
          let img1a := fp.img.map fun im => drawImage qt painter1 im maskImage
          let painter1b := painter1.setCompositionMode .SourceOver
          let img1b := img1a.map fun im => drawImage qt painter1b im secondImage
          let fp1 : LayerRenderJob :=
            { fp with
              context := { fp.context with painter := fp.context.painter.map fun _ => painter1b }
              img := img1b }
          some ({ st1 with firstPassJobs := st1.firstPassJobs.set fpIdx fp1 }, job1)
        | _, _ => none
      | _, _, _ => none

/-- Function `QgsMapRendererJob::composeSecondPass`: the loop over the second-pass jobs. -/
def composeSecondPass (qt : QtBlend) : SecondPassState → List LayerRenderJob →
    Option (SecondPassState × List LayerRenderJob)
  | st, [] => some (st, [])
  | st, job :: rest =>
    match composeSecondPassJob qt st job with
    | none => none
    | some (st1, job1) =>
      match composeSecondPass qt st1 rest with
      | none => none
      | some (st2, rest1) => some (st2, job1 :: rest1)

/-- Whether two mask sources name the same mask buffer: the mask image of the same
first-pass job, or the label mask image at the same index. -/
def sameBuffer (p q : MaskJob) : Bool :=
  match p.1, q.1 with
  | some i, some j => decide (i = j)
  | none, none => decide (p.2.toNat = q.2.toNat)
  | _, _ => false

/-- Each job of the list composed on its own from the state `st`, the other jobs left
out: the jobs as `composeSecondPass` would leave them if no job depended on the jobs
composed before it. -/
def composeIndependently (qt : QtBlend) (st : SecondPassState) :
    List LayerRenderJob → Option (List LayerRenderJob)
  | [] => some []
  | job :: rest =>
    match composeSecondPassJob qt st job, composeIndependently qt st rest with
    | some r, some rs => some (r.2 :: rs)
    | _, _ => none

/-- Every alpha value of the image lies in [0, 1]. -/
def QImage.alphaValid (img : QImage) : Prop :=
  ∀ x y, 0 ≤ (img.pixel x y).a ∧ (img.pixel x y).a ≤ 1

/-! ## Cleanup and cache commit: `cleanupJobs`, `cleanupLabelJob` -/

/-- One executed `mCache->setCacheImage( key, image, dependentLayers )`. -/
structure CacheWrite where
  key : String
  image : QImage
  dependentLayers : List String

/-- The cache after a recorded write. -/
def CacheWrite.apply (c : QgsMapRendererCache) (w : CacheWrite) : QgsMapRendererCache :=
  c.setCacheImage w.key w.image w.dependentLayers

/-- Cache write made by `cleanupJobs` for one job, if any: the test
`job.img` and `mCache && !job.cached && !job.context.renderingStopped() && job.layer`,
then `setCacheImage( job.layerId, *job.img, QList< QgsMapLayer * >() << job.layer )`. -/
def jobCacheWrite (cache : Option QgsMapRendererCache) (job : LayerRenderJob) :
    Option CacheWrite :=
  match job.img, job.layer with
  | some img, some layer =>
    if cache.isSome && !job.cached && !job.context.renderingStopped then
      some ⟨job.layerId, img, [layer.id]⟩
    else none
  | _, _ => none

/-- Body of the loop of `cleanupJobs` for one job: the new object state, the job as it is
left (before `jobs.clear()`), and the cache write made. A deleted mask image leaves its
pointer field as it was. -/
def cleanupJob (st : JobState) (job : LayerRenderJob) :
    JobState × LayerRenderJob × Option CacheWrite :=
  let write := jobCacheWrite st.mCache job
  let cache1 :=
    match write with
    | some w => st.mCache.map fun c => w.apply c
    | none => st.mCache
  let job1 : LayerRenderJob :=
    match job.img with
    | some _ => { job with context := { job.context with painter := none }, img := none }
    | none => job
  let job2 : LayerRenderJob :=
    match job1.maskImage with
    | some _ => { job1 with context := { job1.context with maskPainter := none } }
    | none => job1
  let errors1 :=
    match job2.renderer with
    | some r => st.mErrors ++ r.errors.map fun message => ⟨r.layerId, message⟩
    | none => st.mErrors
  let job3 : LayerRenderJob := { job2 with renderer := none }
  let times1 :=
    match job3.layer with
    | some layer => (layer.id, job3.renderingTime) :: st.mPerLayerRenderingTime
    | none => st.mPerLayerRenderingTime
  ({ st with mCache := cache1, mErrors := errors1, mPerLayerRenderingTime := times1 }, job3, write)

/-- Result of a cleanup function: the object state, the jobs as they were left before
the list was cleared, the list itself afterwards, and the cache writes made, in order. -/
structure CleanupResult where
  state : JobState
  released : List LayerRenderJob
  jobs : List LayerRenderJob
  cacheWrites : List CacheWrite

/-- The loop of `cleanupJobs` over the jobs. -/
def cleanupJobsLoop : List LayerRenderJob → JobState →
    JobState × List LayerRenderJob × List CacheWrite
  | [], st => (st, [], [])
  | job :: rest, st =>
    match cleanupJob st job with
    | (st1, job1, write) =>
      match cleanupJobsLoop rest st1 with
      | (st2, released, writes) => (st2, job1 :: released, write.toList ++ writes)

/-- Function `QgsMapRendererJob::cleanupJobs`: the loop, then `jobs.clear()`. -/
def cleanupJobs (st : JobState) (jobs : List LayerRenderJob) : CleanupResult :=
  match cleanupJobsLoop jobs st with
  | (st1, released, writes) => ⟨st1, released, [], writes⟩

/-- Modelled from the spec: `_qgis_listQPointerToRaw( participatingLayers )`, the
"full set of participating layers" of the label job as a dependency list. -/
def participatingLayerIds (job : LabelRenderJob) : List String :=
  job.participatingLayers.map (·.id)

/-- Cache write made by `cleanupLabelJob`, if any. -/
def labelCacheWrite (cache : Option QgsMapRendererCache) (job : LabelRenderJob) :
    Option CacheWrite :=
  match job.img with
  | some img =>
    if cache.isSome && !job.cached && !job.context.renderingStopped then
      some ⟨LABEL_CACHE_ID, img, participatingLayerIds job⟩
    else none
  | none => none

/-- Call `setMaskPainter( nullptr, maskId )` for every `maskId` below `count`. -/
def clearMaskPainters (painters : List (Option QPainter)) (count : Nat) :
    List (Option QPainter) :=
  (List.range (max painters.length count)).map fun i =>
    if i < count then none else (painters[i]?).join

/-- Function `QgsMapRendererJob::cleanupLabelJob`: the new object state, the label job
afterwards and the cache write made. The deleted mask images stay in `maskImages`. -/
def cleanupLabelJob (st : JobState) (job : LabelRenderJob) :
    JobState × LabelRenderJob × Option CacheWrite :=
  let write := labelCacheWrite st.mCache job
  let cache1 :=
    match write with
    | some w => st.mCache.map fun c => w.apply c
    | none => st.mCache
  let job1 : LabelRenderJob := { job with img := none }
  let context1 : QgsRenderContext :=
    { job1.context with
      maskPainters := clearMaskPainters job1.context.maskPainters job1.maskImages.length }
  ({ st with mCache := cache1 }, { job1 with context := context1 }, write)

/-! ## Label cache check: `prepareLabelCache` -/

/-- Test `vl && QgsPalLabeling::staticWillUseLayer( vl )`. -/
def QgsMapLayer.willBeLabeled (ml : QgsMapLayer) : Bool :=
  ml.type = .VectorLayer && ml.staticWillUseLayer

/-- Test `vl && vl->labelsEnabled() && vl->labeling()->requiresAdvancedEffects()`. -/
def QgsMapLayer.labelsNeedAdvancedEffects (ml : QgsMapLayer) : Bool :=
  ml.type = .VectorLayer && ml.labelsEnabled && ml.labelingRequiresAdvancedEffects

/-- The `for` loop of `prepareLabelCache` with its `break`: the layers collected in
`labeledLayers` (by id) and the value of `canCache`. -/
def scanLabeledLayers : List QgsMapLayer → List String → Bool → List String × Bool
  | [], labeled, canCache => (labeled, canCache)
  | ml :: rest, labeled, canCache =>
    let labeled1 := if ml.willBeLabeled then labeled ++ [ml.id] else labeled
    if ml.labelsNeedAdvancedEffects then (labeled1, false)
    else scanLabeledLayers rest labeled1 canCache

/-- Function `QgsMapRendererJob::prepareLabelCache`: the returned `canCache` and the
object state (the cache may lose its label image). -/
def prepareLabelCache (st : JobState) : Bool × JobState :=
  let scan := scanLabeledLayers st.mSettings.layers [] st.mCache.isSome
  match st.mCache with
  | some c =>
    if c.hasCacheImage LABEL_CACHE_ID then
      let canUseCache := scan.2 &&
        decide ((c.dependentLayers LABEL_CACHE_ID).toFinset = scan.1.toFinset)
      if !canUseCache then (scan.2, { st with mCache := some (c.clearCacheImage LABEL_CACHE_ID) })
      else (scan.2, st)
    else (scan.2, st)
  | none => (scan.2, st)

/-- Ids of the vector layers of the stack that will be labeled, in stack order. -/
def labeledLayerIds (settings : QgsMapSettings) : List String :=
  (settings.layers.filter (·.willBeLabeled)).map (·.id)

/-! ## Second-pass planner: `prepareSecondPassJobs` -/

/-- Local struct `MaskSource` of `prepareSecondPassJobs`. -/
structure MaskSource where
  layerId : String
  labelRuleId : String
  labelMaskId : Int
deriving DecidableEq

/-- Local `maskedSymbolLayers`, a
`QHash<QString, QPair<QSet<QgsSymbolLayerId>, QList<MaskSource>>>`: one row per key. -/
abbrev MaskedSymbolLayers := List (String × List QgsSymbolLayerId × List MaskSource)

/-- One iteration of the `for` loop of the lambda `collectMasks`, on the entry `it` of
`masks` for the source `src`. -/
def collectMask (src : MaskSource) (m : MaskedSymbolLayers)
    (it : String × List QgsSymbolLayerId) : MaskedSymbolLayers :=
  match m.lookup it.1 with
  | none => m ++ [(it.1, it.2, [src])]
  | some lit =>
    if lit.1.toFinset ≠ it.2.toFinset then m
    else m.map fun e => if e.1 = it.1 then (e.1, e.2.1, e.2.2 ++ [src]) else e

/-- One pass of the loop body of `collectMasks`, as recorded in the log `requests`. -/
structure MaskRequest where
  source : MaskSource
  target : String
  symbolLayers : List QgsSymbolLayerId

/-- Locals `layerJobMapping` (latest assignment first; a first-pass job is its index),
`layerHasMask` and `maskedSymbolLayers` of `prepareSecondPassJobs`; `requests` logs the
iterations of the loop of `collectMasks` in execution order. -/
structure MaskCollection where
  layerJobMapping : List (String × Nat) := []
  layerHasMask : List String := []
  maskedSymbolLayers : MaskedSymbolLayers := []
  requests : List MaskRequest := []

/-- Lambda `collectMasks( masks, sourceLayerId, ruleId, labelMaskId )`; `masks` lists the
hash in iteration order. -/
def collectMasks (col : MaskCollection) (masks : List (String × List QgsSymbolLayerId))
    (sourceLayerId ruleId : String) (labelMaskId : Int) : MaskCollection :=
  { col with
    maskedSymbolLayers :=
      masks.foldl (collectMask ⟨sourceLayerId, ruleId, labelMaskId⟩) col.maskedSymbolLayers
    layerHasMask :=
      if masks.isEmpty then col.layerHasMask else col.layerHasMask ++ [sourceLayerId]
    requests :=
      col.requests ++ masks.map fun it => ⟨⟨sourceLayerId, ruleId, labelMaskId⟩, it.1, it.2⟩ }

/-- The set `slRefs` built from the masks of one label rule. -/
def symbolLayerReferences (masks : List (String × List QgsSymbolLayerId)) :
    List QgsSymbolLayerReference :=
  masks.flatMap fun mit => mit.2.map fun sl => (mit.1, sl)

/-- Body of the loop over `labelMasks` for the vector layer `vlId`: a mask id for the
rule, then `collectMasks`. -/
def collectLabelRule (vlId : String) (acc : MaskCollection × QgsMaskIdProvider)
    (it : String × List (String × List QgsSymbolLayerId)) :
    MaskCollection × QgsMaskIdProvider :=
  let inserted := insertLabelLayer acc.2 vlId it.1 (symbolLayerReferences it.2)
  (collectMasks acc.1 it.2 vlId it.1 inserted.1, inserted.2)

/-- Body of the first loop over `firstPassJobs`, for the job at index `ij.1`: jobs
without a vector layer are skipped. -/
def collectJobMasks (acc : MaskCollection × QgsMaskIdProvider) (ij : Nat × LayerRenderJob) :
    MaskCollection × QgsMaskIdProvider :=
  match ij.2.layer.bind QgsMapLayer.asVectorLayer with
  | none => acc
  | some vl =>
    let col0 : MaskCollection :=
      { acc.1 with layerJobMapping := (vl.id, ij.1) :: acc.1.layerJobMapping }
    let labels := vl.labelMasks.foldl (collectLabelRule vl.id) (col0, acc.2)
    (collectMasks labels.1 vl.symbolLayerMasks vl.id "" (-1), labels.2)

/-- First loop of `prepareSecondPassJobs`: the locals and the mask id provider of the
label job afterwards. -/
def collectAllMasks (firstPassJobs : List LayerRenderJob) (labelJob : LabelRenderJob) :
    MaskCollection × QgsMaskIdProvider :=
  firstPassJobs.enum.foldl collectJobMasks ({}, labelJob.maskIdProvider)

/-- Null pointer dereferenced by `prepareSecondPassJobs`. -/
inductive NullDereference where
  | layer
  | maskImage
  | vectorLayer
  | mapRenderer
deriving DecidableEq

/-- Statement `if ( job.img == nullptr ) job.context.setPainter(
allocateImageAndPainter( ml->id(), job.img ) )`. -/
def ensureJobImage (st : JobState) (ml : QgsMapLayer) (job : LayerRenderJob) :
    LayerRenderJob × JobState :=
  if job.img.isNone then
    let a := allocateImageAndPainter st ml.id
    ({ job with img := a.2.1, context := { job.context with painter := a.1 } }, a.2.2)
  else (job, st)

/-- Statement `if ( layerHasMask.contains( ml->id() ) )` with its body;
`job.maskImage->fill( 0 )` dereferences without a test. -/
def allocateMaskImage (layerHasMask : List String) (st : JobState) (ml : QgsMapLayer)
    (job : LayerRenderJob) : Except NullDereference (LayerRenderJob × JobState) :=
  if ml.id ∈ layerHasMask then
    let b := allocateImageAndPainter st ml.id
    match b.2.1 with
    | none => .error .maskImage
    | some image =>
      .ok ({ job with
             maskImage := some (image.fill ⟨0, 0, 0, 0⟩)
             context := { job.context with maskPainter := b.1 } }, b.2.2)
  else .ok (job, st)

/-- Body of the second loop of `prepareSecondPassJobs`; `ml->id()` dereferences without a
test. -/
def allocateFirstPassJob (layerHasMask : List String) (st : JobState)
    (job : LayerRenderJob) : Except NullDereference (LayerRenderJob × JobState) :=
  match job.layer with
  | none => .error .layer
  | some ml =>
    let r := ensureJobImage st ml job
    allocateMaskImage layerHasMask r.2 ml r.1

/-- Second loop of `prepareSecondPassJobs` (images and mask images of the first-pass
jobs). -/
def allocateFirstPass (layerHasMask : List String) :
    List LayerRenderJob → JobState → Except NullDereference (List LayerRenderJob × JobState)
  | [], st => .ok ([], st)
  | job :: rest, st =>
    match allocateFirstPassJob layerHasMask st job with
    | .error e => .error e
    | .ok r => (allocateFirstPass layerHasMask rest r.2).map fun rs => (r.1 :: rs.1, rs.2)

/-- Method `QgsRenderContext::setMaskPainter( p, id )` on the painters indexed by mask
id. -/
def setMaskPainterAt (painters : List (Option QPainter)) (maskId : Nat)
    (p : Option QPainter) : List (Option QPainter) :=
  (List.range (max painters.length (maskId + 1))).map fun i =>
    if i = maskId then p else (painters[i]?).join

/-- Loop "Prepare label mask images" from `maskId` on, `count` iterations left. -/
def allocateLabelMasks : Nat → Nat → LabelRenderJob → JobState →
    Except NullDereference (LabelRenderJob × JobState)
  | _, 0, labelJob, st => .ok (labelJob, st)
  | maskId, count + 1, labelJob, st =>
    let a := allocateImageAndPainter st "label mask"
    match a.2.1 with
    | none => .error .maskImage
    | some image =>
      let labelJob1 : LabelRenderJob :=
        { labelJob with
          context :=
            { labelJob.context with
              maskPainters := setMaskPainterAt labelJob.context.maskPainters maskId a.1 }
          maskImages := labelJob.maskImages ++ [some (image.fill ⟨0, 0, 0, 0⟩)] }
      allocateLabelMasks (maskId + 1) count labelJob1 a.2.2

/-- Entry pushed on `job2.maskJobs` for the mask source `source`; a key missing from
`layerJobMapping` reads as a null pointer. -/
def maskJobOf (layerJobMapping : List (String × Nat)) (source : MaskSource) :
    Option Nat × Int :=
  if source.labelMaskId ≠ -1 then (none, source.labelMaskId)
  else (layerJobMapping.lookup source.layerId, -1)

/-- Body of the loop "Prepare second pass jobs" for the first-pass job at index `i`: the
job appended to `secondPassJobs` (none after `continue` or `removeLast`) and the object
state. `vl1->id()` and `mapRenderer->featureRenderer()` dereference without a test. The
disabled symbol layers are kept as their ids. -/
def secondPassJob (col : MaskCollection) (st : JobState) (i : Nat) (job : LayerRenderJob) :
    Except NullDereference (Option LayerRenderJob × JobState) :=
  match job.layer with
  | none => .error .layer
  | some ml =>
    match col.maskedSymbolLayers.lookup ml.id with
    | none => .ok (none, st)
    | some it =>
      match ml.asVectorLayer with
      | none => .error .vectorLayer
      | some vl1 =>
        let a := allocateImageAndPainter st vl1.id
        let job2 : LayerRenderJob :=
          { job with
            cached := false
            firstPassJob := some i
            context := { job.context with maskPainter := none, painter := a.1 }
            img := a.2.1 }
        match a.2.1 with
        | none => .ok (none, a.2.2)
        | some _ =>
          match vl1.mapRenderer with
          | none => .error .mapRenderer
          | some mapRenderer =>
            .ok (some
              { job2 with
                maskJobs := job2.maskJobs ++ it.2.map (maskJobOf col.layerJobMapping)
                renderer := some mapRenderer
                context := { job2.context with disabledSymbolLayers := it.1 } },
              { a.2.2 with renderersCreated := a.2.2.renderersCreated ++ [vl1.id] })

/-- Loop "Prepare second pass jobs" over the first-pass jobs from index `i` on. -/
def secondPassLoop (col : MaskCollection) :
    Nat → List LayerRenderJob → JobState →
      Except NullDereference (List LayerRenderJob × JobState)
  | _, [], st => .ok ([], st)
  | i, job :: rest, st =>
    match secondPassJob col st i job with
    | .error e => .error e
    | .ok r =>
      (secondPassLoop col (i + 1) rest r.2).map fun rs => (r.1.toList ++ rs.1, rs.2)

/-- Outcome of `prepareSecondPassJobs`: the object state, the two reference parameters
and the returned list. -/
structure SecondPassPlan where
  state : JobState
  firstPassJobs : List LayerRenderJob
  labelJob : LabelRenderJob
  secondPassJobs : List LayerRenderJob

/-- Allocation of the label image, `if ( labelJob.img == nullptr )`. -/
def allocateLabelImage (st : JobState) (labelJob : LabelRenderJob) :
    LabelRenderJob × JobState :=
  if labelJob.img.isNone then
    ({ labelJob with img := (allocateImage st "labels").1 }, (allocateImage st "labels").2)
  else (labelJob, st)

/-- Function `QgsMapRendererJob::prepareSecondPassJobs`; an error is a dereferenced null
pointer. -/
def prepareSecondPassJobs (st : JobState) (firstPassJobs : List LayerRenderJob)
    (labelJob : LabelRenderJob) : Except NullDereference SecondPassPlan :=
  let collected := collectAllMasks firstPassJobs labelJob
  let labelJob0 : LabelRenderJob := { labelJob with maskIdProvider := collected.2 }
  if collected.1.maskedSymbolLayers.isEmpty then .ok ⟨st, firstPassJobs, labelJob0, []⟩
  else
    match allocateFirstPass collected.1.layerHasMask firstPassJobs st with
    | .error e => .error e
    | .ok first =>
      let labelled := allocateLabelImage first.2 labelJob0
      match allocateLabelMasks 0 labelJob0.maskIdProvider.length labelled.1 labelled.2 with
      | .error e => .error e
      | .ok masks =>
        match secondPassLoop collected.1 0 first.1 masks.2 with
        | .error e => .error e
        | .ok second => .ok ⟨second.2, first.1, masks.1, second.1⟩

/-- The table `maskedSymbolLayers` after the logged requests `reqs`, from the table `m`. -/
def replayRequests (m : MaskedSymbolLayers) (reqs : List MaskRequest) : MaskedSymbolLayers :=
  reqs.foldl (fun acc r => collectMask r.source acc (r.target, r.symbolLayers)) m

/-- Sources of the requests on the target `t` whose symbol-layer set equals `first`, in
request order. -/
def matchingSources (t : String) (first : List QgsSymbolLayerId) (reqs : List MaskRequest) :
    List MaskSource :=
  (reqs.filter fun r =>
    decide (r.target = t) && decide (r.symbolLayers.toFinset = first.toFinset)).map (·.source)

/-- First-seen-wins policy in the words of the specification: the retained set of a
target is the set of its first request, and its source list holds the sources of the
requests with an equal set, in request order. -/
def firstSeenWins (t : String) (reqs : List MaskRequest) :
    Option (List QgsSymbolLayerId × List MaskSource) :=
  (reqs.find? fun r => decide (r.target = t)).map fun r0 =>
    (r0.symbolLayers, matchingSources t r0.symbolLayers reqs)

/-- Targets of the mask declarations of a vector layer: those of its label masks, rule by
rule, then those of its symbol layer masks. -/
def declaredTargets (vl : QgsMapLayer) : List String :=
  vl.labelMasks.flatMap (fun it => it.2.map (·.1)) ++ vl.symbolLayerMasks.map (·.1)

/-- Targets of the mask declarations read from a first-pass job (none unless its layer
is a vector layer). -/
def jobMaskTargets (job : LayerRenderJob) : List String :=
  match job.layer.bind QgsMapLayer.asVectorLayer with
  | some vl => declaredTargets vl
  | none => []

/-- Layer ids that are the target of at least one mask declaration read from the
first-pass jobs. -/
def maskTargets (firstPassJobs : List LayerRenderJob) : List String :=
  firstPassJobs.flatMap jobMaskTargets

/-- Whether the layer id of a job is one of `targets`. -/
def isMaskTarget (targets : List String) (job : LayerRenderJob) : Bool :=
  match job.layer with
  | some ml => decide (ml.id ∈ targets)
  | none => false

/-- Fields of a second-pass job compared with its first-pass job. -/
structure SecondPassSummary where
  cached : Bool
  firstPassJob : Option Nat
  layer : Option QgsMapLayer
  layerId : String
  extent : QgsRectangle
  blendMode : CompositionMode
  opacity : ℚ
  maskJobs : List (Option Nat × Int)

/-- Summary of a job. -/
def LayerRenderJob.summary (job : LayerRenderJob) : SecondPassSummary :=
  ⟨job.cached, job.firstPassJob, job.layer, job.layerId, job.context.extent, job.blendMode,
    job.opacity, job.maskJobs⟩

/-- Retained mask sources of the layer of a job, in source-list order. -/
def retainedSources (col : MaskCollection) (job : LayerRenderJob) : List MaskSource :=
  match job.layer with
  | some ml => ((col.maskedSymbolLayers.lookup ml.id).map (·.2)).getD []
  | none => []

/-- Second-pass job expected for the first-pass job `ij.2` at index `ij.1`: not cached,
referring to index `ij.1`, with the layer, extent and blend settings of the first-pass
job, and one mask job per retained source after the mask jobs of the first-pass job. -/
def expectedSecondPass (col : MaskCollection) (ij : Nat × LayerRenderJob) :
    SecondPassSummary :=
  ⟨false, some ij.1, ij.2.layer, ij.2.layerId, ij.2.context.extent, ij.2.blendMode,
    ij.2.opacity,
    ij.2.maskJobs ++ (retainedSources col ij.2).map (maskJobOf col.layerJobMapping)⟩

/-- Fields of a first-pass job that a second-pass job takes over. -/
def LayerRenderJob.planInput (job : LayerRenderJob) :
    Option QgsMapLayer × String × QgsRectangle × CompositionMode × ℚ ×
      List (Option Nat × Int) :=
  (job.layer, job.layerId, job.context.extent, job.blendMode, job.opacity, job.maskJobs)

/-- The object `st1` has the allocator and settings of `st` and is not behind it. -/
def SameAllocator (st st1 : JobState) : Prop :=
  st1.newImage = st.newImage ∧ st1.mSettings = st.mSettings ∧ st.allocations ≤ st1.allocations

/-- Whether a vector layer declares a non-empty label mask or symbol layer mask. -/
def declaresMask (vl : QgsMapLayer) : Bool :=
  vl.labelMasks.any (fun it => !it.2.isEmpty) || !vl.symbolLayerMasks.isEmpty

/-- Layer id of a first-pass job whose vector layer declares a mask. -/
def jobMaskSourceIds (job : LayerRenderJob) : List String :=
  match job.layer.bind QgsMapLayer.asVectorLayer with
  | some vl => if declaresMask vl then [vl.id] else []
  | none => []

/-- Ids of the layers that are a mask source: vector layers of first-pass jobs that
declare a non-empty label mask or symbol layer mask. -/
def maskSourceIds (firstPassJobs : List LayerRenderJob) : List String :=
  firstPassJobs.flatMap jobMaskSourceIds

/-- Whether the layer id of a job is one of the mask sources `sources`. -/
def isMaskSource (sources : List String) (job : LayerRenderJob) : Bool :=
  match job.layer with
  | some ml => decide (ml.id ∈ sources)
  | none => false

/-- Every pixel of the image is 0. -/
def QImage.isTransparent (img : QImage) : Prop := ∀ x y, img.pixel x y = ⟨0, 0, 0, 0⟩

/-- Image made by the allocation number `n` of the object `st` (null when it fails). -/
def allocatedImage (st : JobState) (n : Nat) : Option QImage :=
  (st.newImage n).map fun px =>
    ⟨st.mSettings.deviceOutputWidth, st.mSettings.deviceOutputHeight, px⟩

/-! ## Second-pass cleanup and label job: `cleanupSecondPassJobs`, `prepareLabelingJob` -/

/-- Body of the loop of `cleanupSecondPassJobs` for one job: the new object state and the
job as it is left (before `jobs.clear()`). -/
def cleanupSecondPassJob (st : JobState) (job : LayerRenderJob) : JobState × LayerRenderJob :=
  let job1 : LayerRenderJob :=
    match job.img with
    | some _ => { job with context := { job.context with painter := none }, img := none }
    | none => job
  let job2 : LayerRenderJob := { job1 with renderer := none }
  let times1 :=
    match job2.layer with
    | some layer => (layer.id, job2.renderingTime) :: st.mPerLayerRenderingTime
    | none => st.mPerLayerRenderingTime
  ({ st with mPerLayerRenderingTime := times1 }, job2)

/-- The loop of `cleanupSecondPassJobs` over the jobs. -/
def cleanupSecondPassJobsLoop : List LayerRenderJob → JobState →
    JobState × List LayerRenderJob
  | [], st => (st, [])
  | job :: rest, st =>
    let r := cleanupSecondPassJob st job
    let rs := cleanupSecondPassJobsLoop rest r.1
    (rs.1, r.2 :: rs.2)

/-- Function `QgsMapRendererJob::cleanupSecondPassJobs`: the loop, then `jobs.clear()`;
it contains no cache call, so the list of cache writes is empty. -/
def cleanupSecondPassJobs (st : JobState) (jobs : List LayerRenderJob) : CleanupResult :=
  let r := cleanupSecondPassJobsLoop jobs st
  ⟨r.1, r.2, [], []⟩

/-- Test `canUseLabelCache && mCache && mCache->hasCacheImage( LABEL_CACHE_ID )`. -/
def hasLabelCache (st : JobState) (canUseLabelCache : Bool) : Bool :=
  canUseLabelCache &&
    match st.mCache with
    | some c => c.hasCacheImage LABEL_CACHE_ID
    | none => false

/-- Function `QgsMapRendererJob::prepareLabelingJob`: the returned label job and the
object state (a failed allocation appends an error). -/
def prepareLabelingJob (st : JobState) (painter : Option QPainter) (labelingEngine2 : Bool)
    (canUseLabelCache : Bool) : LabelRenderJob × JobState :=
  let context : QgsRenderContext :=
    { painter := painter
      hasLabelingEngine := labelingEngine2
      extent := st.mSettings.visibleExtent
      hasFeatureFilterProvider := st.mFeatureFilterProvider }
  let job : LabelRenderJob := { context := context }
  if hasLabelCache st canUseLabelCache then
    -- if we can use the cache, do it and avoid rendering
    ({ job with
       cached := true
       complete := true
       img := st.mCache.map fun c => c.cacheImage LABEL_CACHE_ID
       context := { context with painter := none } }, st)
  else if canUseLabelCache && (st.mCache.isSome || painter.isNone) then
    ({ job with img := (allocateImage st "labels").1 }, (allocateImage st "labels").2)
  else (job, st)

/-! ### Example scene: layers A, B, C with only C flagged render-above-labels -/

/-- Image of layer A in the example scene: opaque red. -/
def exampleImageA : QImage := QImage.filled 1 1 ⟨1, 0, 0, 1⟩

/-- Image of layer B in the example scene: opaque green. -/
def exampleImageB : QImage := QImage.filled 1 1 ⟨0, 1, 0, 1⟩

/-- Image of layer C in the example scene: opaque blue. -/
def exampleImageC : QImage := QImage.filled 1 1 ⟨0, 0, 1, 1⟩

/-- Label image of the example scene: half-transparent black. -/
def exampleImageLabels : QImage := QImage.filled 1 1 ⟨0, 0, 0, 1 / 2⟩

/-- Job of layer A (bottom). -/
def exampleJobA : LayerRenderJob :=
  { layer := some { id := "A" }, layerId := "A", img := some exampleImageA,
    imageInitialized := true }

/-- Job of layer C (top), flagged render-above-labels. -/
def exampleJobC : LayerRenderJob :=
  { layer := some { id := "C", renderAboveLabels := true }, layerId := "C",
    img := some exampleImageC, imageInitialized := true }

/-- Complete label job of the example scene. -/
def exampleLabelJob : LabelRenderJob :=
  { img := some exampleImageLabels, complete := true }

/-- Paint engine stand-in for the example scene: Multiply and the other passed-on modes
leave the destination unchanged. -/
def exampleBlend : QtBlend := fun _ _ _ d => d

/-- Identity coordinate transform that is not valid (no reprojection is made). -/
def exampleNoTransform : QgsCoordinateTransform :=
  { isValid := false, destinationCrsIsGeographic := false,
    bbox := fun _ r _ => .ok r, point := fun _ x y _ => .ok ⟨x, y⟩ }

/-- Map settings of the example scene, layer list top first: C, B, A. -/
def exampleSettings : QgsMapSettings :=
  { layers := [{ id := "C", renderAboveLabels := true },
      { id := "B", blendMode := .Other 13, opacity := 1 / 2 }, { id := "A" }],
    scale := .finite 1000,
    visibleExtent := ⟨.finite 0, .finite 0, .finite 10, .finite 10⟩,
    layerTransform := fun _ => exampleNoTransform }

/-! ### Example mask scene: one masked layer, one mask source with a soft mask edge -/

/-- Mask of the example mask scene: a pixel of the mask boundary, alpha one half. -/
def exampleMask : QImage := QImage.filled 1 1 ⟨0, 0, 0, 1 / 2⟩

/-- First-pass job of the masked layer: opaque red content, its own painter. -/
def exampleMaskedJob : LayerRenderJob :=
  { layer := some { id := "roads" }, layerId := "roads", img := some exampleImageA,
    imageInitialized := true, context := { painter := some QPainter.fresh } }

/-- First-pass job of the mask source, owner of the mask image. -/
def exampleMaskSourceJob : LayerRenderJob :=
  { layer := some { id := "places" }, layerId := "places", img := some exampleImageB,
    imageInitialized := true, maskImage := some exampleMask,
    context := { painter := some QPainter.fresh, maskPainter := some QPainter.fresh } }

/-- Second-pass job of the masked layer: same opaque content, one mask source. -/
def exampleSecondPassJob : LayerRenderJob :=
  { layer := some { id := "roads" }, layerId := "roads", img := some exampleImageA,
    imageInitialized := true, context := { painter := some QPainter.fresh },
    firstPassJob := some 0, maskJobs := [(some 1, -1)] }

/-- Shared state of the example mask scene. -/
def exampleMaskState : SecondPassState :=
  { firstPassJobs := [exampleMaskedJob, exampleMaskSourceJob], labelJob := {} }

/-! ### Example: a cached layer that is being edited, and one outside its scale range -/

/-- Vector layer in edit mode. -/
def exampleEditedLayer : QgsMapLayer :=
  { id := "edited", isEditable := true, mapRenderer := some { layerId := "edited" } }

/-- Vector layer in edit mode that is outside its scale-visibility range. -/
def exampleHiddenEditedLayer : QgsMapLayer :=
  { id := "edited", isEditable := true, isInScaleRange := fun _ => false,
    mapRenderer := some { layerId := "edited" } }

/-- Vector layer that is not edited and not labeled. -/
def examplePlainLayer : QgsMapLayer :=
  { id := "plain", mapRenderer := some { layerId := "plain" } }

/-- Cache captured at the extent and scale of the example, holding an image for the
layers "edited" and "plain". -/
def exampleCache : QgsMapRendererCache :=
  { extent := ⟨.finite 0, .finite 0, .finite 10, .finite 10⟩
    scale := .finite 1000
    images := fun k =>
      if k = "edited" then some ⟨exampleImageA, ["edited"]⟩
      else if k = "plain" then some ⟨exampleImageB, ["plain"]⟩
      else none }

/-- Renderer job object over a one-layer stack, with the example cache. -/
def exampleJobState (ml : QgsMapLayer) : JobState :=
  { mSettings :=
      { layers := [ml], scale := .finite 1000,
        visibleExtent := ⟨.finite 0, .finite 0, .finite 10, .finite 10⟩,
        layerTransform := fun _ => exampleNoTransform }
    mCache := some exampleCache }

/-! ### Example transforms for the extent reprojector -/

/-- Longitude of a 0..360 system brought back into (-180, 180]. -/
def wrapLongitude : Double → Double
  | .finite q => .finite (if 180 < q then q - 360 else q)
  | d => d

/-- Transform whose destination is a geographic CRS with longitudes 0..360: the reverse
transform wraps longitudes, the bounding box spans the two wrapped corners. -/
def exampleWrapTransform : QgsCoordinateTransform :=
  { isValid := true
    destinationCrsIsGeographic := true
    point := fun _ x y _ => .ok ⟨wrapLongitude x, y⟩
    bbox := fun _ r _ =>
      if (wrapLongitude r.xMinimum).le (wrapLongitude r.xMaximum) then
        .ok ⟨wrapLongitude r.xMinimum, r.yMinimum, wrapLongitude r.xMaximum, r.yMaximum⟩
      else .ok ⟨wrapLongitude r.xMaximum, r.yMinimum, wrapLongitude r.xMinimum, r.yMaximum⟩ }

/-- Vector layer with a geographic CRS. -/
def exampleGeographicLayer : QgsMapLayer := { id := "countries", crsIsGeographic := true }

/-- Raster layer with a geographic CRS. -/
def exampleRasterLayer : QgsMapLayer :=
  { id := "relief", type := .RasterLayer, crsIsGeographic := true }

/-- Vector layer with a projected CRS. -/
def exampleProjectedLayer : QgsMapLayer := { id := "parcels", crsIsGeographic := false }

/-- View extent across the antimeridian in the 0..360 system: x 170..190, y 10..20. -/
def exampleSeamExtent : QgsRectangle := ⟨.finite 170, .finite 10, .finite 190, .finite 20⟩

/-- View extent x 0..10, y 0..10. -/
def exampleSmallExtent : QgsRectangle := ⟨.finite 0, .finite 0, .finite 10, .finite 10⟩

/-- Transform to a projected CRS whose round trip diverges: every reverse bounding box is
(0, 0, 1, 1), every forward bounding box (100, 100, 200, 200). -/
def exampleDivergingTransform : QgsCoordinateTransform :=
  { isValid := true
    destinationCrsIsGeographic := false
    point := fun _ x y _ => .ok ⟨x, y⟩
    bbox := fun _ _ d =>
      match d with
      | .ReverseTransform => .ok ⟨.finite 0, .finite 0, .finite 1, .finite 1⟩
      | .ForwardTransform => .ok ⟨.finite 100, .finite 100, .finite 200, .finite 200⟩ }

/-- Transform to a geographic CRS that maps every rectangle and point to itself. -/
def exampleIdentityGeographic : QgsCoordinateTransform :=
  { isValid := true
    destinationCrsIsGeographic := true
    point := fun _ x y _ => .ok ⟨x, y⟩
    bbox := fun _ r _ => .ok r }

/-- Transform whose every operation raises `QgsCsException`. -/
def exampleFailingTransform : QgsCoordinateTransform :=
  { isValid := true
    destinationCrsIsGeographic := false
    point := fun _ _ _ _ => .error {}
    bbox := fun _ _ _ => .error {} }

/-! ### Example: a blended vector layer drawn without advanced effects -/

/-- Vector layer with blend mode Multiply (enumeration value 13) and opacity 0.5. -/
def exampleBlendLayer : QgsMapLayer :=
  { id := "B", blendMode := .Other 13, opacity := 1 / 2,
    mapRenderer := some { layerId := "B" } }

/-- Renderer job object without a cache over the one-layer stack of the blended layer,
the map settings flag `UseAdvancedEffects` being off. -/
def exampleFlatState : JobState :=
  { mSettings :=
      { layers := [exampleBlendLayer], scale := .finite 1000,
        visibleExtent := ⟨.finite 0, .finite 0, .finite 10, .finite 10⟩,
        layerTransform := fun _ => exampleNoTransform,
        flags := { useAdvancedEffects := false } } }

/-! ### Example: a layer whose extent cannot be transformed, and an exhausted allocator -/

/-- Transform whose reverse bounding box is infinite. -/
def exampleInfiniteTransform : QgsCoordinateTransform :=
  { isValid := true
    destinationCrsIsGeographic := false
    point := fun _ x y _ => .ok ⟨x, y⟩
    bbox := fun _ _ _ => .ok ⟨.negInf, .negInf, .posInf, .posInf⟩ }

/-- Vector layer whose layer transform is the infinite one. -/
def exampleFarLayer : QgsMapLayer := { id := "far", mapRenderer := some { layerId := "far" } }

/-- Renderer job object without a cache over the stack [plain, far], "far" being the
bottom layer. -/
def exampleFarState : JobState :=
  { mSettings :=
      { layers := [examplePlainLayer, exampleFarLayer], scale := .finite 1000,
        visibleExtent := ⟨.finite 0, .finite 0, .finite 10, .finite 10⟩,
        layerTransform := fun ml =>
          if ml.id = "far" then exampleInfiniteTransform else exampleNoTransform } }

/-- Renderer job object without a cache whose every image allocation gives a null image,
over the one-layer stack [plain]. -/
def exampleNoMemoryState : JobState :=
  { mSettings :=
      { layers := [examplePlainLayer], scale := .finite 1000,
        visibleExtent := ⟨.finite 0, .finite 0, .finite 10, .finite 10⟩,
        layerTransform := fun _ => exampleNoTransform }
    newImage := fun _ => none }

/-- Invalid vector layer. -/
def exampleInvalidLayer : QgsMapLayer := { id := "broken", isValid := false }

/-- Renderer job object without a cache over the one-layer stack of the invalid layer. -/
def exampleInvalidState : JobState :=
  { mSettings :=
      { layers := [exampleInvalidLayer], scale := .finite 1000,
        visibleExtent := ⟨.finite 0, .finite 0, .finite 10, .finite 10⟩,
        layerTransform := fun _ => exampleNoTransform } }

/-! ### Example: jobs to clean up, and a cached label image -/

/-- Freshly rendered job of layer A, not stopped. -/
def exampleRenderedJob : LayerRenderJob :=
  { layer := some { id := "A" }, layerId := "A", img := some exampleImageA,
    imageInitialized := true, context := { painter := some QPainter.fresh } }

/-- Job of layer B whose rendering was stopped. -/
def exampleStoppedJob : LayerRenderJob :=
  { layer := some { id := "B" }, layerId := "B", img := some exampleImageB,
    imageInitialized := true, context := { renderingStopped := true } }

/-- Freshly rendered label job with the participating layer A. -/
def exampleRenderedLabelJob : LabelRenderJob :=
  { img := some exampleImageLabels, complete := true, participatingLayers := [{ id := "A" }] }

/-- Labeled vector layer A. -/
def exampleLabeledLayer : QgsMapLayer := { id := "A", staticWillUseLayer := true }

/-- Cache holding a label image with the dependent layer A. -/
def exampleLabelCache : QgsMapRendererCache :=
  { extent := ⟨.finite 0, .finite 0, .finite 10, .finite 10⟩
    scale := .finite 1000
    images := fun k =>
      if k = "_labels_" then some ⟨exampleImageLabels, ["A"]⟩ else none }

/-- Renderer job object with the label cache over a given stack. -/
def exampleLabelState (layers : List QgsMapLayer) : JobState :=
  { mSettings :=
      { layers := layers, scale := .finite 1000,
        visibleExtent := ⟨.finite 0, .finite 0, .finite 10, .finite 10⟩,
        layerTransform := fun _ => exampleNoTransform }
    mCache := some exampleLabelCache }

/-! ### Example: three sources masking the target T -/

/-- First-pass job of a vector layer `id` that masks the symbol layers `sl` of T. -/
def exampleMaskingJob (id : String) (sl : List QgsSymbolLayerId) : LayerRenderJob :=
  { layer := some { id := id, symbolLayerMasks := [("T", sl)],
                    mapRenderer := some { layerId := id } },
    layerId := id }

/-- First-pass job of the vector layer T. -/
def exampleTargetJob : LayerRenderJob :=
  { layer := some { id := "T", mapRenderer := some { layerId := "T" } }, layerId := "T" }

/-- First-pass jobs: the target T, then sources V1 (set s1), V2 (set s2), V3 (set s1). -/
def exampleMaskJobs : List LayerRenderJob :=
  [exampleTargetJob, exampleMaskingJob "V1" ["s1"], exampleMaskingJob "V2" ["s2"],
    exampleMaskingJob "V3" ["s1"]]

/-- Renderer job object without cache whose allocations all succeed. -/
def examplePlannerState : JobState :=
  { mSettings :=
      { layers := [], scale := .finite 1000,
        visibleExtent := ⟨.finite 0, .finite 0, .finite 10, .finite 10⟩,
        layerTransform := fun _ => exampleNoTransform } }


/-! ### Example: jobs whose image is not initialised -/

/-- Job of layer D that has an image which is not yet safe to compose. -/
def exampleUninitializedJob : LayerRenderJob :=
  { layer := some { id := "D" }, layerId := "D", img := some exampleImageB }

/-- Job of the flagged layer E that has an image which is not yet safe to compose. -/
def exampleUninitializedAboveJob : LayerRenderJob :=
  { layer := some { id := "E", renderAboveLabels := true }, layerId := "E",
    img := some exampleImageC }

/-- Label job with an image that is not complete. -/
def exampleIncompleteLabelJob : LabelRenderJob := { img := some exampleImageLabels }

/-! ### Example: second-pass jobs to clean up -/

/-- Second-pass job of layer T after rendering: image, painter and renderer set. -/
def exampleRenderedSecondPassJob : LayerRenderJob :=
  { layer := some { id := "T" }, layerId := "T", img := some exampleImageA,
    imageInitialized := true, renderer := some { layerId := "T" },
    context := { painter := some QPainter.fresh }, firstPassJob := some 0,
    maskJobs := [(some 1, -1)] }

/-! ### Example: a layer whose labeling requires advanced effects -/

/-- Vector layer with labels enabled whose labeling requires advanced effects. -/
def exampleEffectsLayer : QgsMapLayer :=
  { id := "A", staticWillUseLayer := true, labelsEnabled := true,
    labelingRequiresAdvancedEffects := true }

/-! ### Example: allocations that fail while masks are declared -/

/-- Renderer job object without a cache whose first image allocation gives a null image
and whose later allocations succeed. -/
def exampleFirstAllocationFails : JobState :=
  { mSettings :=
      { layers := [], scale := .finite 1000,
        visibleExtent := ⟨.finite 0, .finite 0, .finite 10, .finite 10⟩,
        layerTransform := fun _ => exampleNoTransform }
    newImage := fun n => if n = 0 then none else some fun _ _ => ⟨0, 0, 0, 0⟩ }

/-- First-pass jobs without images: the target T, then the source V1 masking the set s1
of T. -/
def exampleUnallocatedJobs : List LayerRenderJob :=
  [exampleTargetJob, exampleMaskingJob "V1" ["s1"]]

/-- First-pass jobs without images: the target T, then the vector layer L whose label
rule r1 masks the set s1 of T, then the source V1 with a symbol layer mask on T. -/
def exampleLabelMaskJobs : List LayerRenderJob :=
  [exampleTargetJob,
    { layer := some { id := "L", labelMasks := [("r1", [("T", ["s1"])])],
                      mapRenderer := some { layerId := "L" } },
      layerId := "L" },
    exampleMaskingJob "V1" ["s1"]]

/-! ### Example mask scene with two mask sources -/

/-- Fully transparent mask of the first source. -/
def exampleEmptyMask : QImage := QImage.filled 1 1 ⟨0, 0, 0, 0⟩

/-- First mask source ("rivers"), with an empty mask. -/
def exampleFirstSourceJob : LayerRenderJob :=
  { layer := some { id := "rivers" }, layerId := "rivers", img := some exampleImageC,
    imageInitialized := true, maskImage := some exampleEmptyMask,
    context := { painter := some QPainter.fresh, maskPainter := some QPainter.fresh } }

/-- Shared objects of the scene: the masked job "roads", then the mask sources "rivers"
(empty mask) and "places" (mask of alpha 1/2). -/
def exampleTwoMaskState : SecondPassState :=
  { firstPassJobs := [exampleMaskedJob, exampleFirstSourceJob, exampleMaskSourceJob],
    labelJob := {} }

/-- Second-pass job of "roads" with the two mask sources "rivers" and "places". -/
def exampleTwoMaskJob : LayerRenderJob :=
  { layer := some { id := "roads" }, layerId := "roads", img := some exampleImageA,
    imageInitialized := true, context := { painter := some QPainter.fresh },
    firstPassJob := some 0, maskJobs := [(some 1, -1), (some 2, -1)] }

/-! ### Example: a round trip at the edge of the tolerance -/

/-- View extent (0, 0, 1, 1), of width and height 1. -/
def exampleUnitExtent : QgsRectangle := ⟨.finite 0, .finite 0, .finite 1, .finite 1⟩

/-- Transform to a projected CRS whose reverse bounding box is (5, 5, 6, 6) and whose
forward bounding box is (0.2, 0, 1, 1), 0.2 being the double of that literal. -/
def exampleEdgeTransform : QgsCoordinateTransform :=
  { isValid := true
    destinationCrsIsGeographic := false
    point := fun _ x y _ => .ok ⟨x, y⟩
    bbox := fun _ _ d =>
      match d with
      | .ReverseTransform => .ok ⟨.finite 5, .finite 5, .finite 6, .finite 6⟩
      | .ForwardTransform => .ok ⟨Double.pointTwo, .finite 0, .finite 1, .finite 1⟩ }

/-! # Verification -/

/-! ## Layer job scheduler -/

theorem allocateImageAndPainter_frame (st : JobState) (layerId : String) :
    (allocateImageAndPainter st layerId).2.2.mSettings = st.mSettings ∧
    (allocateImageAndPainter st layerId).2.2.mCache = st.mCache ∧
    (allocateImageAndPainter st layerId).2.2.renderersCreated = st.renderersCreated := by
  unfold allocateImageAndPainter allocateImage
  cases st.newImage st.allocations <;> simp

theorem prepareJobsLayer_settings (painter : Option QPainter) (le dp rl : Bool)
    (st : JobState) (ml : QgsMapLayer) :
    (prepareJobsLayer painter le dp rl st ml).1.mSettings = st.mSettings := by
  have h := (allocateImageAndPainter_frame
    { st with mCache := forceRenderCache st.mCache ml le rl } ml.id).1
  unfold prepareJobsLayer
  dsimp only
  split_ifs <;> try rfl
  split <;> simp_all

theorem prepareJobsLayer_layer (painter : Option QPainter) (le dp rl : Bool)
    (st : JobState) (ml : QgsMapLayer) (job : LayerRenderJob)
    (h : (prepareJobsLayer painter le dp rl st ml).2 = some job) : job.layer = some ml := by
  unfold prepareJobsLayer at h
  dsimp only at h
  split_ifs at h <;> try (simp at h)
  · subst h; rfl
  · split at h <;> simp at h
    subst h; rfl
  · subst h; rfl

/-- Generic invariant rule for the layer loop: a state invariant kept by every step and a
job property established by every step hold for the final state and all jobs. -/
theorem prepareJobsLoop_invariant (painter : Option QPainter) (le dp rl : Bool)
    (Inv : JobState → Prop) (P : LayerRenderJob → Prop) (layers : List QgsMapLayer)
    (hstep : ∀ ml ∈ layers, ∀ st, Inv st →
      Inv (prepareJobsLayer painter le dp rl st ml).1 ∧
      ∀ j, (prepareJobsLayer painter le dp rl st ml).2 = some j → P j)
    (st : JobState) (jobs : List LayerRenderJob) (hInv : Inv st) (hP : ∀ j ∈ jobs, P j) :
    Inv (prepareJobsLoop painter le dp rl layers st jobs).1 ∧
    ∀ j ∈ (prepareJobsLoop painter le dp rl layers st jobs).2, P j := by
  induction layers generalizing st jobs with
  | nil => exact ⟨hInv, hP⟩
  | cons ml rest ih =>
    have hs := hstep ml (List.mem_cons_self _ _) st hInv
    have hrest : ∀ ml1 ∈ rest, ∀ st, Inv st →
        Inv (prepareJobsLayer painter le dp rl st ml1).1 ∧
        ∀ j, (prepareJobsLayer painter le dp rl st ml1).2 = some j → P j :=
      fun ml1 h1 => hstep ml1 (List.mem_cons_of_mem _ h1)
    unfold prepareJobsLoop
    rcases hres : prepareJobsLayer painter le dp rl st ml with ⟨st1, _ | job⟩
    · rw [hres] at hs
      exact ih hrest st1 jobs hs.1 hP
    · rw [hres] at hs
      refine ih hrest st1 (jobs ++ [job]) hs.1 ?_
      intro j hj
      rcases List.mem_append.mp hj with h | h
      · exact hP j h
      · rw [List.mem_singleton.mp h]
        exact hs.2 job rfl

theorem prepareJobsLoop_layers (painter : Option QPainter) (le dp rl : Bool)
    (layers : List QgsMapLayer) (st : JobState) (jobs : List LayerRenderJob) :
    ∃ added : List (Option QgsMapLayer),
      (prepareJobsLoop painter le dp rl layers st jobs).2.map (·.layer) =
        jobs.map (·.layer) ++ added ∧
      added.Sublist (layers.map some) := by
  induction layers generalizing st jobs with
  | nil => exact ⟨[], by simp [prepareJobsLoop], List.Sublist.refl _⟩
  | cons ml rest ih =>
    unfold prepareJobsLoop
    rcases hres : prepareJobsLayer painter le dp rl st ml with ⟨st1, _ | job⟩
    · obtain ⟨added, h1, h2⟩ := ih st1 jobs
      exact ⟨added, h1, List.Sublist.cons _ h2⟩
    · obtain ⟨added, h1, h2⟩ := ih st1 (jobs ++ [job])
      have hl : job.layer = some ml :=
        prepareJobsLayer_layer painter le dp rl st ml job (by rw [hres])
      refine ⟨some ml :: added, ?_, List.Sublist.cons₂ _ h2⟩
      simp only [h1, List.map_append, List.map_cons, List.map_nil, hl, List.append_assoc,
        List.singleton_append]

theorem initCache_settings (st : JobState) : (initCache st).mSettings = st.mSettings := by
  unfold initCache
  cases st.mCache <;> rfl

/-- C4: the layers of the jobs returned by `prepareJobs`, in job order, form a
subsequence of the layer list of the map settings read from its last element to its
first (bottom of the stack first). -/
theorem prepareJobs_bottom_to_top (st : JobState) (painter : Option QPainter)
    (labelingEngine2 deferredPainterSet : Bool) :
    ((prepareJobs st painter labelingEngine2 deferredPainterSet).2.map (·.layer)).Sublist
      (st.mSettings.layers.reverse.map some) := by
  obtain ⟨added, h1, h2⟩ := prepareJobsLoop_layers painter labelingEngine2 deferredPainterSet
    (requiresLabelRedraw (initCache st)) (initCache st).mSettings.layers.reverse (initCache st) []
  unfold prepareJobs
  simp only [List.map_nil, List.nil_append] at h1
  rw [h1, ← initCache_settings st]
  exact h2

theorem forceRenderCache_cases (c : QgsMapRendererCache) (ml : QgsMapLayer) (le rl : Bool) :
    forceRenderCache (some c) ml le rl = some c ∨
    forceRenderCache (some c) ml le rl = some (c.clearCacheImage ml.id) := by
  unfold forceRenderCache QgsMapLayer.asVectorLayer
  by_cases hv : ml.type = .VectorLayer
  · rw [if_pos hv]
    dsimp only
    split_ifs
    · exact Or.inr rfl
    · exact Or.inl rfl
  · rw [if_neg hv]
    exact Or.inl rfl

theorem forceRenderCache_edited (c : QgsMapRendererCache) (ml : QgsMapLayer) (le rl : Bool)
    (hv : ml.type = .VectorLayer) (he : ml.isEditable = true) :
    forceRenderCache (some c) ml le rl = some (c.clearCacheImage ml.id) := by
  unfold forceRenderCache QgsMapLayer.asVectorLayer
  simp [hv, he]

theorem forceRenderCache_kept (c : QgsMapRendererCache) (ml : QgsMapLayer) (le rl : Bool)
    (he : ml.type = .VectorLayer → ml.isEditable = false)
    (hl : ml.type = .VectorLayer → le = false ∨ ml.staticWillUseLayer = false ∨ rl = false) :
    forceRenderCache (some c) ml le rl = some c := by
  unfold forceRenderCache QgsMapLayer.asVectorLayer
  by_cases hv : ml.type = .VectorLayer
  · rw [if_pos hv]
    rcases hl hv with h | h | h <;> simp [he hv, h]
  · rw [if_neg hv]

theorem forceRenderCache_none (ml : QgsMapLayer) (le rl : Bool) :
    forceRenderCache none ml le rl = none := by
  unfold forceRenderCache
  cases ml.asVectorLayer <;> rfl

theorem prepareJobsLayer_cache (painter : Option QPainter) (le dp rl : Bool)
    (st : JobState) (ml : QgsMapLayer) :
    (prepareJobsLayer painter le dp rl st ml).1.mCache = st.mCache ∨
    (prepareJobsLayer painter le dp rl st ml).1.mCache = forceRenderCache st.mCache ml le rl := by
  have h := (allocateImageAndPainter_frame
    { st with mCache := forceRenderCache st.mCache ml le rl } ml.id).2.1
  unfold prepareJobsLayer
  dsimp only
  split_ifs
  · exact Or.inl rfl
  · exact Or.inl rfl
  · exact Or.inl rfl
  · exact Or.inr rfl
  · split <;> simp_all
  · exact Or.inr rfl

theorem prepareJobsLayer_cache_processed (painter : Option QPainter) (le dp rl : Bool)
    (st : JobState) (ml : QgsMapLayer) (hValid : ml.isValid = true)
    (hScale : ml.isInScaleRange st.mSettings.scale = true)
    (hFinite1 : (layerExtents st.mSettings ml).extent.isFinite = true)
    (hFinite2 : (layerExtents st.mSettings ml).r2.isFinite = true) :
    (prepareJobsLayer painter le dp rl st ml).1.mCache = forceRenderCache st.mCache ml le rl := by
  have h := (allocateImageAndPainter_frame
    { st with mCache := forceRenderCache st.mCache ml le rl } ml.id).2.1
  unfold prepareJobsLayer
  dsimp only
  simp only [hValid, hScale, hFinite1, hFinite2, Bool.not_true, Bool.false_eq_true, if_false,
    Bool.or_self]
  split_ifs
  · rfl
  · split <;> simp_all
  · rfl

theorem initCache_unchanged (st : JobState) (c : QgsMapRendererCache)
    (hCache : st.mCache = some c) (hExtent : c.extent = st.mSettings.visibleExtent)
    (hScale : c.scale = st.mSettings.scale) : initCache st = st := by
  cases st with
  | mk mSettings mCache mErrors mFeatureFilterProvider newImage allocations renderersCreated
      mPerLayerRenderingTime =>
    simp only at hCache hExtent hScale
    subst hCache
    simp [initCache, QgsMapRendererCache.init, hExtent, hScale]

/-- C5, counterexample: a one-layer stack whose vector layer is in edit mode, with a cache
captured at the same extent and scale that holds the image of the layer; `prepareJobs`
returns one job with `cached = false` and a renderer, `createMapRenderer` having been
called for the layer. -/
theorem prepareJobs_cached_counterexample :
    exampleCache.extent = (exampleJobState exampleEditedLayer).mSettings.visibleExtent ∧
    exampleCache.scale = (exampleJobState exampleEditedLayer).mSettings.scale ∧
    exampleCache.hasCacheImage exampleEditedLayer.id = true ∧
    ∃ job, (prepareJobs (exampleJobState exampleEditedLayer) none false false).2 = [job] ∧
      job.cached = false ∧ job.renderer = some { layerId := "edited" } ∧
      (prepareJobs (exampleJobState exampleEditedLayer) none false false).1.renderersCreated =
        ["edited"] := by
  refine ⟨rfl, rfl, by simp [exampleCache, QgsMapRendererCache.hasCacheImage, exampleEditedLayer], ?_⟩
  have h0 : initCache (exampleJobState exampleEditedLayer) = exampleJobState exampleEditedLayer :=
    initCache_unchanged _ exampleCache rfl rfl rfl
  unfold prepareJobs
  simp only [h0]
  simp [prepareJobsLoop, requiresLabelRedraw, exampleCache, newLayerJob, prepareJobsLayer, exampleJobState, exampleEditedLayer,
    layerExtents, exampleNoTransform, QgsRectangle.isFinite, QgsRectangle.grow, Double.sub,
    Double.add, Double.neg, Double.isFinite, forceRenderCache, QgsMapLayer.asVectorLayer,
    QgsMapRendererCache.clearCacheImage, QgsMapRendererCache.hasCacheImage,
    allocateImageAndPainter, allocateImage, QgsRectangle.null]

/-- C5 (amended): with a cache captured at the current extent and scale that holds an
image for every layer of the stack that is not skipped (valid, within the scale range,
finite reprojected extents), when no vector layer is in edit mode
and no vector layer has to register labels again (labeling engine given, layer labeled,
no cached label image), `prepareJobs` yields only jobs with `cached = true` and a null
renderer, calls `createMapRenderer` for no layer and leaves the cache as it was. -/
theorem prepareJobs_rerun_all_cached (st : JobState) (c : QgsMapRendererCache)
    (painter : Option QPainter) (labelingEngine2 deferredPainterSet : Bool)
    (hCache : st.mCache = some c) (hExtent : c.extent = st.mSettings.visibleExtent)
    (hScale : c.scale = st.mSettings.scale)
    (hPopulated : ∀ ml ∈ st.mSettings.layers, ml.isValid = true →
      ml.isInScaleRange st.mSettings.scale = true →
      (layerExtents st.mSettings ml).extent.isFinite = true →
      (layerExtents st.mSettings ml).r2.isFinite = true → c.hasCacheImage ml.id = true)
    (hNotEdited : ∀ ml ∈ st.mSettings.layers, ml.type = .VectorLayer → ml.isEditable = false)
    (hLabels : ∀ ml ∈ st.mSettings.layers, ml.type = .VectorLayer →
      labelingEngine2 = false ∨ ml.staticWillUseLayer = false ∨
        c.hasCacheImage LABEL_CACHE_ID = true) :
    (∀ j ∈ (prepareJobs st painter labelingEngine2 deferredPainterSet).2,
      j.cached = true ∧ j.renderer = none) ∧
    (prepareJobs st painter labelingEngine2 deferredPainterSet).1.renderersCreated =
      st.renderersCreated ∧
    (prepareJobs st painter labelingEngine2 deferredPainterSet).1.mCache = some c := by
  have h0 : initCache st = st := initCache_unchanged st c hCache hExtent hScale
  have hrl : requiresLabelRedraw st = !c.hasCacheImage LABEL_CACHE_ID := by
    simp [requiresLabelRedraw, hCache]
  have key := prepareJobsLoop_invariant painter labelingEngine2 deferredPainterSet
    (requiresLabelRedraw st)
    (fun s => s.mCache = some c ∧ s.mSettings = st.mSettings ∧
      s.renderersCreated = st.renderersCreated)
    (fun j => j.cached = true ∧ j.renderer = none) st.mSettings.layers.reverse
    (by
      intro ml hml s hs
      obtain ⟨hc, hset, hren⟩ := hs
      have hmem : ml ∈ st.mSettings.layers := List.mem_reverse.mp hml
      have hkeep : forceRenderCache (some c) ml labelingEngine2 (requiresLabelRedraw st) = some c := by
        apply forceRenderCache_kept _ _ _ _ (hNotEdited ml hmem)
        intro hv
        rcases hLabels ml hmem hv with h | h | h
        · exact Or.inl h
        · exact Or.inr (Or.inl h)
        · exact Or.inr (Or.inr (by simp [hrl, h]))
      unfold prepareJobsLayer
      dsimp only
      rw [hc, hkeep, hset]
      by_cases hv : ml.isValid = true
      · by_cases hs : ml.isInScaleRange st.mSettings.scale = true
        · simp only [hv, hs, Bool.not_true, Bool.false_eq_true, if_false, Option.map_some']
          by_cases hf : (!(layerExtents st.mSettings ml).extent.isFinite ||
              !(layerExtents st.mSettings ml).r2.isFinite) = true
          · rw [if_pos hf]
            exact ⟨⟨rfl, rfl, hren⟩, by simp⟩
          · rw [if_neg hf]
            simp only [Bool.or_eq_true, Bool.not_eq_true', not_or, Bool.not_eq_false] at hf
            have hp := hPopulated ml hmem hv hs hf.1 hf.2
            rw [if_pos (by rw [hp])]
            refine ⟨⟨rfl, rfl, hren⟩, ?_⟩
            intro j hj
            simp only [Option.some.injEq] at hj
            subst hj
            exact ⟨rfl, rfl⟩
        · simp only [hv, hs, Bool.not_true, Bool.false_eq_true, if_false, Bool.not_false,
            if_true]
          exact ⟨⟨hc, hset, hren⟩, by simp⟩
      · simp only [hv, Bool.not_false, if_true]
        exact ⟨⟨hc, hset, hren⟩, by simp⟩)
    st [] ⟨hCache, rfl, rfl⟩ (by simp)
  unfold prepareJobs
  simp only [h0]
  exact ⟨key.2, key.1.2.2, key.1.1⟩

/-- C5 (amended), at a one-layer stack whose layer is cached and not edited. -/
theorem prepareJobs_rerun_all_cached_witness :
    (∀ j ∈ (prepareJobs (exampleJobState examplePlainLayer) none false false).2,
      j.cached = true ∧ j.renderer = none) ∧
    (prepareJobs (exampleJobState examplePlainLayer) none false false).1.renderersCreated =
      (exampleJobState examplePlainLayer).renderersCreated ∧
    (prepareJobs (exampleJobState examplePlainLayer) none false false).1.mCache =
      some exampleCache :=
  prepareJobs_rerun_all_cached (exampleJobState examplePlainLayer) exampleCache none false false
    rfl rfl rfl
    (by
      intro ml h _ _ _ _
      simp only [exampleJobState, List.mem_singleton] at h
      subst h
      simp [exampleCache, QgsMapRendererCache.hasCacheImage, examplePlainLayer])
    (by
      intro ml h _
      simp only [exampleJobState, List.mem_singleton] at h
      subst h
      rfl)
    (by
      intro ml h _
      exact Or.inl rfl)

theorem clearCacheImage_lacks (c : QgsMapRendererCache) (k : String) :
    (c.clearCacheImage k).hasCacheImage k = false := by
  simp [QgsMapRendererCache.clearCacheImage, QgsMapRendererCache.hasCacheImage]

theorem clearCacheImage_mono (c : QgsMapRendererCache) (k k1 : String)
    (h : c.hasCacheImage k = false) : (c.clearCacheImage k1).hasCacheImage k = false := by
  unfold QgsMapRendererCache.clearCacheImage QgsMapRendererCache.hasCacheImage at *
  dsimp only
  split_ifs
  · rfl
  · exact h

theorem prepareJobsLayer_lacks_kept (painter : Option QPainter) (le dp rl : Bool)
    (st : JobState) (ml : QgsMapLayer) (k : String)
    (h : ∃ c, st.mCache = some c ∧ c.hasCacheImage k = false) :
    ∃ c, (prepareJobsLayer painter le dp rl st ml).1.mCache = some c ∧
      c.hasCacheImage k = false := by
  obtain ⟨c, hc, hk⟩ := h
  rcases prepareJobsLayer_cache painter le dp rl st ml with h1 | h1
  · exact ⟨c, by rw [h1, hc], hk⟩
  · rw [hc] at h1
    rcases forceRenderCache_cases c ml le rl with h2 | h2
    · exact ⟨c, by rw [h1, h2], hk⟩
    · exact ⟨_, by rw [h1, h2], clearCacheImage_mono c k ml.id hk⟩

theorem prepareJobsLayer_cache_some (painter : Option QPainter) (le dp rl : Bool)
    (st : JobState) (ml : QgsMapLayer) (h : st.mCache.isSome = true) :
    (prepareJobsLayer painter le dp rl st ml).1.mCache.isSome = true := by
  obtain ⟨c, hc⟩ := Option.isSome_iff_exists.mp h
  rcases prepareJobsLayer_cache painter le dp rl st ml with h1 | h1
  · rw [h1, hc]; rfl
  · rw [hc] at h1
    rcases forceRenderCache_cases c ml le rl with h2 | h2 <;> rw [h1, h2] <;> rfl

theorem prepareJobsLoop_clears (painter : Option QPainter) (le dp rl : Bool)
    (settings : QgsMapSettings) (k : String) (layers : List QgsMapLayer) (st : JobState)
    (jobs : List LayerRenderJob) (hSettings : st.mSettings = settings)
    (hCache : st.mCache.isSome = true)
    (h : (∃ c, st.mCache = some c ∧ c.hasCacheImage k = false) ∨
      ∃ ml ∈ layers, EditedAndProcessed settings ml ∧ ml.id = k) :
    ∃ c, (prepareJobsLoop painter le dp rl layers st jobs).1.mCache = some c ∧
      c.hasCacheImage k = false := by
  induction layers generalizing st jobs with
  | nil =>
    rcases h with h | ⟨ml, hml, _⟩
    · exact h
    · cases hml
  | cons ml rest ih =>
    have hnext : (∃ c, (prepareJobsLayer painter le dp rl st ml).1.mCache = some c ∧
          c.hasCacheImage k = false) ∨
        ∃ ml1 ∈ rest, EditedAndProcessed settings ml1 ∧ ml1.id = k := by
      rcases h with h | ⟨ml1, hml1, hgood, hid⟩
      · exact Or.inl (prepareJobsLayer_lacks_kept painter le dp rl st ml k h)
      · rcases List.mem_cons.mp hml1 with heq | hmem
        · subst heq
          obtain ⟨hv, he, hvalid, hscale, hf1, hf2⟩ := hgood
          obtain ⟨c, hc⟩ := Option.isSome_iff_exists.mp hCache
          rw [← hSettings] at hscale hf1 hf2
          have h1 := prepareJobsLayer_cache_processed painter le dp rl st ml1 hvalid hscale hf1 hf2
          rw [hc, forceRenderCache_edited c ml1 le rl hv he] at h1
          exact Or.inl ⟨_, h1, by rw [← hid]; exact clearCacheImage_lacks c ml1.id⟩
        · exact Or.inr ⟨ml1, hmem, hgood, hid⟩
    have hset1 : (prepareJobsLayer painter le dp rl st ml).1.mSettings = settings := by
      rw [prepareJobsLayer_settings, hSettings]
    have hsome1 := prepareJobsLayer_cache_some painter le dp rl st ml hCache
    unfold prepareJobsLoop
    rcases hres : prepareJobsLayer painter le dp rl st ml with ⟨st1, _ | job⟩
    · rw [hres] at hnext hset1 hsome1
      exact ih st1 jobs hset1 hsome1 hnext
    · rw [hres] at hnext hset1 hsome1
      exact ih st1 (jobs ++ [job]) hset1 hsome1 hnext

theorem prepareJobsLayer_edited_not_cached (painter : Option QPainter) (le dp rl : Bool)
    (st : JobState) (ml : QgsMapLayer) (job : LayerRenderJob)
    (hv : ml.type = .VectorLayer) (he : ml.isEditable = true)
    (h : (prepareJobsLayer painter le dp rl st ml).2 = some job) : job.cached = false := by
  have hfc : (forceRenderCache st.mCache ml le rl).map (fun c => c.hasCacheImage ml.id)
      ≠ some true := by
    cases hc : st.mCache with
    | none => simp [forceRenderCache_none]
    | some c => simp [forceRenderCache_edited c ml le rl hv he, clearCacheImage_lacks]
  unfold prepareJobsLayer at h
  dsimp only at h
  split_ifs at h <;> try (simp at h)
  · split at h <;> simp at h
    subst h; rfl
  · subst h; rfl

/-- C6, counterexample: a vector layer in edit mode that is outside its scale-visibility
range keeps its cache entry over a `prepareJobs` call with an active cache (the call
leaves the cache as it was and builds no job). -/
theorem prepareJobs_edit_clear_counterexample :
    exampleHiddenEditedLayer ∈ (exampleJobState exampleHiddenEditedLayer).mSettings.layers ∧
    exampleHiddenEditedLayer.type = .VectorLayer ∧
    exampleHiddenEditedLayer.isEditable = true ∧
    (exampleJobState exampleHiddenEditedLayer).mCache = some exampleCache ∧
    (prepareJobs (exampleJobState exampleHiddenEditedLayer) none false false).1.mCache =
      some exampleCache ∧
    exampleCache.hasCacheImage exampleHiddenEditedLayer.id = true ∧
    (prepareJobs (exampleJobState exampleHiddenEditedLayer) none false false).2 = [] := by
  have h0 : initCache (exampleJobState exampleHiddenEditedLayer) =
      exampleJobState exampleHiddenEditedLayer :=
    initCache_unchanged _ exampleCache rfl rfl rfl
  refine ⟨by simp [exampleJobState], rfl, rfl, rfl, ?_,
    by simp [exampleCache, QgsMapRendererCache.hasCacheImage, exampleHiddenEditedLayer], ?_⟩
  · unfold prepareJobs
    simp only [h0]
    simp [prepareJobsLoop, prepareJobsLayer, exampleJobState, exampleHiddenEditedLayer]
  · unfold prepareJobs
    simp only [h0]
    simp [prepareJobsLoop, prepareJobsLayer, exampleJobState, exampleHiddenEditedLayer]

/-- C6 (amended): with an active cache, every vector layer of the stack that is in edit
mode and is not skipped (valid, within the scale range, finite reprojected extents) has
no cache entry under its id after `prepareJobs`, whatever the extent and scale are; and
no job built for a vector layer in edit mode is marked cached. -/
theorem prepareJobs_edited_layer_cleared (st : JobState) (painter : Option QPainter)
    (labelingEngine2 deferredPainterSet : Bool) (hCache : st.mCache.isSome = true) :
    (∀ ml ∈ st.mSettings.layers, EditedAndProcessed st.mSettings ml →
      ∃ c, (prepareJobs st painter labelingEngine2 deferredPainterSet).1.mCache = some c ∧
        c.hasCacheImage ml.id = false) ∧
    (∀ j ∈ (prepareJobs st painter labelingEngine2 deferredPainterSet).2,
      ∀ ml, j.layer = some ml → ml.type = .VectorLayer → ml.isEditable = true →
        j.cached = false) := by
  have hsome : (initCache st).mCache.isSome = true := by
    obtain ⟨c, hc⟩ := Option.isSome_iff_exists.mp hCache
    simp [initCache, hc]
  constructor
  · intro ml hml hgood
    unfold prepareJobs
    exact prepareJobsLoop_clears painter labelingEngine2 deferredPainterSet
      (requiresLabelRedraw (initCache st)) st.mSettings ml.id
      (initCache st).mSettings.layers.reverse (initCache st) [] (initCache_settings st) hsome
      (Or.inr ⟨ml, by rw [initCache_settings]; exact List.mem_reverse.mpr hml, hgood, rfl⟩)
  · unfold prepareJobs
    exact (prepareJobsLoop_invariant painter labelingEngine2 deferredPainterSet
      (requiresLabelRedraw (initCache st)) (fun _ => True)
      (fun j => ∀ ml, j.layer = some ml → ml.type = .VectorLayer → ml.isEditable = true →
        j.cached = false)
      (initCache st).mSettings.layers.reverse
      (by
        intro ml _ s _
        refine ⟨trivial, ?_⟩
        intro j hj ml1 hl hv he
        have hl2 := prepareJobsLayer_layer painter labelingEngine2 deferredPainterSet
          (requiresLabelRedraw (initCache st)) s ml j hj
        rw [hl] at hl2
        rw [Option.some.inj hl2] at hv he
        exact prepareJobsLayer_edited_not_cached painter labelingEngine2 deferredPainterSet
          (requiresLabelRedraw (initCache st)) s ml j hv he hj)
      (initCache st) [] trivial (by simp)).2

/-- C6 (amended), at a one-layer stack whose cached vector layer is in edit mode. -/
theorem prepareJobs_edited_layer_cleared_witness :
    exampleCache.hasCacheImage "edited" = true ∧
    ∃ c, (prepareJobs (exampleJobState exampleEditedLayer) none false false).1.mCache = some c ∧
      c.hasCacheImage "edited" = false :=
  ⟨by simp [exampleCache, QgsMapRendererCache.hasCacheImage],
    (prepareJobs_edited_layer_cleared (exampleJobState exampleEditedLayer) none false false
      rfl).1 exampleEditedLayer (by simp [exampleJobState])
      ⟨rfl, rfl, rfl, rfl,
        by simp [layerExtents, exampleJobState, exampleNoTransform, QgsRectangle.grow,
          QgsRectangle.isFinite, Double.sub, Double.add, Double.neg, Double.isFinite],
        by simp [layerExtents, exampleJobState, exampleNoTransform, QgsRectangle.null,
          QgsRectangle.isFinite, Double.isFinite]⟩⟩

/-! ### Outcomes of one loop step of `prepareJobs` -/

theorem prepareJobsLayer_invalid (painter : Option QPainter) (le dp rl : Bool)
    (st : JobState) (ml : QgsMapLayer) (hValid : ml.isValid = false) :
    prepareJobsLayer painter le dp rl st ml = (st, none) := by
  unfold prepareJobsLayer
  simp [hValid]

theorem prepareJobsLayer_out_of_scale (painter : Option QPainter) (le dp rl : Bool)
    (st : JobState) (ml : QgsMapLayer)
    (hScale : ml.isInScaleRange st.mSettings.scale = false) :
    prepareJobsLayer painter le dp rl st ml = (st, none) := by
  unfold prepareJobsLayer
  by_cases hv : ml.isValid = true <;> simp [hv, hScale]

theorem prepareJobsLayer_non_finite (painter : Option QPainter) (le dp rl : Bool)
    (st : JobState) (ml : QgsMapLayer) (hValid : ml.isValid = true)
    (hScale : ml.isInScaleRange st.mSettings.scale = true)
    (hNonFinite : (layerExtents st.mSettings ml).extent.isFinite = false ∨
      (layerExtents st.mSettings ml).r2.isFinite = false) :
    prepareJobsLayer painter le dp rl st ml =
      ({ st with mErrors := st.mErrors ++ [⟨ml.id, extentErrorMessage⟩] }, none) := by
  unfold prepareJobsLayer extentErrorMessage
  dsimp only
  rw [if_neg (by simp [hValid]), if_neg (by simp [hScale]), if_pos]
  rcases hNonFinite with h | h <;> simp [h]

theorem prepareJobsLayer_processed (painter : Option QPainter) (le dp rl : Bool)
    (st : JobState) (ml : QgsMapLayer) (hValid : ml.isValid = true)
    (hScale : ml.isInScaleRange st.mSettings.scale = true)
    (hFinite1 : (layerExtents st.mSettings ml).extent.isFinite = true)
    (hFinite2 : (layerExtents st.mSettings ml).r2.isFinite = true) :
    prepareJobsLayer painter le dp rl st ml =
      (let cache1 := forceRenderCache st.mCache ml le rl
       let st1 : JobState := { st with mCache := cache1 }
       let job := newLayerJob st painter le ml (layerExtents st.mSettings ml).extent
       if (cache1.map fun c => c.hasCacheImage ml.id) = some true then
         (st1, some { job with
           cached := true
           imageInitialized := true
           img := cache1.map fun c => c.cacheImage ml.id
           renderer := none
           context := { job.context with painter := none } })
       else if needsIsolatedImage cache1.isSome painter dp st.mSettings ml then
         match allocateImageAndPainter st1 ml.id with
         | (_, none, st2) => (st2, none)
         | (p, some image, st2) =>
           ({ st2 with renderersCreated := st2.renderersCreated ++ [ml.id] },
             some { job with
               img := some image
               context := { job.context with painter := p }
               renderer := ml.mapRenderer
               renderingTime := 0 })
       else
         ({ st1 with renderersCreated := st1.renderersCreated ++ [ml.id] },
           some { job with renderer := ml.mapRenderer, renderingTime := 0 })) := by
  unfold prepareJobsLayer needsIsolatedImage
  dsimp only
  rw [if_neg (by simp [hValid]), if_neg (by simp [hScale]), if_neg (by simp [hFinite1, hFinite2])]

theorem forceRenderCache_isSome (cache : Option QgsMapRendererCache) (ml : QgsMapLayer)
    (le rl : Bool) : (forceRenderCache cache ml le rl).isSome = cache.isSome := by
  cases cache with
  | none => rw [forceRenderCache_none]
  | some c => rcases forceRenderCache_cases c ml le rl with h | h <;> simp [h]

theorem allocateImageAndPainter_ok (st : JobState) (layerId : String)
    (px : Nat → Nat → Pixel) (h : st.newImage st.allocations = some px) :
    allocateImageAndPainter st layerId =
      (some QPainter.fresh,
        some ⟨st.mSettings.deviceOutputWidth, st.mSettings.deviceOutputHeight, px⟩,
        { st with allocations := st.allocations + 1 }) := by
  unfold allocateImageAndPainter allocateImage
  rw [h]

theorem allocateImageAndPainter_null (st : JobState) (layerId : String)
    (h : st.newImage st.allocations = none) :
    allocateImageAndPainter st layerId =
      (none, none,
        { st with
          allocations := st.allocations + 1
          mErrors := st.mErrors ++ [⟨layerId, memoryErrorMessage st.mSettings⟩] }) := by
  unfold allocateImageAndPainter allocateImage memoryErrorMessage
  rw [h]

theorem prepareJobsLayer_job_processed (painter : Option QPainter) (le dp rl : Bool)
    (st : JobState) (ml : QgsMapLayer) (job : LayerRenderJob)
    (h : (prepareJobsLayer painter le dp rl st ml).2 = some job) :
    ml.isValid = true ∧ ml.isInScaleRange st.mSettings.scale = true ∧
    (layerExtents st.mSettings ml).extent.isFinite = true ∧
    (layerExtents st.mSettings ml).r2.isFinite = true := by
  cases hv : ml.isValid with
  | false => rw [prepareJobsLayer_invalid painter le dp rl st ml hv] at h; cases h
  | true =>
    cases hs : ml.isInScaleRange st.mSettings.scale with
    | false => rw [prepareJobsLayer_out_of_scale painter le dp rl st ml hs] at h; cases h
    | true =>
      cases hf1 : (layerExtents st.mSettings ml).extent.isFinite with
      | false =>
        rw [prepareJobsLayer_non_finite painter le dp rl st ml hv hs (Or.inl hf1)] at h
        cases h
      | true =>
        cases hf2 : (layerExtents st.mSettings ml).r2.isFinite with
        | false =>
          rw [prepareJobsLayer_non_finite painter le dp rl st ml hv hs (Or.inr hf2)] at h
          cases h
        | true => exact ⟨rfl, rfl, rfl, rfl⟩

theorem prepareJobsLayer_cached_job (painter : Option QPainter) (le dp rl : Bool)
    (st : JobState) (ml : QgsMapLayer) (job : LayerRenderJob)
    (h : (prepareJobsLayer painter le dp rl st ml).2 = some job) (hc : job.cached = true) :
    ∃ c, forceRenderCache st.mCache ml le rl = some c ∧ c.hasCacheImage ml.id = true ∧
      job.img = some (c.cacheImage ml.id) ∧ job.renderer = none ∧
      job.context.painter = none ∧ job.imageInitialized = true ∧ job.layerId = ml.id := by
  obtain ⟨hv, hs, hf1, hf2⟩ := prepareJobsLayer_job_processed painter le dp rl st ml job h
  rw [prepareJobsLayer_processed painter le dp rl st ml hv hs hf1 hf2] at h
  dsimp only at h
  split_ifs at h with h1 h2
  · simp only [Option.some.injEq] at h
    subst h
    cases hfc : forceRenderCache st.mCache ml le rl with
    | none => rw [hfc] at h1; simp at h1
    | some c =>
      rw [hfc] at h1
      simp only [Option.map_some', Option.some.injEq] at h1
      exact ⟨c, rfl, h1, rfl, rfl, rfl, rfl, rfl⟩
  · split at h
    · cases h
    · simp only [Option.some.injEq] at h
      subst h
      cases hc
  · simp only [Option.some.injEq] at h
    subst h
    cases hc

theorem subCache_clear (c c0 : QgsMapRendererCache) (key : String)
    (h : ∀ k, c.images k = none ∨ c.images k = c0.images k) :
    ∀ k, (c.clearCacheImage key).images k = none ∨
      (c.clearCacheImage key).images k = c0.images k := by
  intro k
  unfold QgsMapRendererCache.clearCacheImage
  dsimp only
  split_ifs
  · exact Or.inl rfl
  · exact h k

theorem subCache_forceRender (cache reference : Option QgsMapRendererCache) (ml : QgsMapLayer)
    (le rl : Bool) (h : SubCache cache reference) :
    SubCache (forceRenderCache cache ml le rl) reference := by
  cases cache with
  | none => rw [forceRenderCache_none]; exact h
  | some c =>
    cases reference with
    | none => exact h.elim
    | some c0 =>
      rcases forceRenderCache_cases c ml le rl with h1 | h1 <;> rw [h1]
      · exact h
      · exact subCache_clear c c0 ml.id h

theorem subCache_initCache (st : JobState) : SubCache (initCache st).mCache st.mCache := by
  unfold initCache
  cases hc : st.mCache with
  | none => simp [SubCache, hc]
  | some c =>
    dsimp only
    unfold QgsMapRendererCache.init
    split_ifs
    · exact fun k => Or.inr rfl
    · exact fun k => Or.inl rfl

/-- C13: every job returned by `prepareJobs` with `cached = true` has a null renderer, a
null painter in its render context, `imageInitialized = true` and a non-null image that
is the image held under its layer id by the cache the job object was given; so a job is
cached only if a cache is set and it held an image for that layer id. -/
theorem prepareJobs_cached_job_invariant (st : JobState) (painter : Option QPainter)
    (labelingEngine2 deferredPainterSet : Bool) :
    ∀ j ∈ (prepareJobs st painter labelingEngine2 deferredPainterSet).2, j.cached = true →
      j.renderer = none ∧ j.context.painter = none ∧ j.imageInitialized = true ∧
      ∃ c, st.mCache = some c ∧ c.hasCacheImage j.layerId = true ∧
        j.img = some (c.cacheImage j.layerId) := by
  unfold prepareJobs
  exact (prepareJobsLoop_invariant painter labelingEngine2 deferredPainterSet
    (requiresLabelRedraw (initCache st)) (fun s => SubCache s.mCache st.mCache)
    (fun j => j.cached = true →
      j.renderer = none ∧ j.context.painter = none ∧ j.imageInitialized = true ∧
      ∃ c, st.mCache = some c ∧ c.hasCacheImage j.layerId = true ∧
        j.img = some (c.cacheImage j.layerId))
    (initCache st).mSettings.layers.reverse
    (by
      intro ml _ s hs
      constructor
      · rcases prepareJobsLayer_cache painter labelingEngine2 deferredPainterSet
          (requiresLabelRedraw (initCache st)) s ml with h | h <;> rw [h]
        · exact hs
        · exact subCache_forceRender _ _ _ _ _ hs
      · intro j hj hc
        obtain ⟨c, hfc, hhas, himg, hr, hp, hi, hid⟩ :=
          prepareJobsLayer_cached_job painter labelingEngine2 deferredPainterSet
            (requiresLabelRedraw (initCache st)) s ml j hj hc
        have hsub := subCache_forceRender s.mCache st.mCache ml labelingEngine2
          (requiresLabelRedraw (initCache st)) hs
        rw [hfc] at hsub
        cases hc0 : st.mCache with
        | none => rw [hc0] at hsub; exact hsub.elim
        | some c0 =>
          rw [hc0] at hsub
          have hk := hsub ml.id
          unfold QgsMapRendererCache.hasCacheImage at hhas
          have hne : c.images ml.id ≠ none := by
            intro h0
            rw [h0] at hhas
            cases hhas
          have heq : c.images ml.id = c0.images ml.id := hk.resolve_left hne
          refine ⟨hr, hp, hi, c0, rfl, ?_, ?_⟩
          · rw [hid]
            unfold QgsMapRendererCache.hasCacheImage
            rw [← heq]
            exact hhas
          · rw [hid, himg]
            unfold QgsMapRendererCache.cacheImage
            rw [heq])
    (initCache st) [] (subCache_initCache st) (by simp)).2

/-- C13, at the one-layer stack whose layer is held by the example cache: the job is
cached, without renderer and painter, and carries the cache image of "plain". -/
theorem prepareJobs_cached_job_invariant_witness :
    ∃ j, (prepareJobs (exampleJobState examplePlainLayer) none false false).2 = [j] ∧
      j.cached = true ∧ j.renderer = none ∧ j.context.painter = none ∧
      j.imageInitialized = true ∧
      ∃ c, (exampleJobState examplePlainLayer).mCache = some c ∧
        c.hasCacheImage j.layerId = true ∧ j.img = some (c.cacheImage j.layerId) := by
  have h0 : initCache (exampleJobState examplePlainLayer) = exampleJobState examplePlainLayer :=
    initCache_unchanged _ exampleCache rfl rfl rfl
  have h : ∃ j, (prepareJobs (exampleJobState examplePlainLayer) none false false).2 = [j] ∧
      j.cached = true := by
    unfold prepareJobs
    simp only [h0]
    simp [prepareJobsLoop, requiresLabelRedraw, exampleCache, newLayerJob, prepareJobsLayer,
      exampleJobState, examplePlainLayer, layerExtents, exampleNoTransform,
      QgsRectangle.isFinite, QgsRectangle.grow, Double.sub, Double.add, Double.neg,
      Double.isFinite, forceRenderCache, QgsMapLayer.asVectorLayer,
      QgsMapRendererCache.hasCacheImage, QgsRectangle.null]
  obtain ⟨j, hj, hc⟩ := h
  have hall := prepareJobs_cached_job_invariant (exampleJobState examplePlainLayer) none false
    false j (by rw [hj]; exact List.mem_singleton.mpr rfl) hc
  exact ⟨j, hj, hc, hall⟩

theorem needTemporaryImage_iff (settings : QgsMapSettings) (ml : QgsMapLayer) :
    needTemporaryImage settings ml = true ↔
      (ml.type = .VectorLayer ∧
        (ml.forceRasterRender = some true ∨
          (settings.flags.useAdvancedEffects = true ∧
            (ml.blendMode ≠ .SourceOver ∨ ml.featureBlendMode ≠ .SourceOver ∨
              qgsDoubleNearDefault (.finite ml.opacity) (.finite 1) = false)))) ∨
      (ml.type = .RasterLayer ∧ settings.flags.renderPartialOutput = true) := by
  unfold needTemporaryImage
  cases ht : ml.type <;> simp
  by_cases hf : ml.forceRasterRender = some true
  · simp [hf]
  · simp [hf, or_assoc]

theorem prepareJobsLayer_isolated_job (painter : Option QPainter) (le dp rl : Bool)
    (st : JobState) (ml : QgsMapLayer) (job : LayerRenderJob)
    (h : (prepareJobsLayer painter le dp rl st ml).2 = some job) (hc : job.cached = false) :
    job.img.isSome = true ↔
      needsIsolatedImage st.mCache.isSome painter dp st.mSettings ml = true := by
  obtain ⟨hv, hs, hf1, hf2⟩ := prepareJobsLayer_job_processed painter le dp rl st ml job h
  rw [prepareJobsLayer_processed painter le dp rl st ml hv hs hf1 hf2] at h
  dsimp only at h
  rw [forceRenderCache_isSome] at h
  split_ifs at h with h1 h2
  · simp only [Option.some.injEq] at h
    subst h
    cases hc
  · split at h
    · cases h
    · simp only [Option.some.injEq] at h
      subst h
      simp [h2]
  · simp only [Option.some.injEq] at h
    subst h
    simp [h2, newLayerJob]

theorem initCache_isSome (st : JobState) : (initCache st).mCache.isSome = st.mCache.isSome := by
  unfold initCache
  cases hc : st.mCache <;> simp [hc]

/-- C14, counterexample: a vector layer with blend mode Multiply and opacity 0.5 while the
`UseAdvancedEffects` flag is off: `needTemporaryImage` is false, and `prepareJobs` with a
target painter and no cache builds its job without an image. -/
theorem prepareJobs_isolation_counterexample :
    exampleBlendLayer.type = .VectorLayer ∧
    exampleBlendLayer.blendMode ≠ .SourceOver ∧
    exampleBlendLayer.opacity ≠ 1 ∧
    needTemporaryImage exampleFlatState.mSettings exampleBlendLayer = false ∧
    ∃ j, (prepareJobs exampleFlatState (some QPainter.fresh) false false).2 = [j] ∧
      j.layer = some exampleBlendLayer ∧ j.cached = false ∧ j.img = none := by
  refine ⟨rfl, by simp [exampleBlendLayer], by simp [exampleBlendLayer], ?_, ?_⟩
  · simp [needTemporaryImage, exampleFlatState, exampleBlendLayer]
  · simp [prepareJobs, initCache, prepareJobsLoop, requiresLabelRedraw, newLayerJob,
      prepareJobsLayer, exampleFlatState, exampleBlendLayer, layerExtents, exampleNoTransform,
      QgsRectangle.isFinite, QgsRectangle.grow, Double.sub, Double.add, Double.neg,
      Double.isFinite, forceRenderCache, QgsMapLayer.asVectorLayer, QgsRectangle.null,
      needTemporaryImage]

/-- C14 (amended): `needTemporaryImage` is true exactly for a vector layer that forces
raster rendering, for a vector layer under the `UseAdvancedEffects` flag whose blend mode
or feature blend mode is not SourceOver or whose opacity is not `qgsDoubleNear` 1, and for
a raster layer under the `RenderPartialOutput` flag; every job of `prepareJobs` that is
not cached has an image if and only if a cache is set, or no target painter is given and
no deferred painter is set, or `needTemporaryImage` holds for its layer; and a processed
layer that is not served from the cache makes one allocation request in that case and
none otherwise. -/
theorem prepareJobs_isolated_image_iff (st : JobState) (painter : Option QPainter)
    (labelingEngine2 deferredPainterSet : Bool) :
    (∀ ml, needTemporaryImage st.mSettings ml = true ↔
      (ml.type = .VectorLayer ∧
        (ml.forceRasterRender = some true ∨
          (st.mSettings.flags.useAdvancedEffects = true ∧
            (ml.blendMode ≠ .SourceOver ∨ ml.featureBlendMode ≠ .SourceOver ∨
              qgsDoubleNearDefault (.finite ml.opacity) (.finite 1) = false)))) ∨
      (ml.type = .RasterLayer ∧ st.mSettings.flags.renderPartialOutput = true)) ∧
    (∀ j ∈ (prepareJobs st painter labelingEngine2 deferredPainterSet).2, j.cached = false →
      ∀ ml, j.layer = some ml →
        (j.img.isSome = true ↔
          (st.mCache.isSome = true ∨ (painter.isNone = true ∧ deferredPainterSet = false) ∨
            needTemporaryImage st.mSettings ml = true))) ∧
    (∀ (rl : Bool) (ml : QgsMapLayer), ml.isValid = true →
      ml.isInScaleRange st.mSettings.scale = true →
      (layerExtents st.mSettings ml).extent.isFinite = true →
      (layerExtents st.mSettings ml).r2.isFinite = true →
      ((forceRenderCache st.mCache ml labelingEngine2 rl).map
        fun c => c.hasCacheImage ml.id) ≠ some true →
      (prepareJobsLayer painter labelingEngine2 deferredPainterSet rl st ml).1.allocations =
        st.allocations +
          (if st.mCache.isSome = true ∨ (painter.isNone = true ∧ deferredPainterSet = false) ∨
            needTemporaryImage st.mSettings ml = true then 1 else 0)) := by
  have hneed : ∀ (c : Bool) (s : QgsMapSettings) (ml : QgsMapLayer),
      needsIsolatedImage c painter deferredPainterSet s ml = true ↔
        (c = true ∨ (painter.isNone = true ∧ deferredPainterSet = false) ∨
          needTemporaryImage s ml = true) := by
    intro c s ml
    simp [needsIsolatedImage, or_assoc]
  refine ⟨fun ml => needTemporaryImage_iff st.mSettings ml, ?_, ?_⟩
  · unfold prepareJobs
    exact (prepareJobsLoop_invariant painter labelingEngine2 deferredPainterSet
      (requiresLabelRedraw (initCache st))
      (fun s => s.mSettings = st.mSettings ∧ s.mCache.isSome = st.mCache.isSome)
      (fun j => j.cached = false → ∀ ml, j.layer = some ml →
        (j.img.isSome = true ↔
          (st.mCache.isSome = true ∨ (painter.isNone = true ∧ deferredPainterSet = false) ∨
            needTemporaryImage st.mSettings ml = true)))
      (initCache st).mSettings.layers.reverse
      (by
        intro ml _ s hs
        obtain ⟨hset, hcache⟩ := hs
        refine ⟨⟨by rw [prepareJobsLayer_settings, hset], ?_⟩, ?_⟩
        · rcases prepareJobsLayer_cache painter labelingEngine2 deferredPainterSet
            (requiresLabelRedraw (initCache st)) s ml with h | h
          · rw [h, hcache]
          · rw [h, forceRenderCache_isSome, hcache]
        · intro j hj hc ml1 hl
          have hl2 := prepareJobsLayer_layer painter labelingEngine2 deferredPainterSet
            (requiresLabelRedraw (initCache st)) s ml j hj
          rw [hl] at hl2
          rw [Option.some.inj hl2]
          rw [prepareJobsLayer_isolated_job painter labelingEngine2 deferredPainterSet
            (requiresLabelRedraw (initCache st)) s ml j hj hc, hneed, hset, hcache])
      (initCache st) [] ⟨initCache_settings st, initCache_isSome st⟩ (by simp)).2
  · intro rl ml hv hs hf1 hf2 hnc
    rw [prepareJobsLayer_processed painter labelingEngine2 deferredPainterSet rl st ml hv hs
      hf1 hf2]
    dsimp only
    rw [if_neg hnc, forceRenderCache_isSome]
    by_cases hn : needsIsolatedImage st.mCache.isSome painter deferredPainterSet st.mSettings ml
        = true
    · rw [if_pos hn, if_pos ((hneed _ _ _).mp hn)]
      unfold allocateImageAndPainter allocateImage
      cases st.newImage st.allocations <;> rfl
    · rw [if_neg hn, if_neg (fun h => hn ((hneed _ _ _).mpr h))]
      rfl

/-- C14 (amended), at the blended layer without advanced effects: no cache and a target
painter, so the job has no image. -/
theorem prepareJobs_isolated_image_iff_witness :
    ∃ j, (prepareJobs exampleFlatState (some QPainter.fresh) false false).2 = [j] ∧
      (j.img.isSome = true ↔
        (exampleFlatState.mCache.isSome = true ∨
          ((some QPainter.fresh).isNone = true ∧ false = false) ∨
          needTemporaryImage exampleFlatState.mSettings exampleBlendLayer = true)) := by
  have h : ∃ j, (prepareJobs exampleFlatState (some QPainter.fresh) false false).2 = [j] ∧
      j.layer = some exampleBlendLayer ∧ j.cached = false := by
    simp [prepareJobs, initCache, prepareJobsLoop, requiresLabelRedraw, newLayerJob,
      prepareJobsLayer, exampleFlatState, exampleBlendLayer, layerExtents, exampleNoTransform,
      QgsRectangle.isFinite, QgsRectangle.grow, Double.sub, Double.add, Double.neg,
      Double.isFinite, forceRenderCache, QgsMapLayer.asVectorLayer, QgsRectangle.null,
      needTemporaryImage]
  obtain ⟨j, hj, hl, hc⟩ := h
  exact ⟨j, hj, (prepareJobs_isolated_image_iff exampleFlatState (some QPainter.fresh) false
    false).2.1 j (by rw [hj]; exact List.mem_singleton.mpr rfl) hc exampleBlendLayer hl⟩

/-! ### A layer step does not read the layer list or the error list -/

theorem layerExtents_transport (st : JobState) (layers : List QgsMapLayer)
    (errors : List Error) (ml : QgsMapLayer) :
    layerExtents (st.transport layers errors).mSettings ml = layerExtents st.mSettings ml := rfl

theorem prepareJobsLayer_errors (painter : Option QPainter) (le dp rl : Bool)
    (st : JobState) (ml : QgsMapLayer) :
    (prepareJobsLayer painter le dp rl st ml).1.mErrors =
      st.mErrors ++ (prepareJobsLayer painter le dp rl st ml).1.mErrors.drop st.mErrors.length := by
  have key : ∃ d, (prepareJobsLayer painter le dp rl st ml).1.mErrors = st.mErrors ++ d := by
    unfold prepareJobsLayer
    dsimp only
    split_ifs
    · exact ⟨[], by simp⟩
    · exact ⟨[], by simp⟩
    · exact ⟨_, rfl⟩
    · exact ⟨[], by simp⟩
    · unfold allocateImageAndPainter allocateImage
      dsimp only
      cases st.newImage st.allocations
      · exact ⟨_, rfl⟩
      · exact ⟨[], by simp⟩
    · exact ⟨[], by simp⟩
  obtain ⟨d, hd⟩ := key
  rw [hd]
  simp

theorem prepareJobsLayer_transport (painter : Option QPainter) (le dp rl : Bool)
    (st : JobState) (layers : List QgsMapLayer) (errors : List Error) (ml : QgsMapLayer) :
    prepareJobsLayer painter le dp rl (st.transport layers errors) ml =
      ((prepareJobsLayer painter le dp rl st ml).1.transport layers
        (errors ++ (prepareJobsLayer painter le dp rl st ml).1.mErrors.drop st.mErrors.length),
        (prepareJobsLayer painter le dp rl st ml).2) := by
  cases hv : ml.isValid with
  | false =>
    rw [prepareJobsLayer_invalid painter le dp rl st ml hv,
      prepareJobsLayer_invalid painter le dp rl (st.transport layers errors) ml hv]
    simp [JobState.transport]
  | true =>
    cases hs : ml.isInScaleRange st.mSettings.scale with
    | false =>
      rw [prepareJobsLayer_out_of_scale painter le dp rl st ml hs,
        prepareJobsLayer_out_of_scale painter le dp rl (st.transport layers errors) ml hs]
      simp [JobState.transport]
    | true =>
      by_cases hf : (layerExtents st.mSettings ml).extent.isFinite = false ∨
          (layerExtents st.mSettings ml).r2.isFinite = false
      · rw [prepareJobsLayer_non_finite painter le dp rl st ml hv hs hf,
          prepareJobsLayer_non_finite painter le dp rl (st.transport layers errors) ml hv hs hf]
        simp [JobState.transport]
      · simp only [not_or, Bool.not_eq_false] at hf
        rw [prepareJobsLayer_processed painter le dp rl st ml hv hs hf.1 hf.2,
          prepareJobsLayer_processed painter le dp rl (st.transport layers errors) ml hv hs
            hf.1 hf.2]
        have hn : ∀ c, needsIsolatedImage c painter dp (st.transport layers errors).mSettings ml =
            needsIsolatedImage c painter dp st.mSettings ml := fun _ => rfl
        simp only [hn]
        dsimp only [JobState.transport]
        split_ifs
        · simp [newLayerJob, layerExtents]
        · unfold allocateImageAndPainter allocateImage
          dsimp only
          cases st.newImage st.allocations <;> simp [newLayerJob, layerExtents]
        · simp [newLayerJob, layerExtents]

theorem prepareJobsLayer_delta (painter : Option QPainter) (le dp rl : Bool)
    (st : JobState) (ml : QgsMapLayer) :
    ∃ d, (prepareJobsLayer painter le dp rl st ml).1.mErrors = st.mErrors ++ d ∧
      ∀ layers errors, prepareJobsLayer painter le dp rl (st.transport layers errors) ml =
        ((prepareJobsLayer painter le dp rl st ml).1.transport layers (errors ++ d),
          (prepareJobsLayer painter le dp rl st ml).2) :=
  ⟨_, prepareJobsLayer_errors painter le dp rl st ml,
    fun layers errors => prepareJobsLayer_transport painter le dp rl st layers errors ml⟩

theorem prepareJobsLoop_delta (painter : Option QPainter) (le dp rl : Bool)
    (layers : List QgsMapLayer) (st : JobState) (jobs : List LayerRenderJob) :
    ∃ d, (prepareJobsLoop painter le dp rl layers st jobs).1.mErrors = st.mErrors ++ d ∧
      ∀ stack errors, prepareJobsLoop painter le dp rl layers (st.transport stack errors) jobs =
        ((prepareJobsLoop painter le dp rl layers st jobs).1.transport stack (errors ++ d),
          (prepareJobsLoop painter le dp rl layers st jobs).2) := by
  induction layers generalizing st jobs with
  | nil =>
    refine ⟨[], by simp [prepareJobsLoop], ?_⟩
    intro stack errors
    simp [prepareJobsLoop]
  | cons ml rest ih =>
    obtain ⟨d, hd, ht⟩ := prepareJobsLayer_delta painter le dp rl st ml
    rcases hres : prepareJobsLayer painter le dp rl st ml with ⟨st1, _ | job⟩
    · rw [hres] at hd ht
      dsimp only at hd ht
      obtain ⟨d2, hd2, ht2⟩ := ih st1 jobs
      refine ⟨d ++ d2, ?_, ?_⟩
      · simp only [prepareJobsLoop, hres, hd2, hd, List.append_assoc]
      · intro stack errors
        simp only [prepareJobsLoop, hres, ht stack errors, ht2 stack (errors ++ d),
          List.append_assoc]
    · rw [hres] at hd ht
      dsimp only at hd ht
      obtain ⟨d2, hd2, ht2⟩ := ih st1 (jobs ++ [job])
      refine ⟨d ++ d2, ?_, ?_⟩
      · simp only [prepareJobsLoop, hres, hd2, hd, List.append_assoc]
      · intro stack errors
        simp only [prepareJobsLoop, hres, ht stack errors, ht2 stack (errors ++ d),
          List.append_assoc]

theorem prepareJobsLoop_concat (painter : Option QPainter) (le dp rl : Bool)
    (first second : List QgsMapLayer) (st : JobState) (jobs : List LayerRenderJob) :
    prepareJobsLoop painter le dp rl (first ++ second) st jobs =
      prepareJobsLoop painter le dp rl second
        (prepareJobsLoop painter le dp rl first st jobs).1
        (prepareJobsLoop painter le dp rl first st jobs).2 := by
  induction first generalizing st jobs with
  | nil => rfl
  | cons ml rest ih =>
    simp only [List.cons_append, prepareJobsLoop]
    rcases prepareJobsLayer painter le dp rl st ml with ⟨st1, _ | job⟩
    · exact ih st1 jobs
    · exact ih st1 (jobs ++ [job])

theorem prepareJobsLoop_settings (painter : Option QPainter) (le dp rl : Bool)
    (layers : List QgsMapLayer) (st : JobState) (jobs : List LayerRenderJob) :
    (prepareJobsLoop painter le dp rl layers st jobs).1.mSettings = st.mSettings := by
  induction layers generalizing st jobs with
  | nil => rfl
  | cons ml rest ih =>
    have h := prepareJobsLayer_settings painter le dp rl st ml
    unfold prepareJobsLoop
    rcases hres : prepareJobsLayer painter le dp rl st ml with ⟨st1, _ | job⟩
    · rw [hres] at h
      rw [← h]
      exact ih st1 jobs
    · rw [hres] at h
      rw [← h]
      exact ih st1 (jobs ++ [job])

theorem initCache_transport (st : JobState) (stack : List QgsMapLayer) (errors : List Error) :
    initCache (st.transport stack errors) = (initCache st).transport stack errors := by
  rcases st with ⟨mSettings, mCache, mErrors, mFeatureFilterProvider, newImage, allocations,
    renderersCreated, mPerLayerRenderingTime⟩
  cases mCache <;> rfl

theorem initCache_errors (st : JobState) : (initCache st).mErrors = st.mErrors := by
  unfold initCache
  cases st.mCache <;> rfl

/-- C11: for a valid, in-scale layer of the stack whose reprojected extent is not finite,
the loop step of `prepareJobs` appends one error with the layer id, leaves no job and
leaves the rest of the object (the cache included) alone; over the whole call the jobs
and the cache are those of the call on the stack without that layer, the error list is
the one of that call with exactly this one error inserted, and no job belongs to the
layer. -/
theorem prepareJobs_non_finite_layer (st : JobState) (painter : Option QPainter)
    (labelingEngine2 deferredPainterSet : Bool) (above below : List QgsMapLayer)
    (ml : QgsMapLayer) (hStack : st.mSettings.layers = above ++ ml :: below)
    (hValid : ml.isValid = true) (hScale : ml.isInScaleRange st.mSettings.scale = true)
    (hNonFinite : (layerExtents st.mSettings ml).extent.isFinite = false ∨
      (layerExtents st.mSettings ml).r2.isFinite = false) :
    (∀ (rl : Bool) (s : JobState), s.mSettings = st.mSettings →
      prepareJobsLayer painter labelingEngine2 deferredPainterSet rl s ml =
        ({ s with mErrors := s.mErrors ++ [⟨ml.id, extentErrorMessage⟩] }, none)) ∧
    (prepareJobs st painter labelingEngine2 deferredPainterSet).2 =
      (prepareJobs (st.withLayers (above ++ below)) painter labelingEngine2
        deferredPainterSet).2 ∧
    (prepareJobs st painter labelingEngine2 deferredPainterSet).1.mCache =
      (prepareJobs (st.withLayers (above ++ below)) painter labelingEngine2
        deferredPainterSet).1.mCache ∧
    (∃ e1 e2,
      (prepareJobs (st.withLayers (above ++ below)) painter labelingEngine2
        deferredPainterSet).1.mErrors = e1 ++ e2 ∧
      (prepareJobs st painter labelingEngine2 deferredPainterSet).1.mErrors =
        e1 ++ [⟨ml.id, extentErrorMessage⟩] ++ e2) ∧
    (∀ j ∈ (prepareJobs st painter labelingEngine2 deferredPainterSet).2,
      j.layer ≠ some ml) := by
  have hstep : ∀ (rl : Bool) (s : JobState), s.mSettings = st.mSettings →
      prepareJobsLayer painter labelingEngine2 deferredPainterSet rl s ml =
        ({ s with mErrors := s.mErrors ++ [⟨ml.id, extentErrorMessage⟩] }, none) := by
    intro rl s hs
    exact prepareJobsLayer_non_finite painter labelingEngine2 deferredPainterSet rl s ml hValid
      (by rw [hs]; exact hScale) (by rw [hs]; exact hNonFinite)
  refine ⟨hstep, ?_⟩
  -- the two parts of the run: the layers below, then the layers above
  obtain ⟨r1, hr1⟩ : ∃ r1, prepareJobsLoop painter labelingEngine2 deferredPainterSet
      (requiresLabelRedraw (initCache st)) below.reverse (initCache st) [] = r1 := ⟨_, rfl⟩
  obtain ⟨r2, hr2⟩ : ∃ r2, prepareJobsLoop painter labelingEngine2 deferredPainterSet
      (requiresLabelRedraw (initCache st)) above.reverse r1.1 r1.2 = r2 := ⟨_, rfl⟩
  obtain ⟨d2, hd2, ht2⟩ := prepareJobsLoop_delta painter labelingEngine2 deferredPainterSet
    (requiresLabelRedraw (initCache st)) above.reverse r1.1 r1.2
  rw [hr2] at hd2
  have hset1 : r1.1.mSettings = st.mSettings := by
    rw [← hr1, prepareJobsLoop_settings, initCache_settings]
  have hfull : prepareJobs st painter labelingEngine2 deferredPainterSet =
      (r2.1.transport r1.1.mSettings.layers
        (r1.1.mErrors ++ [⟨ml.id, extentErrorMessage⟩] ++ d2), r2.2) := by
    unfold prepareJobs
    dsimp only
    rw [initCache_settings, hStack, List.reverse_append, List.reverse_cons, List.append_assoc,
      prepareJobsLoop_concat, hr1, List.singleton_append]
    unfold prepareJobsLoop
    rw [hstep _ _ hset1]
    dsimp only
    have h := ht2 r1.1.mSettings.layers (r1.1.mErrors ++ [⟨ml.id, extentErrorMessage⟩])
    rw [hr2] at h
    exact h
  obtain ⟨d, hd, ht⟩ := prepareJobsLoop_delta painter labelingEngine2 deferredPainterSet
    (requiresLabelRedraw (initCache st)) (below.reverse ++ above.reverse) (initCache st) []
  rw [prepareJobsLoop_concat, hr1, hr2] at hd ht
  rw [initCache_errors] at hd
  have hreduced : prepareJobs (st.withLayers (above ++ below)) painter labelingEngine2
      deferredPainterSet = (r2.1.transport (above ++ below) (st.mErrors ++ d), r2.2) := by
    unfold prepareJobs
    dsimp only
    have h1 : st.withLayers (above ++ below) = st.transport (above ++ below) st.mErrors := rfl
    rw [h1, initCache_transport]
    have h2 : requiresLabelRedraw ((initCache st).transport (above ++ below) st.mErrors) =
        requiresLabelRedraw (initCache st) := rfl
    have h3 : ((initCache st).transport (above ++ below) st.mErrors).mSettings.layers =
        above ++ below := rfl
    rw [h2, h3, List.reverse_append]
    exact ht _ _
  refine ⟨by rw [hfull, hreduced], by rw [hfull, hreduced]; rfl,
    ⟨r1.1.mErrors, d2, ?_, by rw [hfull]; rfl⟩, ?_⟩
  · rw [hreduced]
    show st.mErrors ++ d = r1.1.mErrors ++ d2
    rw [← hd, hd2]
  · unfold prepareJobs
    exact (prepareJobsLoop_invariant painter labelingEngine2 deferredPainterSet
      (requiresLabelRedraw (initCache st)) (fun s => s.mSettings = st.mSettings)
      (fun j => j.layer ≠ some ml) (initCache st).mSettings.layers.reverse
      (by
        intro ml1 _ s hs
        refine ⟨(prepareJobsLayer_settings painter labelingEngine2 deferredPainterSet
          (requiresLabelRedraw (initCache st)) s ml1).trans hs, ?_⟩
        intro j hj hl
        have hl2 := prepareJobsLayer_layer painter labelingEngine2 deferredPainterSet
          (requiresLabelRedraw (initCache st)) s ml1 j hj
        rw [hl] at hl2
        rw [← Option.some.inj hl2, hstep _ s hs] at hj
        cases hj)
      (initCache st) [] (initCache_settings st) (by simp)).2

theorem exampleFarLayer_non_finite :
    (layerExtents exampleFarState.mSettings exampleFarLayer).extent.isFinite = false := by
  simp [layerExtents, exampleFarState, exampleFarLayer, exampleInfiniteTransform,
    reprojectToLayerExtent, reprojectTry, QgsCoordinateTransform.transformBoundingBox,
    QgsCoordinateTransform.setBallparkTransformsAreAppropriate, exceedsGeographicBounds,
    QgsRectangle.isFinite, Double.isFinite]

/-- C11, at the stack [plain, far] whose bottom layer has an infinite reprojected extent:
same jobs as for the stack [plain], one more error. -/
theorem prepareJobs_non_finite_layer_witness :
    (prepareJobs exampleFarState none false false).2 =
      (prepareJobs (exampleFarState.withLayers ([examplePlainLayer] ++ [])) none false false).2 ∧
    ∃ e1 e2,
      (prepareJobs (exampleFarState.withLayers ([examplePlainLayer] ++ [])) none false
        false).1.mErrors = e1 ++ e2 ∧
      (prepareJobs exampleFarState none false false).1.mErrors =
        e1 ++ [⟨"far", extentErrorMessage⟩] ++ e2 :=
  have h := prepareJobs_non_finite_layer exampleFarState none false false [examplePlainLayer] []
    exampleFarLayer rfl rfl rfl (Or.inl exampleFarLayer_non_finite)
  ⟨h.2.1, h.2.2.2.1⟩

theorem prepareJobsLoop_cons (painter : Option QPainter) (le dp rl : Bool)
    (ml : QgsMapLayer) (rest : List QgsMapLayer) (st : JobState) (jobs : List LayerRenderJob) :
    prepareJobsLoop painter le dp rl (ml :: rest) st jobs =
      prepareJobsLoop painter le dp rl rest (prepareJobsLayer painter le dp rl st ml).1
        (jobs ++ (prepareJobsLayer painter le dp rl st ml).2.toList) := by
  rw [prepareJobsLoop]
  rcases prepareJobsLayer painter le dp rl st ml with ⟨st1, _ | job⟩
  · simp
  · simp

theorem prepareJobsLoop_grows (painter : Option QPainter) (le dp rl : Bool)
    (layers : List QgsMapLayer) (st : JobState) (jobs : List LayerRenderJob) :
    ∃ later d, (prepareJobsLoop painter le dp rl layers st jobs).2 = jobs ++ later ∧
      (prepareJobsLoop painter le dp rl layers st jobs).1.mErrors = st.mErrors ++ d ∧
      ∀ j ∈ later, ∃ ml ∈ layers, j.layer = some ml := by
  induction layers generalizing st jobs with
  | nil => exact ⟨[], [], by simp [prepareJobsLoop], by simp [prepareJobsLoop], by simp⟩
  | cons ml rest ih =>
    obtain ⟨d1, hd1, -⟩ := prepareJobsLayer_delta painter le dp rl st ml
    rw [prepareJobsLoop_cons]
    obtain ⟨later, d, h1, h2, h3⟩ := ih (prepareJobsLayer painter le dp rl st ml).1
      (jobs ++ (prepareJobsLayer painter le dp rl st ml).2.toList)
    refine ⟨(prepareJobsLayer painter le dp rl st ml).2.toList ++ later, d1 ++ d,
      by rw [h1, List.append_assoc], by rw [h2, hd1, List.append_assoc], ?_⟩
    intro j hj
    rcases List.mem_append.mp hj with h | h
    · rw [Option.mem_toList] at h
      exact ⟨ml, List.mem_cons_self _ _,
        prepareJobsLayer_layer painter le dp rl st ml j (Option.mem_def.mp h)⟩
    · obtain ⟨ml1, hm, hl⟩ := h3 j h
      exact ⟨ml1, List.mem_cons_of_mem _ hm, hl⟩

theorem prepareJobsLayer_processed_outcome (painter : Option QPainter) (le dp rl : Bool)
    (st : JobState) (ml : QgsMapLayer) (hValid : ml.isValid = true)
    (hScale : ml.isInScaleRange st.mSettings.scale = true)
    (hFinite1 : (layerExtents st.mSettings ml).extent.isFinite = true)
    (hFinite2 : (layerExtents st.mSettings ml).r2.isFinite = true) :
    (∃ j, (prepareJobsLayer painter le dp rl st ml).2 = some j) ∨
    ((prepareJobsLayer painter le dp rl st ml).2 = none ∧
      (prepareJobsLayer painter le dp rl st ml).1.mErrors =
        st.mErrors ++ [⟨ml.id, memoryErrorMessage st.mSettings⟩]) := by
  rw [prepareJobsLayer_processed painter le dp rl st ml hValid hScale hFinite1 hFinite2]
  dsimp only
  split_ifs
  · exact Or.inl ⟨_, rfl⟩
  · cases hn : st.newImage st.allocations with
    | none =>
      rw [allocateImageAndPainter_null _ _ (by exact hn)]
      exact Or.inr ⟨rfl, rfl⟩
    | some px =>
      rw [allocateImageAndPainter_ok _ _ px (by exact hn)]
      exact Or.inl ⟨_, rfl⟩
  · exact Or.inl ⟨_, rfl⟩

/-- Outcome of the loop for one layer of the list: the errors and the job left by its
step are kept by the rest of the loop. -/
theorem prepareJobsLoop_at_layer (painter : Option QPainter) (le dp rl : Bool)
    (layers : List QgsMapLayer) (st : JobState) (jobs : List LayerRenderJob)
    (ml : QgsMapLayer) (hml : ml ∈ layers) :
    ∃ s, s.mSettings = st.mSettings ∧
      (∃ d, (prepareJobsLoop painter le dp rl layers st jobs).1.mErrors =
          (prepareJobsLayer painter le dp rl s ml).1.mErrors ++ d) ∧
      ∀ j, (prepareJobsLayer painter le dp rl s ml).2 = some j →
        j ∈ (prepareJobsLoop painter le dp rl layers st jobs).2 := by
  obtain ⟨l1, l2, hsplit⟩ := List.append_of_mem hml
  subst hsplit
  rw [prepareJobsLoop_concat, prepareJobsLoop_cons]
  refine ⟨(prepareJobsLoop painter le dp rl l1 st jobs).1, prepareJobsLoop_settings _ _ _ _ _ _ _,
    ?_⟩
  obtain ⟨later, d, h1, h2, -⟩ := prepareJobsLoop_grows painter le dp rl l2
    (prepareJobsLayer painter le dp rl (prepareJobsLoop painter le dp rl l1 st jobs).1 ml).1
    ((prepareJobsLoop painter le dp rl l1 st jobs).2 ++
      (prepareJobsLayer painter le dp rl (prepareJobsLoop painter le dp rl l1 st jobs).1
        ml).2.toList)
  refine ⟨⟨d, h2⟩, ?_⟩
  intro j hj
  rw [h1, hj]
  simp

/-- C12, counterexample: the only layer of the stack is invalid; `prepareJobs` skips it
and the error list stays empty (no entry with the layer id). -/
theorem prepareJobs_skip_errors_counterexample :
    exampleInvalidLayer ∈ exampleInvalidState.mSettings.layers ∧
    exampleInvalidLayer.isValid = false ∧
    (prepareJobs exampleInvalidState none false false).2 = [] ∧
    (prepareJobs exampleInvalidState none false false).1.mErrors = [] := by
  refine ⟨by simp [exampleInvalidState], rfl, ?_, ?_⟩ <;>
    simp [prepareJobs, initCache, prepareJobsLoop, prepareJobsLayer, exampleInvalidState,
      exampleInvalidLayer]

/-- C12 (amended): every layer of the stack that `prepareJobs` skips because its
reprojected extent is not finite gets an entry with its layer id in the error list; a
layer that is invalid or outside the scale-visibility range is skipped with no change of
the object, so without an error entry; and every remaining layer (valid, in scale range,
finite extents) gets a job, or else an insufficient-memory entry with its layer id. -/
theorem prepareJobs_skipped_layers (st : JobState) (painter : Option QPainter)
    (labelingEngine2 deferredPainterSet : Bool) :
    (∀ ml ∈ st.mSettings.layers, ml.isValid = true →
      ml.isInScaleRange st.mSettings.scale = true →
      ((layerExtents st.mSettings ml).extent.isFinite = false ∨
        (layerExtents st.mSettings ml).r2.isFinite = false) →
      ⟨ml.id, extentErrorMessage⟩ ∈
        (prepareJobs st painter labelingEngine2 deferredPainterSet).1.mErrors) ∧
    (∀ (rl : Bool) (s : JobState) (ml : QgsMapLayer), s.mSettings = st.mSettings →
      (ml.isValid = false ∨ ml.isInScaleRange st.mSettings.scale = false) →
      prepareJobsLayer painter labelingEngine2 deferredPainterSet rl s ml = (s, none)) ∧
    (∀ ml ∈ st.mSettings.layers, ml.isValid = true →
      ml.isInScaleRange st.mSettings.scale = true →
      (layerExtents st.mSettings ml).extent.isFinite = true →
      (layerExtents st.mSettings ml).r2.isFinite = true →
      (∃ j ∈ (prepareJobs st painter labelingEngine2 deferredPainterSet).2,
        j.layer = some ml) ∨
      ⟨ml.id, memoryErrorMessage st.mSettings⟩ ∈
        (prepareJobs st painter labelingEngine2 deferredPainterSet).1.mErrors) := by
  have hat : ∀ ml ∈ st.mSettings.layers, ∃ s, s.mSettings = st.mSettings ∧
      (∃ d, (prepareJobs st painter labelingEngine2 deferredPainterSet).1.mErrors =
        (prepareJobsLayer painter labelingEngine2 deferredPainterSet
          (requiresLabelRedraw (initCache st)) s ml).1.mErrors ++ d) ∧
      ∀ j, (prepareJobsLayer painter labelingEngine2 deferredPainterSet
          (requiresLabelRedraw (initCache st)) s ml).2 = some j →
        j ∈ (prepareJobs st painter labelingEngine2 deferredPainterSet).2 := by
    intro ml hml
    obtain ⟨s, hs, h⟩ := prepareJobsLoop_at_layer painter labelingEngine2 deferredPainterSet
      (requiresLabelRedraw (initCache st)) (initCache st).mSettings.layers.reverse
      (initCache st) [] ml (by rw [initCache_settings]; exact List.mem_reverse.mpr hml)
    exact ⟨s, hs.trans (initCache_settings st), h⟩
  refine ⟨?_, ?_, ?_⟩
  · intro ml hml hv hsc hnf
    obtain ⟨s, hs, ⟨d, hd⟩, -⟩ := hat ml hml
    rw [hd, prepareJobsLayer_non_finite painter labelingEngine2 deferredPainterSet _ s ml hv
      (by rw [hs]; exact hsc) (by rw [hs]; exact hnf)]
    simp
  · intro rl s ml hs h
    rcases h with h | h
    · exact prepareJobsLayer_invalid painter labelingEngine2 deferredPainterSet rl s ml h
    · exact prepareJobsLayer_out_of_scale painter labelingEngine2 deferredPainterSet rl s ml
        (by rw [hs]; exact h)
  · intro ml hml hv hsc hf1 hf2
    obtain ⟨s, hs, ⟨d, hd⟩, hjob⟩ := hat ml hml
    rcases prepareJobsLayer_processed_outcome painter labelingEngine2 deferredPainterSet
      (requiresLabelRedraw (initCache st)) s ml hv (by rw [hs]; exact hsc)
      (by rw [hs]; exact hf1) (by rw [hs]; exact hf2) with ⟨j, hj⟩ | ⟨-, herr⟩
    · exact Or.inl ⟨j, hjob j hj,
        prepareJobsLayer_layer painter labelingEngine2 deferredPainterSet _ s ml j hj⟩
    · right
      rw [hd, herr, hs]
      simp

/-- C12 (amended), at the stack [plain, far]: "far" gets its extent error, "plain" its
job. -/
theorem prepareJobs_skipped_layers_witness :
    ⟨"far", extentErrorMessage⟩ ∈ (prepareJobs exampleFarState none false false).1.mErrors ∧
    ((∃ j ∈ (prepareJobs exampleFarState none false false).2,
        j.layer = some examplePlainLayer) ∨
      ⟨"plain", memoryErrorMessage exampleFarState.mSettings⟩ ∈
        (prepareJobs exampleFarState none false false).1.mErrors) :=
  ⟨(prepareJobs_skipped_layers exampleFarState none false false).1 exampleFarLayer
      (by simp [exampleFarState]) rfl rfl (Or.inl exampleFarLayer_non_finite),
    (prepareJobs_skipped_layers exampleFarState none false false).2.2 examplePlainLayer
      (by simp [exampleFarState]) rfl rfl
      (by simp [layerExtents, exampleFarState, examplePlainLayer, exampleNoTransform,
        QgsRectangle.grow, QgsRectangle.isFinite, Double.sub, Double.add, Double.neg,
        Double.isFinite])
      (by simp [layerExtents, exampleFarState, examplePlainLayer, exampleNoTransform,
        QgsRectangle.null, QgsRectangle.isFinite, Double.isFinite])⟩

/-- C15: when the step of `prepareJobs` for a layer needs an isolated image and the
allocation gives a null image, the step appends exactly one insufficient-memory error
with the layer id, leaves no job, creates no renderer and changes nothing else but the
allocation count (and the cache entry cleared for an edited or labeled layer); the loop
goes on from that state with the job list it had, so the jobs built before are kept and
every job added afterwards belongs to a layer visited afterwards. -/
theorem prepareJobs_allocation_failure (painter : Option QPainter)
    (labelingEngine2 deferredPainterSet rl : Bool) (st : JobState) (ml : QgsMapLayer)
    (rest : List QgsMapLayer) (jobs : List LayerRenderJob)
    (hValid : ml.isValid = true) (hScale : ml.isInScaleRange st.mSettings.scale = true)
    (hFinite1 : (layerExtents st.mSettings ml).extent.isFinite = true)
    (hFinite2 : (layerExtents st.mSettings ml).r2.isFinite = true)
    (hNotCached : ((forceRenderCache st.mCache ml labelingEngine2 rl).map
      fun c => c.hasCacheImage ml.id) ≠ some true)
    (hNeeded : needsIsolatedImage st.mCache.isSome painter deferredPainterSet st.mSettings ml
      = true)
    (hNull : st.newImage st.allocations = none) :
    prepareJobsLayer painter labelingEngine2 deferredPainterSet rl st ml =
      ({ st with
          mCache := forceRenderCache st.mCache ml labelingEngine2 rl
          allocations := st.allocations + 1
          mErrors := st.mErrors ++ [⟨ml.id, memoryErrorMessage st.mSettings⟩] }, none) ∧
    (prepareJobsLayer painter labelingEngine2 deferredPainterSet rl st ml).1.renderersCreated =
      st.renderersCreated ∧
    prepareJobsLoop painter labelingEngine2 deferredPainterSet rl (ml :: rest) st jobs =
      prepareJobsLoop painter labelingEngine2 deferredPainterSet rl rest
        { st with
          mCache := forceRenderCache st.mCache ml labelingEngine2 rl
          allocations := st.allocations + 1
          mErrors := st.mErrors ++ [⟨ml.id, memoryErrorMessage st.mSettings⟩] } jobs ∧
    ∃ later,
      (prepareJobsLoop painter labelingEngine2 deferredPainterSet rl (ml :: rest) st jobs).2 =
        jobs ++ later ∧
      ∀ j ∈ later, ∃ ml1 ∈ rest, j.layer = some ml1 := by
  have hstep : prepareJobsLayer painter labelingEngine2 deferredPainterSet rl st ml =
      ({ st with
          mCache := forceRenderCache st.mCache ml labelingEngine2 rl
          allocations := st.allocations + 1
          mErrors := st.mErrors ++ [⟨ml.id, memoryErrorMessage st.mSettings⟩] }, none) := by
    rw [prepareJobsLayer_processed painter labelingEngine2 deferredPainterSet rl st ml hValid
      hScale hFinite1 hFinite2]
    dsimp only
    rw [if_neg hNotCached, forceRenderCache_isSome, if_pos hNeeded,
      allocateImageAndPainter_null _ _ (by exact hNull)]
  have hloop : prepareJobsLoop painter labelingEngine2 deferredPainterSet rl (ml :: rest) st
      jobs = prepareJobsLoop painter labelingEngine2 deferredPainterSet rl rest
        { st with
          mCache := forceRenderCache st.mCache ml labelingEngine2 rl
          allocations := st.allocations + 1
          mErrors := st.mErrors ++ [⟨ml.id, memoryErrorMessage st.mSettings⟩] } jobs := by
    rw [prepareJobsLoop_cons, hstep]
    simp
  refine ⟨hstep, by rw [hstep], hloop, ?_⟩
  rw [hloop]
  obtain ⟨later, d, h1, -, h3⟩ := prepareJobsLoop_grows painter labelingEngine2
    deferredPainterSet rl rest
    { st with
      mCache := forceRenderCache st.mCache ml labelingEngine2 rl
      allocations := st.allocations + 1
      mErrors := st.mErrors ++ [⟨ml.id, memoryErrorMessage st.mSettings⟩] } jobs
  exact ⟨later, h1, h3⟩

/-- C15, at a one-layer stack with no target painter and an allocator that only gives
null images: one insufficient-memory error for "plain", no job. -/
theorem prepareJobs_allocation_failure_witness :
    (prepareJobs exampleNoMemoryState none false false).2 = [] ∧
    (prepareJobs exampleNoMemoryState none false false).1.mErrors =
      [⟨"plain", memoryErrorMessage exampleNoMemoryState.mSettings⟩] ∧
    (prepareJobs exampleNoMemoryState none false false).1.renderersCreated = [] := by
  have h := prepareJobs_allocation_failure none false false
    (requiresLabelRedraw (initCache exampleNoMemoryState)) (initCache exampleNoMemoryState)
    examplePlainLayer [] [] rfl rfl
    (by simp [layerExtents, initCache, exampleNoMemoryState, examplePlainLayer,
      exampleNoTransform, QgsRectangle.grow, QgsRectangle.isFinite, Double.sub, Double.add,
      Double.neg, Double.isFinite])
    (by simp [layerExtents, initCache, exampleNoMemoryState, examplePlainLayer,
      exampleNoTransform, QgsRectangle.null, QgsRectangle.isFinite, Double.isFinite])
    (by simp [initCache, exampleNoMemoryState, forceRenderCache])
    (by simp [needsIsolatedImage, initCache, exampleNoMemoryState])
    rfl
  have hrun : prepareJobs exampleNoMemoryState none false false =
      prepareJobsLoop none false false (requiresLabelRedraw (initCache exampleNoMemoryState))
        [examplePlainLayer] (initCache exampleNoMemoryState) [] := rfl
  rw [hrun, h.2.2.1]
  exact ⟨rfl, rfl, rfl⟩

/-! ## Compositor -/

/-- C2: a label job with an allocated image (any content) but `complete = false`
composes to exactly what any label job without an image composes to, for every settings
and job list: the returned image is the same, and so is the list of draw calls. -/
theorem composeImage_incomplete_label_ignored (qt : QtBlend) (settings : QgsMapSettings)
    (jobs : List LayerRenderJob) (labelJob noLabelJob : LabelRenderJob) (garbage : QImage) :
    composeImage qt settings jobs { labelJob with img := some garbage, complete := false } =
      composeImage qt settings jobs { noLabelJob with img := none } ∧
    (composeImageState qt settings jobs
        { labelJob with img := some garbage, complete := false }).map (·.drawn) =
      (composeImageState qt settings jobs { noLabelJob with img := none }).map (·.drawn) := by
  simp [composeImage, composeImageState, composeLabels]

/-- C3, counterexample: with identical opaque red content in both passes and a mask
pixel of alpha 1/2, `composeSecondPass` returns and leaves the first-pass pixel at
(3/4, 0, 0, 3/4), not at the original (1, 0, 0, 1). -/
theorem composeSecondPass_roundtrip_counterexample :
    exampleMaskedJob.img = exampleSecondPassJob.img ∧
    (exampleImageA.pixel 0 0).a = 1 ∧
    ∃ st jobs fp img,
      composeSecondPass exampleBlend exampleMaskState [exampleSecondPassJob] = some (st, jobs) ∧
      st.firstPassJobs[0]? = some fp ∧ fp.img = some img ∧
      img.pixel 0 0 = ⟨3 / 4, 0, 0, 3 / 4⟩ ∧ img.pixel 0 0 ≠ exampleImageA.pixel 0 0 := by
  refine ⟨rfl, rfl, ?_⟩
  simp [composeSecondPass, composeSecondPassJob, exampleSecondPassJob, exampleMaskState,
    maskImageOf, exampleMaskSourceJob, exampleMaskedJob, QPainter.fresh,
    QPainter.setCompositionMode, drawImage, blendPixel, exampleImageA, exampleMask,
    QImage.filled, Pixel.scale, Pixel.add]
  norm_num

/-- C3 (amended): for a second-pass job with a single mask source and painters of
opacity 1, `composeSecondPass` returns, and at every pixel where both passes hold the
same fully opaque content the first-pass image afterwards holds that content scaled by
`a + (1 - a)^2`, `a` being the mask alpha there; so the original content is reproduced
where the mask alpha is 0 or 1. -/
theorem composeSecondPass_single_mask (qt : QtBlend) (st : SecondPassState)
    (job fp : LayerRenderJob) (p : MaskJob) (mask img1 img2 : QImage) (painter2 : QPainter)
    (i : Nat)
    (hMaskJobs : job.maskJobs = [p]) (hMask : maskImageOf st p = some (some mask))
    (hPainter2 : job.context.painter = some painter2) (hOpacity2 : painter2.opacity = 1)
    (hImg2 : job.img = some img2) (hFirst : job.firstPassJob = some i)
    (hFp : st.firstPassJobs[i]? = some fp) (hImg1 : fp.img = some img1)
    (hOpacity1 : ∀ q, fp.context.painter = some q → q.opacity = 1) :
    ∃ st1 job1 fp1 out,
      composeSecondPass qt st [job] = some (st1, [job1]) ∧
      st1.firstPassJobs[i]? = some fp1 ∧ fp1.img = some out ∧
      ∀ x y, x < mask.width → y < mask.height → x < img2.width → y < img2.height →
        img2.pixel x y = img1.pixel x y → (img1.pixel x y).a = 1 →
        out.pixel x y =
          (img1.pixel x y).scale ((mask.pixel x y).a + (1 - (mask.pixel x y).a) ^ 2) ∧
        ((mask.pixel x y).a = 0 ∨ (mask.pixel x y).a = 1 → out.pixel x y = img1.pixel x y) := by
  have hi : i < st.firstPassJobs.length := by
    rcases Nat.lt_or_ge i st.firstPassJobs.length with h | h
    · exact h
    · rw [List.getElem?_eq_none h] at hFp
      cases hFp
  have hop : ((fp.context.painter.getD QPainter.fresh).setCompositionMode
      CompositionMode.DestinationOut).opacity = 1 := by
    cases hq : fp.context.painter with
    | none => simp [QPainter.fresh, QPainter.setCompositionMode]
    | some q => simpa [QPainter.setCompositionMode] using hOpacity1 q hq
  simp only [composeSecondPass, composeSecondPassJob, hMaskJobs, List.length_singleton,
    gt_iff_lt, lt_self_iff_false, if_false, hMask, hPainter2, hFirst, hFp, hImg2, hImg1,
    Option.map_some']
  refine ⟨_, _, _, _, rfl, List.getElem?_set_self hi, rfl, ?_⟩
  · intro x y hx hy hx2 hy2 hsame hsolid
    have key : (drawImage qt
        (((fp.context.painter.getD QPainter.fresh).setCompositionMode
          CompositionMode.DestinationOut).setCompositionMode CompositionMode.SourceOver)
        (drawImage qt ((fp.context.painter.getD QPainter.fresh).setCompositionMode
          CompositionMode.DestinationOut) img1 mask)
        (drawImage qt (painter2.setCompositionMode CompositionMode.DestinationIn)
          img2 mask)).pixel x y =
        (img1.pixel x y).scale ((mask.pixel x y).a + (1 - (mask.pixel x y).a) ^ 2) := by
      have hop2 : (((fp.context.painter.getD QPainter.fresh).setCompositionMode
          CompositionMode.DestinationOut).setCompositionMode
          CompositionMode.SourceOver).opacity = 1 := by
        simpa [QPainter.setCompositionMode] using hop
      simp only [drawImage, hx, hy, hx2, hy2, and_self, if_true, QPainter.setCompositionMode,
        blendPixel, hOpacity2, hsame] at hop hop2 ⊢
      simp only [hop, Pixel.scale, Pixel.add, hsolid, Pixel.mk.injEq]
      refine ⟨?_, ?_, ?_, ?_⟩ <;> ring
    refine ⟨key, ?_⟩
    intro ha
    rw [key]
    rcases ha with ha | ha <;> simp [ha, Pixel.scale]

/-- C3 (amended), at the example mask scene: one mask source, both passes opaque red. -/
theorem composeSecondPass_single_mask_witness :
    ∃ st1 job1 fp1 out,
      composeSecondPass exampleBlend exampleMaskState [exampleSecondPassJob] =
        some (st1, [job1]) ∧
      st1.firstPassJobs[0]? = some fp1 ∧ fp1.img = some out ∧
      ∀ x y, x < exampleMask.width → y < exampleMask.height →
        x < exampleImageA.width → y < exampleImageA.height →
        exampleImageA.pixel x y = exampleImageA.pixel x y → (exampleImageA.pixel x y).a = 1 →
        out.pixel x y = (exampleImageA.pixel x y).scale
          ((exampleMask.pixel x y).a + (1 - (exampleMask.pixel x y).a) ^ 2) ∧
        ((exampleMask.pixel x y).a = 0 ∨ (exampleMask.pixel x y).a = 1 →
          out.pixel x y = exampleImageA.pixel x y) :=
  composeSecondPass_single_mask exampleBlend exampleMaskState exampleSecondPassJob
    exampleMaskedJob (some 1, -1) exampleMask exampleImageA exampleImageA QPainter.fresh 0
    rfl rfl rfl rfl rfl rfl rfl rfl
    (by intro q h; simp [exampleMaskedJob] at h; subst h; rfl)

/-! ## Extent reprojector -/

theorem reprojectToLayerExtent_ok (ml : QgsMapLayer) (ct : QgsCoordinateTransform)
    (extent r2 extent1 : QgsRectangle) (calls : List TransformCall)
    (h : reprojectTry ml (ct.setBallparkTransformsAreAppropriate true) extent =
      (calls, .ok extent1)) :
    reprojectToLayerExtent ml ct extent r2 = ⟨false, extent1, r2, calls⟩ := by
  unfold reprojectToLayerExtent
  dsimp only
  rw [h]

theorem reprojectToLayerExtent_error (ml : QgsMapLayer) (ct : QgsCoordinateTransform)
    (extent r2 : QgsRectangle) (calls : List TransformCall) (e : QgsCsException)
    (h : reprojectTry ml (ct.setBallparkTransformsAreAppropriate true) extent =
      (calls, .error e)) :
    reprojectToLayerExtent ml ct extent r2 =
      ⟨false, QgsRectangle.unbounded, QgsRectangle.unbounded, calls⟩ := by
  unfold reprojectToLayerExtent
  dsimp only
  rw [h]

/-- C7, counterexample: a geographic layer under a geographic destination with a view
extent across the seam (x 170..190, y 10..20): the reverse-transformed lower-left x is
170, the upper-right x is -170, and the request extent becomes (-180, 10, 180, 20), which
is not (-180, -90, 180, 90). -/
theorem reprojectToLayerExtent_seam_counterexample :
    exampleGeographicLayer.crsIsGeographic = true ∧
    (exampleWrapTransform.setBallparkTransformsAreAppropriate true).transform
      exampleSeamExtent.xMinimum exampleSeamExtent.yMinimum .ReverseTransform =
        .ok ⟨.finite 170, .finite 10⟩ ∧
    (exampleWrapTransform.setBallparkTransformsAreAppropriate true).transform
      exampleSeamExtent.xMaximum exampleSeamExtent.yMaximum .ReverseTransform =
        .ok ⟨.finite (-170), .finite 20⟩ ∧
    (Double.finite 170).gt (.finite (-170)) = true ∧
    (reprojectToLayerExtent exampleGeographicLayer exampleWrapTransform exampleSeamExtent
      QgsRectangle.null).extent = ⟨.finite (-180), .finite 10, .finite 180, .finite 20⟩ ∧
    (reprojectToLayerExtent exampleGeographicLayer exampleWrapTransform exampleSeamExtent
      QgsRectangle.null).extent ≠ QgsRectangle.world := by
  have h : (reprojectToLayerExtent exampleGeographicLayer exampleWrapTransform exampleSeamExtent
      QgsRectangle.null).extent = ⟨.finite (-180), .finite 10, .finite 180, .finite 20⟩ := by
    simp [reprojectToLayerExtent, reprojectTry, exampleGeographicLayer, exampleWrapTransform,
      exampleSeamExtent, QgsCoordinateTransform.setBallparkTransformsAreAppropriate,
      QgsCoordinateTransform.transform, QgsCoordinateTransform.transformBoundingBox,
      wrapLongitude, Double.le, Double.gt, Double.lt, QgsRectangle.setXMinimum,
      QgsRectangle.setXMaximum]
    norm_num
  refine ⟨rfl, ?_, ?_, ?_, h, ?_⟩
  · simp [exampleWrapTransform, exampleSeamExtent, wrapLongitude,
      QgsCoordinateTransform.setBallparkTransformsAreAppropriate, QgsCoordinateTransform.transform]
    norm_num
  · simp [exampleWrapTransform, exampleSeamExtent, wrapLongitude,
      QgsCoordinateTransform.setBallparkTransformsAreAppropriate, QgsCoordinateTransform.transform]
    norm_num
  · simp [Double.gt, Double.lt]
  · rw [h]
    simp [QgsRectangle.world]

/-- C7 (amended): for a layer with a geographic source CRS that is not a vector layer
under a projected destination, when no transform call fails and the reverse-transformed
lower-left corner has a larger x than the reverse-transformed upper-right corner, the
request extent has x range exactly [-180, 180] and the y range of the reverse-transformed
bounding box. -/
theorem reprojectToLayerExtent_seam (ml : QgsMapLayer) (ct : QgsCoordinateTransform)
    (extent r2 extent1 : QgsRectangle) (ll ur : QgsPointXY)
    (hGeographic : ml.crsIsGeographic = true)
    (hBranch : ml.type ≠ .VectorLayer ∨ ct.destinationCrsIsGeographic = true)
    (hLowerLeft : (ct.setBallparkTransformsAreAppropriate true).transform
      extent.xMinimum extent.yMinimum .ReverseTransform = .ok ll)
    (hUpperRight : (ct.setBallparkTransformsAreAppropriate true).transform
      extent.xMaximum extent.yMaximum .ReverseTransform = .ok ur)
    (hBox : (ct.setBallparkTransformsAreAppropriate true).transformBoundingBox
      extent .ReverseTransform = .ok extent1)
    (hSeam : ll.x.gt ur.x = true) :
    (reprojectToLayerExtent ml ct extent r2).extent =
      ⟨.finite (-180), extent1.yMinimum, .finite 180, extent1.yMaximum⟩ := by
  have hb : (ml.type = .VectorLayer &&
      !(ct.setBallparkTransformsAreAppropriate true).destinationCrsIsGeographic) = false := by
    rcases hBranch with h | h
    · simp [h]
    · simp [QgsCoordinateTransform.setBallparkTransformsAreAppropriate, h]
  unfold reprojectToLayerExtent reprojectTry
  simp only [hGeographic, hb, if_true, Bool.false_eq_true, if_false, hLowerLeft, hUpperRight,
    hBox, hSeam]
  rfl

/-- C7 (amended), at the seam example: geographic layer, geographic destination. -/
theorem reprojectToLayerExtent_seam_witness :
    (reprojectToLayerExtent exampleGeographicLayer exampleWrapTransform exampleSeamExtent
      QgsRectangle.null).extent = ⟨.finite (-180), .finite 10, .finite 180, .finite 20⟩ :=
  reprojectToLayerExtent_seam exampleGeographicLayer exampleWrapTransform exampleSeamExtent
    QgsRectangle.null ⟨.finite (-170), .finite 10, .finite 170, .finite 20⟩
    ⟨.finite 170, .finite 10⟩ ⟨.finite (-170), .finite 20⟩ rfl (Or.inr rfl)
    (by
      simp [exampleWrapTransform, exampleSeamExtent, wrapLongitude,
        QgsCoordinateTransform.setBallparkTransformsAreAppropriate,
        QgsCoordinateTransform.transform]
      norm_num)
    (by
      simp [exampleWrapTransform, exampleSeamExtent, wrapLongitude,
        QgsCoordinateTransform.setBallparkTransformsAreAppropriate,
        QgsCoordinateTransform.transform]
      norm_num)
    (by
      simp [exampleWrapTransform, exampleSeamExtent, wrapLongitude, Double.le,
        QgsCoordinateTransform.setBallparkTransformsAreAppropriate,
        QgsCoordinateTransform.transformBoundingBox]
      norm_num)
    (by simp [Double.gt, Double.lt])

/-- C8, counterexample: a raster layer with a geographic CRS under a projected
destination whose round trip diverges (e1 = (0, 0, 1, 1), e2 = (100, 100, 200, 200) for the
view extent (0, 0, 10, 10)): the request extent is e1, not the whole-world rectangle. -/
theorem reprojectToLayerExtent_round_trip_counterexample :
    exampleRasterLayer.crsIsGeographic = true ∧
    exampleDivergingTransform.destinationCrsIsGeographic = false ∧
    (exampleDivergingTransform.setBallparkTransformsAreAppropriate true).transformBoundingBox
      exampleSmallExtent .ReverseTransform = .ok ⟨.finite 0, .finite 0, .finite 1, .finite 1⟩ ∧
    (exampleDivergingTransform.setBallparkTransformsAreAppropriate true).transformBoundingBox
      ⟨.finite 0, .finite 0, .finite 1, .finite 1⟩ .ForwardTransform =
        .ok ⟨.finite 100, .finite 100, .finite 200, .finite 200⟩ ∧
    qgsDoubleNear (.finite 100) exampleSmallExtent.xMinimum
      (exampleSmallExtent.width.mul Double.pointTwo) = false ∧
    (reprojectToLayerExtent exampleRasterLayer exampleDivergingTransform exampleSmallExtent
      QgsRectangle.null).extent = ⟨.finite 0, .finite 0, .finite 1, .finite 1⟩ ∧
    (reprojectToLayerExtent exampleRasterLayer exampleDivergingTransform exampleSmallExtent
      QgsRectangle.null).extent ≠ QgsRectangle.world := by
  have h : (reprojectToLayerExtent exampleRasterLayer exampleDivergingTransform
      exampleSmallExtent QgsRectangle.null).extent =
      ⟨.finite 0, .finite 0, .finite 1, .finite 1⟩ := by
    simp [reprojectToLayerExtent, reprojectTry, exampleRasterLayer, exampleDivergingTransform,
      exampleSmallExtent, QgsCoordinateTransform.setBallparkTransformsAreAppropriate,
      QgsCoordinateTransform.transform, QgsCoordinateTransform.transformBoundingBox,
      Double.gt, Double.lt]
  refine ⟨rfl, rfl, rfl, rfl, ?_, h, ?_⟩
  · decide!
  · rw [h]
    simp [QgsRectangle.world]

/-- C8 (amended): for a vector layer whose source CRS is geographic while the target CRS
is projected, when the two bounding-box transforms return e1 (reverse of the view extent
e) and e2 (forward of e1), the request extent is e1 if each of the four edges of e2 is
`qgsDoubleNear` the matching edge of e with the tolerance `extent.width() * 0.2` (x edges)
or `extent.height() * 0.2` (y edges), the product of the width or height of e and the
double 0.2 rounded to double, and the whole-world rectangle otherwise. -/
theorem reprojectToLayerExtent_round_trip (ml : QgsMapLayer) (ct : QgsCoordinateTransform)
    (extent r2 extent1 extent2 : QgsRectangle)
    (hGeographic : ml.crsIsGeographic = true) (hVector : ml.type = .VectorLayer)
    (hProjected : ct.destinationCrsIsGeographic = false)
    (hReverse : (ct.setBallparkTransformsAreAppropriate true).transformBoundingBox
      extent .ReverseTransform = .ok extent1)
    (hForward : (ct.setBallparkTransformsAreAppropriate true).transformBoundingBox
      extent1 .ForwardTransform = .ok extent2) :
    (reprojectToLayerExtent ml ct extent r2).extent =
      if qgsDoubleNear extent2.xMinimum extent.xMinimum (extent.width.mul Double.pointTwo)
          = true ∧
        qgsDoubleNear extent2.xMaximum extent.xMaximum (extent.width.mul Double.pointTwo)
          = true ∧
        qgsDoubleNear extent2.yMinimum extent.yMinimum (extent.height.mul Double.pointTwo)
          = true ∧
        qgsDoubleNear extent2.yMaximum extent.yMaximum (extent.height.mul Double.pointTwo)
          = true
      then extent1 else QgsRectangle.world := by
  have hb : (ml.type = .VectorLayer &&
      !(ct.setBallparkTransformsAreAppropriate true).destinationCrsIsGeographic) = true := by
    simp [QgsCoordinateTransform.setBallparkTransformsAreAppropriate, hVector, hProjected]
  unfold reprojectToLayerExtent reprojectTry
  simp only [hGeographic, hb, if_true, hReverse, hForward, roundTripNear, Bool.and_eq_true,
    and_assoc]

/-- C8 (amended), at a vector layer under the diverging transform (whole world), and at
the edge of the tolerance: for the view extent (0, 0, 1, 1) and the forward box
(0.2, 0, 1, 1) the x edge differs by the double 0.2, which is the tolerance
`extent.width() * 0.2` computed in double, so the request extent is e1 = (5, 5, 6, 6). -/
theorem reprojectToLayerExtent_round_trip_witness :
    (reprojectToLayerExtent exampleGeographicLayer exampleDivergingTransform exampleSmallExtent
      QgsRectangle.null).extent = QgsRectangle.world ∧
    exampleUnitExtent.width.mul Double.pointTwo = Double.pointTwo ∧
    (reprojectToLayerExtent exampleGeographicLayer exampleEdgeTransform exampleUnitExtent
      QgsRectangle.null).extent = ⟨.finite 5, .finite 5, .finite 6, .finite 6⟩ := by
  have h := reprojectToLayerExtent_round_trip exampleGeographicLayer exampleDivergingTransform
    exampleSmallExtent QgsRectangle.null ⟨.finite 0, .finite 0, .finite 1, .finite 1⟩
    ⟨.finite 100, .finite 100, .finite 200, .finite 200⟩ rfl rfl rfl rfl rfl
  have hfar : qgsDoubleNear (.finite 100) exampleSmallExtent.xMinimum
      (exampleSmallExtent.width.mul Double.pointTwo) = false := by decide!
  have h2 := reprojectToLayerExtent_round_trip exampleGeographicLayer exampleEdgeTransform
    exampleUnitExtent QgsRectangle.null ⟨.finite 5, .finite 5, .finite 6, .finite 6⟩
    ⟨Double.pointTwo, .finite 0, .finite 1, .finite 1⟩ rfl rfl rfl rfl rfl
  refine ⟨?_, by decide!, ?_⟩
  · rw [h]
    exact if_neg fun hc => Bool.noConfusion (hc.1.symm.trans hfar)
  · rw [h2]
    exact if_pos ⟨by decide!, by decide!, by decide!, by decide!⟩

theorem Double.le_false_of_lt (a b : Double) (h : a.lt b = true) : b.le a = false := by
  cases a <;> cases b <;> simp_all [Double.lt, Double.le]

/-- C9, counterexample: a projected layer under a geographic destination with the view
extent exactly (-180, -90, 180, 90), which does not exceed the valid range: the request
extent is the unbounded rectangle and no transform call is made, although the
reverse-transformed bounding box is (-180, -90, 180, 90). -/
theorem reprojectToLayerExtent_bounds_counterexample :
    exampleProjectedLayer.crsIsGeographic = false ∧
    exampleIdentityGeographic.destinationCrsIsGeographic = true ∧
    QgsRectangle.world.xMinimum.lt (.finite (-180)) = false ∧
    QgsRectangle.world.xMaximum.gt (.finite 180) = false ∧
    QgsRectangle.world.yMinimum.lt (.finite (-90)) = false ∧
    QgsRectangle.world.yMaximum.gt (.finite 90) = false ∧
    (exampleIdentityGeographic.setBallparkTransformsAreAppropriate true).transformBoundingBox
      QgsRectangle.world .ReverseTransform = .ok QgsRectangle.world ∧
    (reprojectToLayerExtent exampleProjectedLayer exampleIdentityGeographic QgsRectangle.world
      QgsRectangle.null).extent = QgsRectangle.unbounded ∧
    (reprojectToLayerExtent exampleProjectedLayer exampleIdentityGeographic QgsRectangle.world
      QgsRectangle.null).calls = [] ∧
    QgsRectangle.unbounded ≠ QgsRectangle.world := by
  refine ⟨rfl, rfl, ?_, ?_, ?_, ?_, rfl, ?_, ?_, ?_⟩
  · simp [QgsRectangle.world, Double.lt]
  · simp [QgsRectangle.world, Double.gt, Double.lt]
  · simp [QgsRectangle.world, Double.lt]
  · simp [QgsRectangle.world, Double.gt, Double.lt]
  · simp [reprojectToLayerExtent, reprojectTry, exampleProjectedLayer, exampleIdentityGeographic,
      QgsCoordinateTransform.setBallparkTransformsAreAppropriate, exceedsGeographicBounds,
      QgsRectangle.world, Double.le, Double.ge]
  · simp [reprojectToLayerExtent, reprojectTry, exampleProjectedLayer, exampleIdentityGeographic,
      QgsCoordinateTransform.setBallparkTransformsAreAppropriate, exceedsGeographicBounds,
      QgsRectangle.world, Double.le, Double.ge]
  · simp [QgsRectangle.world, QgsRectangle.unbounded, Double.lowest]
    norm_num

/-- C9 (amended): for a layer whose source CRS is not geographic while the target CRS is
geographic, the request extent is set to the unbounded rectangle without a transform call
exactly when xmin <= -180 or xmax >= 180 or ymin <= -90 or ymax >= 90; and for every
extent strictly inside (-180, 180) x (-90, 90) whose reverse bounding-box transform
returns, the request extent is that reverse-transformed bounding box, after exactly that
one call. -/
theorem reprojectToLayerExtent_geographic_target (ml : QgsMapLayer)
    (ct : QgsCoordinateTransform) (extent r2 : QgsRectangle)
    (hSource : ml.crsIsGeographic = false) (hTarget : ct.destinationCrsIsGeographic = true) :
    (((reprojectToLayerExtent ml ct extent r2).calls = [] ∧
        (reprojectToLayerExtent ml ct extent r2).extent = QgsRectangle.unbounded) ↔
      (extent.xMinimum.le (.finite (-180)) = true ∨ extent.xMaximum.ge (.finite 180) = true ∨
        extent.yMinimum.le (.finite (-90)) = true ∨ extent.yMaximum.ge (.finite 90) = true)) ∧
    (∀ extent1, (Double.finite (-180)).lt extent.xMinimum = true →
      extent.xMaximum.lt (.finite 180) = true → (Double.finite (-90)).lt extent.yMinimum = true →
      extent.yMaximum.lt (.finite 90) = true →
      (ct.setBallparkTransformsAreAppropriate true).transformBoundingBox extent
        .ReverseTransform = .ok extent1 →
      (reprojectToLayerExtent ml ct extent r2).extent = extent1 ∧
      (reprojectToLayerExtent ml ct extent r2).calls =
        [.boundingBox extent .ReverseTransform]) := by
  have hd : (ct.setBallparkTransformsAreAppropriate true).destinationCrsIsGeographic = true := by
    simp [QgsCoordinateTransform.setBallparkTransformsAreAppropriate, hTarget]
  have hex : exceedsGeographicBounds extent = true ↔
      (extent.xMinimum.le (.finite (-180)) = true ∨ extent.xMaximum.ge (.finite 180) = true ∨
        extent.yMinimum.le (.finite (-90)) = true ∨ extent.yMaximum.ge (.finite 90) = true) := by
    simp [exceedsGeographicBounds, or_assoc]
  constructor
  · rw [← hex]
    by_cases hx : exceedsGeographicBounds extent = true
    · have htry : reprojectTry ml (ct.setBallparkTransformsAreAppropriate true) extent =
          ([], .ok QgsRectangle.unbounded) := by
        unfold reprojectTry
        simp [hSource, hd, hx]
      rw [reprojectToLayerExtent_ok ml ct extent r2 _ _ htry]
      simp [hx]
    · rcases hbb : (ct.setBallparkTransformsAreAppropriate true).transformBoundingBox extent
        .ReverseTransform with e | extent1
      · have htry : reprojectTry ml (ct.setBallparkTransformsAreAppropriate true) extent =
            ([.boundingBox extent .ReverseTransform], .error e) := by
          unfold reprojectTry
          simp [hSource, hd, hx, hbb]
        rw [reprojectToLayerExtent_error ml ct extent r2 _ _ htry]
        simp [hx]
      · have htry : reprojectTry ml (ct.setBallparkTransformsAreAppropriate true) extent =
            ([.boundingBox extent .ReverseTransform], .ok extent1) := by
          unfold reprojectTry
          simp [hSource, hd, hx, hbb]
        rw [reprojectToLayerExtent_ok ml ct extent r2 _ _ htry]
        simp [hx]
  · intro extent1 h1 h2 h3 h4 hbb
    have hx : exceedsGeographicBounds extent = false := by
      simp [exceedsGeographicBounds, Double.ge, Double.le_false_of_lt _ _ h1,
        Double.le_false_of_lt _ _ h2, Double.le_false_of_lt _ _ h3,
        Double.le_false_of_lt _ _ h4]
    have htry : reprojectTry ml (ct.setBallparkTransformsAreAppropriate true) extent =
        ([.boundingBox extent .ReverseTransform], .ok extent1) := by
      unfold reprojectTry
      simp [hSource, hd, hx, hbb]
    rw [reprojectToLayerExtent_ok ml ct extent r2 _ _ htry]
    exact ⟨rfl, rfl⟩

/-- C9 (amended), at a projected layer under the identity transform to a geographic CRS,
view extent (0, 0, 10, 10). -/
theorem reprojectToLayerExtent_geographic_target_witness :
    (reprojectToLayerExtent exampleProjectedLayer exampleIdentityGeographic exampleSmallExtent
      QgsRectangle.null).extent = exampleSmallExtent ∧
    (reprojectToLayerExtent exampleProjectedLayer exampleIdentityGeographic exampleSmallExtent
      QgsRectangle.null).calls = [.boundingBox exampleSmallExtent .ReverseTransform] :=
  (reprojectToLayerExtent_geographic_target exampleProjectedLayer exampleIdentityGeographic
    exampleSmallExtent QgsRectangle.null rfl rfl).2 exampleSmallExtent
    (by simp [exampleSmallExtent, Double.lt])
    (by simp [exampleSmallExtent, Double.lt]; norm_num)
    (by simp [exampleSmallExtent, Double.lt])
    (by simp [exampleSmallExtent, Double.lt]; norm_num) rfl

theorem reprojectTry_raises (ml : QgsMapLayer) (approx : QgsCoordinateTransform)
    (extent : QgsRectangle) (call : TransformCall)
    (hCall : call ∈ (reprojectTry ml approx extent).1)
    (hRaises : call.raises approx = true) :
    ∃ e, (reprojectTry ml approx extent).2 = .error e := by
  unfold reprojectTry at hCall ⊢
  by_cases hg : ml.crsIsGeographic = true
  · by_cases hb : (ml.type = .VectorLayer && !approx.destinationCrsIsGeographic) = true
    · rw [if_pos hg, if_pos hb] at hCall ⊢
      rcases h1 : approx.transformBoundingBox extent .ReverseTransform with e | extent1
      · exact ⟨e, rfl⟩
      · rw [h1] at hCall
        dsimp only at hCall ⊢
        rcases h2 : approx.transformBoundingBox extent1 .ForwardTransform with e | extent2
        · exact ⟨e, rfl⟩
        · rw [h2] at hCall
          simp only [List.mem_cons, List.mem_singleton, List.not_mem_nil, or_false] at hCall
          rcases hCall with h | h <;> subst h <;> simp [TransformCall.raises, h1, h2] at hRaises
    · rw [if_pos hg, if_neg hb] at hCall ⊢
      rcases h1 : approx.transform extent.xMinimum extent.yMinimum .ReverseTransform with e | ll
      · exact ⟨e, rfl⟩
      · rw [h1] at hCall
        dsimp only at hCall ⊢
        rcases h2 : approx.transform extent.xMaximum extent.yMaximum .ReverseTransform
          with e | ur
        · exact ⟨e, rfl⟩
        · rw [h2] at hCall
          dsimp only at hCall ⊢
          rcases h3 : approx.transformBoundingBox extent .ReverseTransform with e | extent1
          · exact ⟨e, rfl⟩
          · rw [h3] at hCall
            simp only [List.mem_cons, List.mem_singleton, List.not_mem_nil, or_false] at hCall
            rcases hCall with h | h | h <;> subst h <;>
              simp [TransformCall.raises, h1, h2, h3] at hRaises
  · rw [if_neg hg] at hCall ⊢
    by_cases hx : (approx.destinationCrsIsGeographic && exceedsGeographicBounds extent) = true
    · rw [if_pos hx] at hCall
      simp at hCall
    · rw [if_neg hx] at hCall ⊢
      rcases h1 : approx.transformBoundingBox extent .ReverseTransform with e | extent1
      · exact ⟨e, rfl⟩
      · rw [h1] at hCall
        simp only [List.mem_singleton] at hCall
        subst hCall
        simp [TransformCall.raises, h1] at hRaises

/-- C10: if a coordinate transform call made by `reprojectToLayerExtent` raises
`QgsCsException`, the function returns (with `split = false`) and both output rectangles,
`extent` and `r2`, are the unbounded rectangle. -/
theorem reprojectToLayerExtent_exception (ml : QgsMapLayer) (ct : QgsCoordinateTransform)
    (extent r2 : QgsRectangle) (call : TransformCall)
    (hCall : call ∈ (reprojectToLayerExtent ml ct extent r2).calls)
    (hRaises : call.raises (ct.setBallparkTransformsAreAppropriate true) = true) :
    (reprojectToLayerExtent ml ct extent r2).split = false ∧
    (reprojectToLayerExtent ml ct extent r2).extent = QgsRectangle.unbounded ∧
    (reprojectToLayerExtent ml ct extent r2).r2 = QgsRectangle.unbounded := by
  rcases hres : reprojectTry ml (ct.setBallparkTransformsAreAppropriate true) extent
    with ⟨calls, e1 | extent1⟩
  · rw [reprojectToLayerExtent_error ml ct extent r2 _ _ hres]
    exact ⟨rfl, rfl, rfl⟩
  · rw [reprojectToLayerExtent_ok ml ct extent r2 _ _ hres] at hCall
    obtain ⟨e, he⟩ := reprojectTry_raises ml _ extent call (by rw [hres]; exact hCall) hRaises
    rw [hres] at he
    cases he

/-- C10, at a transform whose every operation raises. -/
theorem reprojectToLayerExtent_exception_witness :
    (reprojectToLayerExtent exampleGeographicLayer exampleFailingTransform exampleSmallExtent
      QgsRectangle.null).split = false ∧
    (reprojectToLayerExtent exampleGeographicLayer exampleFailingTransform exampleSmallExtent
      QgsRectangle.null).extent = QgsRectangle.unbounded ∧
    (reprojectToLayerExtent exampleGeographicLayer exampleFailingTransform exampleSmallExtent
      QgsRectangle.null).r2 = QgsRectangle.unbounded :=
  reprojectToLayerExtent_exception exampleGeographicLayer exampleFailingTransform
    exampleSmallExtent QgsRectangle.null (.boundingBox exampleSmallExtent .ReverseTransform)
    (by simp [reprojectToLayerExtent, reprojectTry, exampleGeographicLayer,
      exampleFailingTransform, QgsCoordinateTransform.setBallparkTransformsAreAppropriate,
      QgsCoordinateTransform.transformBoundingBox])
    (by simp [TransformCall.raises, exampleFailingTransform,
      QgsCoordinateTransform.setBallparkTransformsAreAppropriate,
      QgsCoordinateTransform.transformBoundingBox])

/-! ## Cleanup and cache commit -/

theorem jobCacheWrite_eq_some (cache : Option QgsMapRendererCache) (job : LayerRenderJob)
    (w : CacheWrite) :
    jobCacheWrite cache job = some w ↔
      ∃ img layer, cache.isSome = true ∧ job.img = some img ∧ job.cached = false ∧
        job.context.renderingStopped = false ∧ job.layer = some layer ∧
        w = ⟨job.layerId, img, [layer.id]⟩ := by
  unfold jobCacheWrite
  constructor
  · intro h
    split at h
    · rename_i img layer himg hlayer
      split_ifs at h with hc
      simp only [Bool.and_eq_true, Bool.not_eq_true'] at hc
      exact ⟨img, layer, hc.1.1, himg, hc.1.2, hc.2, hlayer, (Option.some.inj h).symm⟩
    · cases h
  · rintro ⟨img, layer, hc, himg, hcached, hstopped, hlayer, hw⟩
    rw [himg, hlayer]
    simp [hc, hcached, hstopped, hw]

theorem jobCacheWrite_isSome_congr (a b : Option QgsMapRendererCache) (job : LayerRenderJob)
    (h : a.isSome = b.isSome) : jobCacheWrite a job = jobCacheWrite b job := by
  unfold jobCacheWrite
  rw [h]

theorem cleanupJob_write (st : JobState) (job : LayerRenderJob) :
    (cleanupJob st job).2.2 = jobCacheWrite st.mCache job := rfl

theorem cleanupJob_cache (st : JobState) (job : LayerRenderJob) :
    (cleanupJob st job).1.mCache =
      st.mCache.map fun c => (jobCacheWrite st.mCache job).toList.foldl CacheWrite.apply c := by
  unfold cleanupJob
  dsimp only
  cases jobCacheWrite st.mCache job <;> cases st.mCache <;> rfl

theorem cleanupJobsLoop_spec (jobs : List LayerRenderJob) (st : JobState) :
    (cleanupJobsLoop jobs st).2.2 = jobs.filterMap (jobCacheWrite st.mCache) ∧
    (cleanupJobsLoop jobs st).1.mCache =
      st.mCache.map fun c => (cleanupJobsLoop jobs st).2.2.foldl CacheWrite.apply c := by
  induction jobs generalizing st with
  | nil => cases hc : st.mCache <;> simp [cleanupJobsLoop, hc]
  | cons job rest ih =>
    obtain ⟨h1, h2⟩ := ih (cleanupJob st job).1
    have hsome : (cleanupJob st job).1.mCache.isSome = st.mCache.isSome := by
      rw [cleanupJob_cache]
      cases st.mCache <;> rfl
    have hcongr : jobCacheWrite (cleanupJob st job).1.mCache = jobCacheWrite st.mCache :=
      funext fun j => jobCacheWrite_isSome_congr _ _ j hsome
    have hw := cleanupJob_write st job
    have hc := cleanupJob_cache st job
    simp only [cleanupJobsLoop]
    constructor
    · rw [h1, hw]
      cases hj : jobCacheWrite st.mCache job <;> simp [List.filterMap_cons, hj, hcongr]
    · rw [h2, hc, hw]
      cases st.mCache <;> simp [List.foldl_append]

/-- C16: `cleanupJobs` writes a job's image into the render cache if and only if a cache
is set, the job has an image, is not cached, was not stopped and still has its layer; the
write is keyed by the job's layer id, carries the job's image and the one-element
dependency list of the job's layer. The cache afterwards is the cache before with these
writes applied in job order, a cached or stopped job never writes, and the job list is
empty afterwards. -/
theorem cleanupJobs_cache_writes (st : JobState) (jobs : List LayerRenderJob) :
    (∀ w, w ∈ (cleanupJobs st jobs).cacheWrites ↔
      ∃ j ∈ jobs, ∃ img layer, st.mCache.isSome = true ∧ j.img = some img ∧
        j.cached = false ∧ j.context.renderingStopped = false ∧ j.layer = some layer ∧
        w = ⟨j.layerId, img, [layer.id]⟩) ∧
    (cleanupJobs st jobs).cacheWrites = jobs.filterMap (jobCacheWrite st.mCache) ∧
    (cleanupJobs st jobs).state.mCache =
      st.mCache.map (fun c => (cleanupJobs st jobs).cacheWrites.foldl CacheWrite.apply c) ∧
    (∀ (s : JobState) (j : LayerRenderJob),
      j.cached = true ∨ j.context.renderingStopped = true → (cleanupJob s j).2.2 = none) ∧
    (cleanupJobs st jobs).jobs = [] := by
  obtain ⟨h1, h2⟩ := cleanupJobsLoop_spec jobs st
  have hw : (cleanupJobs st jobs).cacheWrites = (cleanupJobsLoop jobs st).2.2 := rfl
  have hs : (cleanupJobs st jobs).state = (cleanupJobsLoop jobs st).1 := rfl
  refine ⟨?_, by rw [hw, h1], by rw [hs, hw, h2], ?_, rfl⟩
  · intro w
    rw [hw, h1, List.mem_filterMap]
    constructor
    · rintro ⟨j, hj, hjw⟩
      exact ⟨j, hj, (jobCacheWrite_eq_some st.mCache j w).mp hjw⟩
    · rintro ⟨j, hj, h⟩
      exact ⟨j, hj, (jobCacheWrite_eq_some st.mCache j w).mpr h⟩
  · intro s j h
    rw [cleanupJob_write]
    cases hres : jobCacheWrite s.mCache j with
    | none => rfl
    | some w =>
      obtain ⟨img, layer, -, -, hc, hst, -, -⟩ := (jobCacheWrite_eq_some s.mCache j w).mp hres
      rcases h with h | h
      · rw [hc] at h; cases h
      · rw [hst] at h; cases h

/-- C16, at a rendered job of layer A and a stopped job of layer B with the example
cache: the only write is the image of A under key "A" with dependency list ["A"]. -/
theorem cleanupJobs_cache_writes_witness :
    (⟨"A", exampleImageA, ["A"]⟩ : CacheWrite) ∈
      (cleanupJobs (exampleJobState examplePlainLayer)
        [exampleRenderedJob, exampleStoppedJob]).cacheWrites ∧
    (cleanupJob (exampleJobState examplePlainLayer) exampleStoppedJob).2.2 = none :=
  ⟨((cleanupJobs_cache_writes (exampleJobState examplePlainLayer)
      [exampleRenderedJob, exampleStoppedJob]).1 _).mpr
      ⟨exampleRenderedJob, by simp, exampleImageA, { id := "A" }, rfl, rfl, rfl, rfl, rfl, rfl⟩,
    (cleanupJobs_cache_writes (exampleJobState examplePlainLayer)
      [exampleRenderedJob, exampleStoppedJob]).2.2.2.1 _ exampleStoppedJob (Or.inr rfl)⟩

/-- C17: `cleanupLabelJob` writes the label image into the render cache if and only if
a cache is set, the label job has an image, is not cached and was not stopped; the write
is keyed by "_labels_" and carries the image and the participating layers of the label
job; the cache afterwards is the cache before with that write applied, and the image of
the label job is null afterwards in every case. -/
theorem cleanupLabelJob_cache_write (st : JobState) (job : LabelRenderJob) :
    (∀ w, (cleanupLabelJob st job).2.2 = some w ↔
      ∃ img, st.mCache.isSome = true ∧ job.img = some img ∧ job.cached = false ∧
        job.context.renderingStopped = false ∧
        w = ⟨"_labels_", img, job.participatingLayers.map (·.id)⟩) ∧
    (cleanupLabelJob st job).1.mCache =
      st.mCache.map (fun c =>
        (cleanupLabelJob st job).2.2.toList.foldl CacheWrite.apply c) ∧
    (cleanupLabelJob st job).2.1.img = none := by
  have hw : (cleanupLabelJob st job).2.2 = labelCacheWrite st.mCache job := rfl
  refine ⟨?_, ?_, rfl⟩
  · intro w
    rw [hw]
    unfold labelCacheWrite
    constructor
    · intro h
      split at h
      · rename_i img himg
        split_ifs at h with hc
        simp only [Bool.and_eq_true, Bool.not_eq_true'] at hc
        exact ⟨img, hc.1.1, himg, hc.1.2, hc.2, (Option.some.inj h).symm⟩
      · cases h
    · rintro ⟨img, hc, himg, hcached, hstopped, hw⟩
      rw [himg]
      simp [hc, hcached, hstopped, hw, LABEL_CACHE_ID, participatingLayerIds]
  · rw [hw]
    unfold cleanupLabelJob
    dsimp only
    cases labelCacheWrite st.mCache job <;> cases st.mCache <;> rfl

/-- C17, at the rendered label job with the example cache. -/
theorem cleanupLabelJob_cache_write_witness :
    (cleanupLabelJob (exampleJobState examplePlainLayer) exampleRenderedLabelJob).2.2 =
      some ⟨"_labels_", exampleImageLabels, ["A"]⟩ ∧
    (cleanupLabelJob (exampleJobState examplePlainLayer) exampleRenderedLabelJob).2.1.img =
      none :=
  ⟨((cleanupLabelJob_cache_write (exampleJobState examplePlainLayer)
      exampleRenderedLabelJob).1 _).mpr ⟨exampleImageLabels, rfl, rfl, rfl, rfl, rfl⟩,
    (cleanupLabelJob_cache_write (exampleJobState examplePlainLayer)
      exampleRenderedLabelJob).2.2⟩

/-! ## Label cache check -/

theorem scanLabeledLayers_spec (layers : List QgsMapLayer) (acc : List String)
    (canCache : Bool) :
    (scanLabeledLayers layers acc canCache).2 = false ∨
      scanLabeledLayers layers acc canCache =
        (acc ++ (layers.filter (·.willBeLabeled)).map (·.id), canCache) := by
  induction layers generalizing acc with
  | nil => right; simp [scanLabeledLayers]
  | cons ml rest ih =>
    unfold scanLabeledLayers
    dsimp only
    by_cases ha : ml.labelsNeedAdvancedEffects = true
    · left; rw [if_pos ha]
    · rw [if_neg ha]
      by_cases hl : ml.willBeLabeled = true
      · rw [if_pos hl]
        rcases ih (acc ++ [ml.id]) with h | h
        · left; exact h
        · right; rw [h]; simp [List.filter_cons, hl]
      · rw [if_neg hl]
        rcases ih acc with h | h
        · left; exact h
        · right; rw [h]; simp [List.filter_cons, hl]

theorem scanLabeledLayers_no_effects (layers : List QgsMapLayer) (acc : List String)
    (canCache : Bool) (h : ∀ ml ∈ layers, ml.labelsNeedAdvancedEffects = false) :
    scanLabeledLayers layers acc canCache =
      (acc ++ (layers.filter (·.willBeLabeled)).map (·.id), canCache) := by
  induction layers generalizing acc with
  | nil => simp [scanLabeledLayers]
  | cons ml rest ih =>
    have hml := h ml (List.mem_cons_self _ _)
    have hrest : ∀ m ∈ rest, m.labelsNeedAdvancedEffects = false :=
      fun m hm => h m (List.mem_cons_of_mem _ hm)
    unfold scanLabeledLayers
    dsimp only
    rw [hml]
    by_cases hl : ml.willBeLabeled = true
    · simp [hl, ih _ hrest, List.filter_cons]
    · simp [hl, ih _ hrest, List.filter_cons]

/-- C18: when the cache holds a label image, `prepareLabelCache` clears the label key
whenever the set of dependent layers stored with it differs from the set of vector layers
of the stack that will be labeled (the label image is gone afterwards), and leaves the
object unchanged, returning true, when the two sets are equal and no layer's labeling
requires advanced effects. -/
theorem prepareLabelCache_label_image (st : JobState) (c : QgsMapRendererCache)
    (hCache : st.mCache = some c) (hImage : c.hasCacheImage LABEL_CACHE_ID = true) :
    ((c.dependentLayers LABEL_CACHE_ID).toFinset ≠ (labeledLayerIds st.mSettings).toFinset →
      (prepareLabelCache st).2 = { st with mCache := some (c.clearCacheImage LABEL_CACHE_ID) } ∧
      (c.clearCacheImage LABEL_CACHE_ID).hasCacheImage LABEL_CACHE_ID = false) ∧
    ((c.dependentLayers LABEL_CACHE_ID).toFinset = (labeledLayerIds st.mSettings).toFinset →
      (∀ ml ∈ st.mSettings.layers, ml.labelsNeedAdvancedEffects = false) →
      prepareLabelCache st = (true, st)) := by
  constructor
  · intro hne
    refine ⟨?_, by simp [QgsMapRendererCache.clearCacheImage, QgsMapRendererCache.hasCacheImage]⟩
    unfold prepareLabelCache
    dsimp only
    rw [hCache]
    dsimp only
    rw [hImage]
    rcases scanLabeledLayers_spec st.mSettings.layers [] true with h | h
    · simp [h]
    · have h1 : (scanLabeledLayers st.mSettings.layers [] true).1 =
          labeledLayerIds st.mSettings := by rw [h]; simp [labeledLayerIds]
      simp [h1, hne]
  · intro heq hno
    have h := scanLabeledLayers_no_effects st.mSettings.layers [] true hno
    have h1 : (scanLabeledLayers st.mSettings.layers [] true).1 =
        labeledLayerIds st.mSettings := by rw [h]; simp [labeledLayerIds]
    have h2 : (scanLabeledLayers st.mSettings.layers [] true).2 = true := by
      rw [h]
    unfold prepareLabelCache
    dsimp only
    rw [hCache]
    dsimp only
    rw [hImage]
    simp [h1, h2, heq]

/-- C18, at the cache holding a label image with dependent layer A: with the stack [A]
(A labeled) the cache is kept; with the empty stack the label image is cleared. -/
theorem prepareLabelCache_label_image_witness :
    prepareLabelCache (exampleLabelState [exampleLabeledLayer]) =
      (true, exampleLabelState [exampleLabeledLayer]) ∧
    (prepareLabelCache (exampleLabelState [])).2 =
      { exampleLabelState [] with
        mCache := some (exampleLabelCache.clearCacheImage LABEL_CACHE_ID) } :=
  ⟨(prepareLabelCache_label_image (exampleLabelState [exampleLabeledLayer]) exampleLabelCache
      rfl rfl).2 (by decide) (by decide),
    ((prepareLabelCache_label_image (exampleLabelState []) exampleLabelCache
      rfl rfl).1 (by decide)).1⟩

/-! ## Second-pass planner -/

theorem lookup_cons_self {β : Type} (t : String) (b : β) (es : List (String × β)) :
    ((t, b) :: es).lookup t = some b := by
  simp [List.lookup]

theorem lookup_cons_other {β : Type} (t a : String) (b : β) (es : List (String × β))
    (h : t ≠ a) : ((a, b) :: es).lookup t = es.lookup t := by
  have hb : (t == a) = false := by simpa using h
  rw [List.lookup_cons, hb]

theorem lookup_append_single {β : Type} (t k : String) (v : β) (m : List (String × β)) :
    (m ++ [(k, v)]).lookup t = (m.lookup t).or (if t = k then some v else none) := by
  induction m with
  | nil =>
    by_cases h : t = k
    · subst h; simp [lookup_cons_self]
    · simp [lookup_cons_other _ _ _ _ h, h]
  | cons e rest ih =>
    obtain ⟨a, b⟩ := e
    by_cases h : t = a
    · subst h; simp [lookup_cons_self]
    · simp only [List.cons_append, lookup_cons_other _ _ _ _ h, ih]

theorem lookup_map_update {β : Type} (t k : String) (g : β → β) (m : List (String × β)) :
    (m.map fun e => if e.1 = k then (e.1, g e.2) else e).lookup t =
      if t = k then (m.lookup t).map g else m.lookup t := by
  induction m with
  | nil => simp [List.lookup]
  | cons e rest ih =>
    obtain ⟨a, b⟩ := e
    by_cases hk : a = k
    · simp only [List.map_cons, hk, if_true]
      by_cases h : t = k
      · subst h; simp [lookup_cons_self]
      · rw [lookup_cons_other _ _ _ _ h, lookup_cons_other _ _ _ _ h]; exact ih
    · simp only [List.map_cons, hk, if_false]
      by_cases h : t = a
      · subst h; simp [lookup_cons_self, hk]
      · rw [lookup_cons_other _ _ _ _ h, lookup_cons_other _ _ _ _ h]; exact ih

theorem lookup_collectMask_other (src : MaskSource) (m : MaskedSymbolLayers)
    (t k : String) (s : List QgsSymbolLayerId) (h : t ≠ k) :
    (collectMask src m (k, s)).lookup t = m.lookup t := by
  unfold collectMask
  dsimp only
  split
  · rw [lookup_append_single]
    simp [h]
  · split_ifs
    · rfl
    · refine (lookup_map_update t k (fun v => (v.1, v.2 ++ [src])) m).trans ?_
      simp [h]

theorem lookup_collectMask_none (src : MaskSource) (m : MaskedSymbolLayers)
    (k : String) (s : List QgsSymbolLayerId) (h : m.lookup k = none) :
    (collectMask src m (k, s)).lookup k = some (s, [src]) := by
  unfold collectMask
  dsimp only
  rw [h]
  dsimp only
  rw [lookup_append_single, h]
  simp

theorem collectMask_differ (src : MaskSource) (m : MaskedSymbolLayers)
    (k : String) (s : List QgsSymbolLayerId) (lit : List QgsSymbolLayerId × List MaskSource)
    (h : m.lookup k = some lit) (hne : lit.1.toFinset ≠ s.toFinset) :
    collectMask src m (k, s) = m := by
  unfold collectMask
  dsimp only
  rw [h]
  dsimp only
  rw [if_pos hne]

theorem lookup_collectMask_equal (src : MaskSource) (m : MaskedSymbolLayers)
    (k : String) (s : List QgsSymbolLayerId) (lit : List QgsSymbolLayerId × List MaskSource)
    (h : m.lookup k = some lit) (heq : lit.1.toFinset = s.toFinset) :
    (collectMask src m (k, s)).lookup k = some (lit.1, lit.2 ++ [src]) := by
  unfold collectMask
  dsimp only
  rw [h]
  dsimp only
  rw [if_neg (not_not.mpr heq)]
  refine (lookup_map_update k k (fun v => (v.1, v.2 ++ [src])) m).trans ?_
  simp [h]

theorem lookup_replayRequests (t : String) (reqs : List MaskRequest) (m : MaskedSymbolLayers) :
    (replayRequests m reqs).lookup t =
      match m.lookup t with
      | some lit => some (lit.1, lit.2 ++ matchingSources t lit.1 reqs)
      | none => firstSeenWins t reqs := by
  induction reqs generalizing m with
  | nil =>
    cases h : m.lookup t <;> simp [replayRequests, matchingSources, firstSeenWins, h]
  | cons r rest ih =>
    have hstep : replayRequests m (r :: rest) =
        replayRequests (collectMask r.source m (r.target, r.symbolLayers)) rest := rfl
    rw [hstep, ih]
    by_cases ht : r.target = t
    · subst ht
      cases h : m.lookup r.target with
      | none =>
        rw [lookup_collectMask_none _ _ _ _ h]
        simp [firstSeenWins, matchingSources, List.filter_cons]
      | some lit =>
        by_cases hs : lit.1.toFinset = r.symbolLayers.toFinset
        · rw [lookup_collectMask_equal _ _ _ _ _ h hs]
          simp [matchingSources, List.filter_cons, hs]
        · rw [collectMask_differ _ _ _ _ _ h hs, h]
          have hs2 : ¬r.symbolLayers.toFinset = lit.1.toFinset := fun e => hs e.symm
          simp [matchingSources, List.filter_cons, hs2]
    · rw [lookup_collectMask_other _ _ _ _ _ (Ne.symm ht)]
      cases h : m.lookup t with
      | none => simp [firstSeenWins, matchingSources, List.filter_cons, List.find?_cons, ht]
      | some lit => simp [matchingSources, List.filter_cons, ht]

theorem collectMasks_replay (col : MaskCollection) (masks : List (String × List QgsSymbolLayerId))
    (sourceLayerId ruleId : String) (labelMaskId : Int)
    (h : col.maskedSymbolLayers = replayRequests [] col.requests) :
    (collectMasks col masks sourceLayerId ruleId labelMaskId).maskedSymbolLayers =
      replayRequests [] (collectMasks col masks sourceLayerId ruleId labelMaskId).requests := by
  unfold collectMasks
  dsimp only
  rw [h]
  unfold replayRequests
  rw [List.foldl_append, List.foldl_map]

theorem collectLabelRules_replay (vlId : String)
    (rules : List (String × List (String × List QgsSymbolLayerId)))
    (acc : MaskCollection × QgsMaskIdProvider)
    (h : acc.1.maskedSymbolLayers = replayRequests [] acc.1.requests) :
    (rules.foldl (collectLabelRule vlId) acc).1.maskedSymbolLayers =
      replayRequests [] (rules.foldl (collectLabelRule vlId) acc).1.requests := by
  induction rules generalizing acc with
  | nil => exact h
  | cons it rest ih =>
    rw [List.foldl_cons]
    exact ih _ (collectMasks_replay _ _ _ _ _ h)

theorem collectJobMasks_replay (acc : MaskCollection × QgsMaskIdProvider)
    (ij : Nat × LayerRenderJob)
    (h : acc.1.maskedSymbolLayers = replayRequests [] acc.1.requests) :
    (collectJobMasks acc ij).1.maskedSymbolLayers =
      replayRequests [] (collectJobMasks acc ij).1.requests := by
  unfold collectJobMasks
  split
  · exact h
  · exact collectMasks_replay _ _ _ _ _ (collectLabelRules_replay _ _ _ h)

theorem foldl_collectJobMasks_replay (jobs : List (Nat × LayerRenderJob))
    (acc : MaskCollection × QgsMaskIdProvider)
    (h : acc.1.maskedSymbolLayers = replayRequests [] acc.1.requests) :
    (jobs.foldl collectJobMasks acc).1.maskedSymbolLayers =
      replayRequests [] (jobs.foldl collectJobMasks acc).1.requests := by
  induction jobs generalizing acc with
  | nil => exact h
  | cons ij rest ih =>
    rw [List.foldl_cons]
    exact ih _ (collectJobMasks_replay _ _ h)

theorem collectAllMasks_lookup (firstPassJobs : List LayerRenderJob) (labelJob : LabelRenderJob)
    (t : String) :
    (collectAllMasks firstPassJobs labelJob).1.maskedSymbolLayers.lookup t =
      firstSeenWins t (collectAllMasks firstPassJobs labelJob).1.requests := by
  have h := foldl_collectJobMasks_replay firstPassJobs.enum ({}, labelJob.maskIdProvider) rfl
  unfold collectAllMasks
  rw [h, lookup_replayRequests]
  rfl

/-- C19: in `prepareSecondPassJobs`, a request on a target without a row creates the row
with the requested set and its source; a later request with a different set leaves the
table unchanged (set and source list of the target as before); a later request with an
equal set appends its source to the list; so after the first loop the row of every target
holds the set of the first request seen and the sources of the requests with an equal
set, in request order. -/
theorem prepareSecondPassJobs_first_seen_wins (firstPassJobs : List LayerRenderJob)
    (labelJob : LabelRenderJob) :
    (∀ (src : MaskSource) (m : MaskedSymbolLayers) (target : String)
        (set : List QgsSymbolLayerId),
      (m.lookup target = none →
        (collectMask src m (target, set)).lookup target = some (set, [src])) ∧
      (∀ lit, m.lookup target = some lit → lit.1.toFinset ≠ set.toFinset →
        collectMask src m (target, set) = m) ∧
      (∀ lit, m.lookup target = some lit → lit.1.toFinset = set.toFinset →
        (collectMask src m (target, set)).lookup target = some (lit.1, lit.2 ++ [src])) ∧
      (∀ t, t ≠ target → (collectMask src m (target, set)).lookup t = m.lookup t)) ∧
    (∀ t, (collectAllMasks firstPassJobs labelJob).1.maskedSymbolLayers.lookup t =
      firstSeenWins t (collectAllMasks firstPassJobs labelJob).1.requests) :=
  ⟨fun src m target set =>
    ⟨lookup_collectMask_none src m target set,
      fun lit h hne => collectMask_differ src m target set lit h hne,
      fun lit h heq => lookup_collectMask_equal src m target set lit h heq,
      fun t ht => lookup_collectMask_other src m t target set ht⟩,
    collectAllMasks_lookup firstPassJobs labelJob⟩

/-- C19, at the first-pass jobs T, V1 (masks s1 of T), V2 (masks s2 of T), V3 (masks s1
of T): the row of T holds the set s1 and the sources V1 and V3. -/
theorem prepareSecondPassJobs_first_seen_wins_witness :
    (collectAllMasks exampleMaskJobs {}).1.maskedSymbolLayers.lookup "T" =
      some (["s1"], [⟨"V1", "", -1⟩, ⟨"V3", "", -1⟩]) ∧
    collectMask ⟨"V2", "", -1⟩ [("T", ["s1"], [⟨"V1", "", -1⟩])] ("T", ["s2"]) =
      [("T", ["s1"], [⟨"V1", "", -1⟩])] ∧
    (collectMask ⟨"V3", "", -1⟩ [("T", ["s1"], [⟨"V1", "", -1⟩])] ("T", ["s1"])).lookup "T" =
      some (["s1"], [⟨"V1", "", -1⟩, ⟨"V3", "", -1⟩]) :=
  ⟨((prepareSecondPassJobs_first_seen_wins exampleMaskJobs {}).2 "T").trans (by decide),
    ((prepareSecondPassJobs_first_seen_wins exampleMaskJobs {}).1 ⟨"V2", "", -1⟩
      [("T", ["s1"], [⟨"V1", "", -1⟩])] "T" ["s2"]).2.1 (["s1"], [⟨"V1", "", -1⟩]) rfl
      (by decide),
    ((prepareSecondPassJobs_first_seen_wins exampleMaskJobs {}).1 ⟨"V3", "", -1⟩
      [("T", ["s1"], [⟨"V1", "", -1⟩])] "T" ["s1"]).2.2.1 (["s1"], [⟨"V1", "", -1⟩]) rfl
      rfl⟩

theorem collectMasks_targets (col : MaskCollection)
    (masks : List (String × List QgsSymbolLayerId)) (sourceLayerId ruleId : String)
    (labelMaskId : Int) :
    (collectMasks col masks sourceLayerId ruleId labelMaskId).requests.map (·.target) =
      col.requests.map (·.target) ++ masks.map (·.1) := by
  simp [collectMasks, Function.comp_def]

theorem collectLabelRules_targets (vlId : String)
    (rules : List (String × List (String × List QgsSymbolLayerId)))
    (acc : MaskCollection × QgsMaskIdProvider) :
    (rules.foldl (collectLabelRule vlId) acc).1.requests.map (·.target) =
      acc.1.requests.map (·.target) ++ rules.flatMap (fun it => it.2.map (·.1)) := by
  induction rules generalizing acc with
  | nil => simp
  | cons it rest ih =>
    rw [List.foldl_cons, ih]
    have h : (collectLabelRule vlId acc it).1.requests.map (·.target) =
        acc.1.requests.map (·.target) ++ it.2.map (·.1) := collectMasks_targets _ _ _ _ _
    rw [h]
    simp

theorem collectJobMasks_targets (acc : MaskCollection × QgsMaskIdProvider)
    (ij : Nat × LayerRenderJob) :
    (collectJobMasks acc ij).1.requests.map (·.target) =
      acc.1.requests.map (·.target) ++ jobMaskTargets ij.2 := by
  unfold collectJobMasks jobMaskTargets
  cases ij.2.layer.bind QgsMapLayer.asVectorLayer with
  | none => simp
  | some vl =>
    dsimp only
    rw [collectMasks_targets, collectLabelRules_targets]
    simp [declaredTargets]

theorem foldl_collectJobMasks_targets (jobs : List LayerRenderJob) (n : Nat)
    (acc : MaskCollection × QgsMaskIdProvider) :
    ((jobs.enumFrom n).foldl collectJobMasks acc).1.requests.map (·.target) =
      acc.1.requests.map (·.target) ++ jobs.flatMap jobMaskTargets := by
  induction jobs generalizing n acc with
  | nil => simp
  | cons job rest ih =>
    rw [List.enumFrom_cons, List.foldl_cons, ih, collectJobMasks_targets]
    simp

theorem collectAllMasks_targets (firstPassJobs : List LayerRenderJob)
    (labelJob : LabelRenderJob) :
    (collectAllMasks firstPassJobs labelJob).1.requests.map (·.target) =
      maskTargets firstPassJobs := by
  unfold collectAllMasks maskTargets List.enum
  rw [foldl_collectJobMasks_targets]
  rfl

theorem collectAllMasks_isSome (firstPassJobs : List LayerRenderJob)
    (labelJob : LabelRenderJob) (t : String) :
    ((collectAllMasks firstPassJobs labelJob).1.maskedSymbolLayers.lookup t).isSome = true ↔
      t ∈ maskTargets firstPassJobs := by
  rw [collectAllMasks_lookup, ← collectAllMasks_targets firstPassJobs labelJob]
  unfold firstSeenWins
  simp only [Option.isSome_map', List.find?_isSome, List.mem_map, decide_eq_true_eq]

theorem sameAllocator_refl (st : JobState) : SameAllocator st st := ⟨rfl, rfl, le_refl _⟩

theorem sameAllocator_trans {a b c : JobState} (h1 : SameAllocator a b)
    (h2 : SameAllocator b c) : SameAllocator a c :=
  ⟨h2.1.trans h1.1, h2.2.1.trans h1.2.1, le_trans h1.2.2 h2.2.2⟩

theorem sameAllocator_succeeds {st st1 : JobState} (h : SameAllocator st st1)
    (hAlloc : ∀ n, (st.newImage n).isSome = true) : ∀ n, (st1.newImage n).isSome = true := by
  intro n
  rw [h.1]
  exact hAlloc n

theorem sameAllocator_image {st st1 : JobState} (h : SameAllocator st st1) (n : Nat) :
    allocatedImage st1 n = allocatedImage st n := by
  unfold allocatedImage
  rw [h.1, h.2.1]

theorem allocateImage_same (st : JobState) (layerId : String) :
    SameAllocator st (allocateImage st layerId).2 := by
  unfold allocateImage SameAllocator
  cases st.newImage st.allocations <;> simp

theorem allocateImageAndPainter_same (st : JobState) (layerId : String) :
    SameAllocator st (allocateImageAndPainter st layerId).2.2 := by
  unfold allocateImageAndPainter allocateImage SameAllocator
  cases st.newImage st.allocations <;> simp

theorem allocateImageAndPainter_image (st : JobState) (layerId : String) :
    (allocateImageAndPainter st layerId).2.1 = allocatedImage st st.allocations ∧
    (allocateImageAndPainter st layerId).2.2.allocations = st.allocations + 1 := by
  unfold allocateImageAndPainter allocateImage allocatedImage
  cases st.newImage st.allocations <;> simp

theorem allocateImageAndPainter_some (st : JobState) (layerId : String)
    (hAlloc : ∀ n, (st.newImage n).isSome = true) :
    ∃ image, (allocateImageAndPainter st layerId).2.1 = some image := by
  rw [(allocateImageAndPainter_image st layerId).1]
  unfold allocatedImage
  obtain ⟨px, hpx⟩ := Option.isSome_iff_exists.mp (hAlloc st.allocations)
  rw [hpx]
  exact ⟨_, rfl⟩

theorem ensureJobImage_ok (st : JobState) (ml : QgsMapLayer) (job : LayerRenderJob) :
    SameAllocator st (ensureJobImage st ml job).2 ∧
    (ensureJobImage st ml job).1.planInput = job.planInput := by
  unfold ensureJobImage
  split_ifs
  · exact ⟨allocateImageAndPainter_same st ml.id, rfl⟩
  · exact ⟨sameAllocator_refl st, rfl⟩

theorem allocateMaskImage_ok (layerHasMask : List String) (st : JobState) (ml : QgsMapLayer)
    (job : LayerRenderJob) (hAlloc : ∀ n, (st.newImage n).isSome = true) :
    ∃ r, allocateMaskImage layerHasMask st ml job = .ok r ∧ SameAllocator st r.2 ∧
      r.1.planInput = job.planInput := by
  unfold allocateMaskImage
  split_ifs
  · obtain ⟨image, himage⟩ := allocateImageAndPainter_some st ml.id hAlloc
    dsimp only
    rw [himage]
    exact ⟨_, rfl, allocateImageAndPainter_same st ml.id, rfl⟩
  · exact ⟨_, rfl, sameAllocator_refl st, rfl⟩

theorem allocateFirstPassJob_ok (layerHasMask : List String) (st : JobState)
    (job : LayerRenderJob) (hAlloc : ∀ n, (st.newImage n).isSome = true)
    (hLive : job.layer.isSome = true) :
    ∃ r, allocateFirstPassJob layerHasMask st job = .ok r ∧ SameAllocator st r.2 ∧
      r.1.planInput = job.planInput := by
  obtain ⟨ml, hml⟩ := Option.isSome_iff_exists.mp hLive
  unfold allocateFirstPassJob
  rw [hml]
  dsimp only
  obtain ⟨h1, h2⟩ := ensureJobImage_ok st ml job
  obtain ⟨r, hr, h3, h4⟩ := allocateMaskImage_ok layerHasMask (ensureJobImage st ml job).2 ml
    (ensureJobImage st ml job).1 (sameAllocator_succeeds h1 hAlloc)
  exact ⟨r, hr, sameAllocator_trans h1 h3, h4.trans h2⟩

theorem allocateFirstPass_ok (layerHasMask : List String) (jobs : List LayerRenderJob)
    (st : JobState) (hAlloc : ∀ n, (st.newImage n).isSome = true)
    (hLive : ∀ job ∈ jobs, job.layer.isSome = true) :
    ∃ r, allocateFirstPass layerHasMask jobs st = .ok r ∧ SameAllocator st r.2 ∧
      r.1.map LayerRenderJob.planInput = jobs.map LayerRenderJob.planInput := by
  induction jobs generalizing st with
  | nil => exact ⟨_, rfl, sameAllocator_refl st, rfl⟩
  | cons job rest ih =>
    obtain ⟨r, hr, h1, h2⟩ := allocateFirstPassJob_ok layerHasMask st job hAlloc
      (hLive job (List.mem_cons_self _ _))
    obtain ⟨rs, hrs, h3, h4⟩ := ih r.2 (sameAllocator_succeeds h1 hAlloc)
      (fun j hj => hLive j (List.mem_cons_of_mem _ hj))
    rw [allocateFirstPass, hr]
    dsimp only
    rw [hrs]
    exact ⟨_, rfl, sameAllocator_trans h1 h3, by simp [h2, h4]⟩

theorem allocateLabelImage_same (st : JobState) (labelJob : LabelRenderJob) :
    SameAllocator st (allocateLabelImage st labelJob).2 := by
  unfold allocateLabelImage
  split_ifs
  · exact allocateImage_same st "labels"
  · exact sameAllocator_refl st

theorem allocateLabelMasks_ok (maskId count : Nat) (labelJob : LabelRenderJob)
    (st : JobState) (hAlloc : ∀ n, (st.newImage n).isSome = true) :
    ∃ r, allocateLabelMasks maskId count labelJob st = .ok r ∧ SameAllocator st r.2 := by
  induction count generalizing maskId labelJob st with
  | zero => exact ⟨_, rfl, sameAllocator_refl st⟩
  | succ count ih =>
    obtain ⟨image, himage⟩ := allocateImageAndPainter_some st "label mask" hAlloc
    have h1 := allocateImageAndPainter_same st "label mask"
    rw [allocateLabelMasks]
    dsimp only
    rw [himage]
    dsimp only
    obtain ⟨r, hr, h2⟩ := ih (maskId + 1) _ _ (sameAllocator_succeeds h1 hAlloc)
    exact ⟨r, hr, sameAllocator_trans h1 h2⟩

theorem secondPassJob_skip (col : MaskCollection) (st : JobState) (i : Nat)
    (job : LayerRenderJob) (ml : QgsMapLayer) (hml : job.layer = some ml)
    (hlook : col.maskedSymbolLayers.lookup ml.id = none) :
    secondPassJob col st i job = .ok (none, st) := by
  unfold secondPassJob
  rw [hml]
  dsimp only
  rw [hlook]

theorem secondPassJob_target (col : MaskCollection) (st : JobState) (i : Nat)
    (job : LayerRenderJob) (ml : QgsMapLayer)
    (it : List QgsSymbolLayerId × List MaskSource) (mapRenderer : QgsMapLayerRenderer)
    (hAlloc : ∀ n, (st.newImage n).isSome = true)
    (hml : job.layer = some ml) (hlook : col.maskedSymbolLayers.lookup ml.id = some it)
    (htype : ml.type = .VectorLayer) (hrenderer : ml.mapRenderer = some mapRenderer) :
    ∃ job2 st1, secondPassJob col st i job = .ok (some job2, st1) ∧
      SameAllocator st st1 ∧ st1.allocations = st.allocations + 1 ∧
      job2.summary = expectedSecondPass col (i, job) ∧
      job2.img = allocatedImage st st.allocations := by
  obtain ⟨image, himage⟩ := allocateImageAndPainter_some st ml.id hAlloc
  have hsame := allocateImageAndPainter_same st ml.id
  obtain ⟨himg, hcount⟩ := allocateImageAndPainter_image st ml.id
  have hvl : ml.asVectorLayer = some ml := by
    unfold QgsMapLayer.asVectorLayer
    rw [if_pos htype]
  unfold secondPassJob
  rw [hml]
  dsimp only
  rw [hlook]
  dsimp only
  rw [hvl]
  dsimp only
  rw [hrenderer]
  dsimp only
  rw [← himg]
  cases hres : (allocateImageAndPainter st ml.id).2.1 with
  | none => rw [hres] at himage; cases himage
  | some img =>
    dsimp only
    refine ⟨_, _, rfl, ?_, ?_, ?_, rfl⟩
    · exact ⟨hsame.1, hsame.2.1, hsame.2.2⟩
    · exact hcount
    · simp [LayerRenderJob.summary, expectedSecondPass, retainedSources, hml, hlook]

theorem secondPassLoop_ok (col : MaskCollection) (targets : List String)
    (hT : ∀ t, (col.maskedSymbolLayers.lookup t).isSome = true ↔ t ∈ targets)
    (jobs : List LayerRenderJob) (i : Nat) (st : JobState)
    (hAlloc : ∀ n, (st.newImage n).isSome = true)
    (hLive : ∀ job ∈ jobs, job.layer.isSome = true)
    (hVector : ∀ job ∈ jobs, isMaskTarget targets job = true →
      ((job.layer.bind QgsMapLayer.asVectorLayer).bind (·.mapRenderer)).isSome = true) :
    ∃ r, secondPassLoop col i jobs st = .ok r ∧ SameAllocator st r.2 ∧
      r.1.map LayerRenderJob.summary =
        ((jobs.enumFrom i).filter fun ij => isMaskTarget targets ij.2).map
          (expectedSecondPass col) ∧
      ∃ idxs : List Nat, idxs.Pairwise (· < ·) ∧ (∀ n ∈ idxs, st.allocations ≤ n) ∧
        r.1.map (·.img) = idxs.map (allocatedImage st) := by
  induction jobs generalizing i st with
  | nil => exact ⟨_, rfl, sameAllocator_refl st, rfl, [], List.Pairwise.nil, by simp, rfl⟩
  | cons job rest ih =>
    obtain ⟨ml, hml⟩ := Option.isSome_iff_exists.mp (hLive job (List.mem_cons_self _ _))
    have hLiveRest : ∀ j ∈ rest, j.layer.isSome = true :=
      fun j hj => hLive j (List.mem_cons_of_mem _ hj)
    have hVectorRest : ∀ j ∈ rest, isMaskTarget targets j = true →
        ((j.layer.bind QgsMapLayer.asVectorLayer).bind (·.mapRenderer)).isSome = true :=
      fun j hj => hVector j (List.mem_cons_of_mem _ hj)
    have htarget : isMaskTarget targets job = decide (ml.id ∈ targets) := by
      unfold isMaskTarget
      rw [hml]
    rw [secondPassLoop, List.enumFrom_cons, List.filter_cons]
    dsimp only
    cases hlook : col.maskedSymbolLayers.lookup ml.id with
    | none =>
      have hnot : ml.id ∉ targets := by
        intro hmem
        have h := (hT ml.id).mpr hmem
        rw [hlook] at h
        cases h
      obtain ⟨r, hr, h1, h2, idxs, h3, h4, h5⟩ := ih (i + 1) st hAlloc hLiveRest hVectorRest
      rw [secondPassJob_skip col st i job ml hml hlook]
      dsimp only
      rw [hr, htarget, decide_eq_false hnot]
      exact ⟨_, rfl, h1, by simpa using h2, idxs, h3, h4, by simpa using h5⟩
    | some it =>
      have hmem : ml.id ∈ targets := (hT ml.id).mp (by rw [hlook]; rfl)
      have hv := hVector job (List.mem_cons_self _ _) (by rw [htarget]; exact decide_eq_true hmem)
      rw [hml] at hv
      have htype : ml.type = .VectorLayer := by
        by_contra hne
        simp [QgsMapLayer.asVectorLayer, hne] at hv
      have hvl : ml.asVectorLayer = some ml := by
        unfold QgsMapLayer.asVectorLayer
        rw [if_pos htype]
      obtain ⟨mapRenderer, hrenderer⟩ : ∃ m, ml.mapRenderer = some m := by
        simp only [Option.some_bind, hvl] at hv
        exact Option.isSome_iff_exists.mp hv
      obtain ⟨job2, st1, hjob, hsame, hcount, hsummary, himg⟩ :=
        secondPassJob_target col st i job ml it mapRenderer hAlloc hml hlook htype hrenderer
      obtain ⟨r, hr, h1, h2, idxs, h3, h4, h5⟩ :=
        ih (i + 1) st1 (sameAllocator_succeeds hsame hAlloc) hLiveRest hVectorRest
      rw [hjob]
      dsimp only
      rw [hr, htarget, decide_eq_true hmem]
      refine ⟨_, rfl, sameAllocator_trans hsame h1, ?_, st.allocations :: idxs, ?_, ?_, ?_⟩
      · simp [hsummary, h2]
      · refine List.Pairwise.cons ?_ h3
        intro n hn
        have := h4 n hn
        omega
      · intro n hn
        rcases List.mem_cons.mp hn with h | h
        · rw [h]
        · have := h4 n h
          omega
      · have himages : idxs.map (allocatedImage st1) = idxs.map (allocatedImage st) :=
          List.map_congr_left fun n _ => sameAllocator_image hsame n
        simp [himg, h5, himages]

theorem planInput_mem (jobs1 jobs : List LayerRenderJob)
    (h : jobs1.map LayerRenderJob.planInput = jobs.map LayerRenderJob.planInput)
    (job : LayerRenderJob) (hjob : job ∈ jobs1) : ∃ j ∈ jobs, j.layer = job.layer := by
  have hmem : job.planInput ∈ jobs1.map LayerRenderJob.planInput := List.mem_map_of_mem _ hjob
  rw [h] at hmem
  obtain ⟨j, hj, hjp⟩ := List.mem_map.mp hmem
  exact ⟨j, hj, congrArg (·.1) hjp⟩

theorem composeBelowLabels_initialized (qt : QtBlend) (jobs : List LayerRenderJob)
    (s : ComposeState) :
    composeBelowLabels qt jobs s =
      composeBelowLabels qt (jobs.filter (·.imageInitialized)) s := by
  induction jobs generalizing s with
  | nil => rfl
  | cons job rest ih =>
    by_cases hinit : job.imageInitialized = true
    · rw [List.filter_cons_of_pos (by simpa using hinit), composeBelowLabels,
        composeBelowLabels]
      by_cases habove : job.renderAboveLabels = true
      · simp only [habove, if_true]
        exact ih s
      · simp only [habove, hinit, Bool.not_true, if_false, Bool.false_eq_true]
        cases composeJob qt s job with
        | none => rfl
        | some s1 => exact ih s1
    · rw [List.filter_cons_of_neg (by simpa using hinit), composeBelowLabels]
      have hfalse : job.imageInitialized = false := by simpa using hinit
      by_cases habove : job.renderAboveLabels = true
      · simp only [habove, if_true]
        exact ih s
      · simp only [habove, hfalse, Bool.not_false, if_true, if_false, Bool.false_eq_true]
        exact ih s

theorem composeAboveLabels_initialized (qt : QtBlend) (jobs : List LayerRenderJob)
    (s : ComposeState) :
    composeAboveLabels qt jobs s =
      composeAboveLabels qt (jobs.filter (·.imageInitialized)) s := by
  induction jobs generalizing s with
  | nil => rfl
  | cons job rest ih =>
    by_cases hinit : job.imageInitialized = true
    · rw [List.filter_cons_of_pos (by simpa using hinit), composeAboveLabels,
        composeAboveLabels]
      by_cases habove : job.renderAboveLabels = true
      · simp only [habove, hinit, Bool.not_true, if_false, Bool.false_eq_true]
        cases composeJob qt s job with
        | none => rfl
        | some s1 => exact ih s1
      · have hb : job.renderAboveLabels = false := by simpa using habove
        simp only [hb, Bool.not_false, if_true]
        exact ih s
    · rw [List.filter_cons_of_neg (by simpa using hinit), composeAboveLabels]
      have hfalse : job.imageInitialized = false := by simpa using hinit
      by_cases habove : job.renderAboveLabels = true
      · simp only [habove, hfalse, Bool.not_true, Bool.not_false, if_true, if_false,
          Bool.false_eq_true]
        exact ih s
      · have hb : job.renderAboveLabels = false := by simpa using habove
        simp only [hb, Bool.not_false, if_true]
        exact ih s

theorem composeImage_filter_initialized (qt : QtBlend) (settings : QgsMapSettings)
    (jobs : List LayerRenderJob) (labelJob : LabelRenderJob) :
    composeImage qt settings jobs labelJob =
      composeImage qt settings (jobs.filter (·.imageInitialized)) labelJob := by
  unfold composeImage composeImageState
  dsimp only
  rw [← composeBelowLabels_initialized]
  cases composeBelowLabels qt jobs
      { image := QImage.filled settings.deviceOutputWidth settings.deviceOutputHeight
          settings.backgroundColor } with
  | none => rfl
  | some s1 =>
    dsimp only
    rw [← composeAboveLabels_initialized]

/-- C27: `composeImage` ignores every job whose `imageInitialized` flag is false: the
returned image is the one returned for the job list without these jobs, flagged
render-above-labels or not; and when no job is initialised and the label job has no
image or is not complete, the result is the image of the device output size filled with
the background colour. -/
theorem composeImage_ignores_uninitialized (qt : QtBlend) (settings : QgsMapSettings)
    (jobs : List LayerRenderJob) (labelJob : LabelRenderJob) :
    composeImage qt settings jobs labelJob =
      composeImage qt settings (jobs.filter (·.imageInitialized)) labelJob ∧
    ((∀ job ∈ jobs, job.imageInitialized = false) →
      (labelJob.img.isSome && labelJob.complete) = false →
      composeImage qt settings jobs labelJob =
        some (QImage.filled settings.deviceOutputWidth settings.deviceOutputHeight
          settings.backgroundColor)) := by
  refine ⟨composeImage_filter_initialized qt settings jobs labelJob, ?_⟩
  intro hjobs hlabel
  have hnil : jobs.filter (·.imageInitialized) = [] := by
    apply List.filter_eq_nil_iff.mpr
    intro job hjob
    simp [hjobs job hjob]
  rw [composeImage_filter_initialized, hnil]
  unfold composeImage composeImageState composeLabels
  cases himg : labelJob.img with
  | none => rfl
  | some img =>
    have hc : labelJob.complete = false := by simpa [himg] using hlabel
    simp [composeBelowLabels, composeAboveLabels, hc]

/-- C27, at the jobs [A, D, E, C] where D and E (flagged) are not initialised: the result
is the one for [A, C]; and for [D, E] with an incomplete label image the result is the
background. -/
theorem composeImage_ignores_uninitialized_witness :
    composeImage exampleBlend exampleSettings
        [exampleJobA, exampleUninitializedJob, exampleUninitializedAboveJob, exampleJobC]
        exampleLabelJob =
      composeImage exampleBlend exampleSettings [exampleJobA, exampleJobC] exampleLabelJob ∧
    composeImage exampleBlend exampleSettings
        [exampleUninitializedJob, exampleUninitializedAboveJob] exampleIncompleteLabelJob =
      some (QImage.filled 1 1 ⟨1, 1, 1, 1⟩) :=
  ⟨(composeImage_ignores_uninitialized exampleBlend exampleSettings
      [exampleJobA, exampleUninitializedJob, exampleUninitializedAboveJob, exampleJobC]
      exampleLabelJob).1,
    (composeImage_ignores_uninitialized exampleBlend exampleSettings
      [exampleUninitializedJob, exampleUninitializedAboveJob] exampleIncompleteLabelJob).2
      (by decide) rfl⟩

/-! ## Second-pass cleanup -/

theorem cleanupSecondPassJob_frame (st : JobState) (job : LayerRenderJob) :
    (cleanupSecondPassJob st job).1.mCache = st.mCache ∧
    (cleanupSecondPassJob st job).1.mErrors = st.mErrors ∧
    (cleanupSecondPassJob st job).2.img = none ∧
    (cleanupSecondPassJob st job).2.renderer = none ∧
    (job.img.isSome = true → (cleanupSecondPassJob st job).2.context.painter = none) := by
  unfold cleanupSecondPassJob
  cases h : job.img <;> simp [h]

theorem cleanupSecondPassJobsLoop_frame (jobs : List LayerRenderJob) (st : JobState) :
    (cleanupSecondPassJobsLoop jobs st).1.mCache = st.mCache ∧
    (cleanupSecondPassJobsLoop jobs st).1.mErrors = st.mErrors ∧
    List.Forall₂
      (fun job released =>
        released.img = none ∧ released.renderer = none ∧
          (job.img.isSome = true → released.context.painter = none))
      jobs (cleanupSecondPassJobsLoop jobs st).2 := by
  induction jobs generalizing st with
  | nil => exact ⟨rfl, rfl, List.Forall₂.nil⟩
  | cons job rest ih =>
    obtain ⟨h1, h2, h3, h4, h5⟩ := cleanupSecondPassJob_frame st job
    obtain ⟨g1, g2, g3⟩ := ih (cleanupSecondPassJob st job).1
    rw [cleanupSecondPassJobsLoop]
    exact ⟨g1.trans h1, g2.trans h2, List.Forall₂.cons ⟨h3, h4, h5⟩ g3⟩

/-- C28: `cleanupSecondPassJobs` never writes to the render cache: for every list of
second-pass jobs, with or without a cache, the cache (and the error list) afterwards is
the one before, no cache write is made, every job is left with a null image and a null
renderer, the painter of every job that had an image (as every second-pass job has) is
null, and the list is empty afterwards. -/
theorem cleanupSecondPassJobs_frame (st : JobState) (jobs : List LayerRenderJob) :
    (cleanupSecondPassJobs st jobs).state.mCache = st.mCache ∧
    (cleanupSecondPassJobs st jobs).state.mErrors = st.mErrors ∧
    (cleanupSecondPassJobs st jobs).cacheWrites = [] ∧
    List.Forall₂
      (fun job released =>
        released.img = none ∧ released.renderer = none ∧
          (job.img.isSome = true → released.context.painter = none))
      jobs (cleanupSecondPassJobs st jobs).released ∧
    (cleanupSecondPassJobs st jobs).jobs = [] := by
  obtain ⟨h1, h2, h3⟩ := cleanupSecondPassJobsLoop_frame jobs st
  exact ⟨h1, h2, rfl, h3, rfl⟩

/-- C28, at the rendered second-pass job of T with the example cache: the cache is the
example cache afterwards and the job is left without image, painter and renderer. -/
theorem cleanupSecondPassJobs_frame_witness :
    (cleanupSecondPassJobs (exampleJobState examplePlainLayer)
      [exampleRenderedSecondPassJob]).state.mCache = some exampleCache ∧
    ∃ released,
      (cleanupSecondPassJobs (exampleJobState examplePlainLayer)
        [exampleRenderedSecondPassJob]).released = [released] ∧
      released.img = none ∧ released.renderer = none ∧ released.context.painter = none := by
  have h := cleanupSecondPassJobs_frame (exampleJobState examplePlainLayer)
    [exampleRenderedSecondPassJob]
  refine ⟨h.1, ?_⟩
  obtain ⟨released, rest, hr, hrest, heq⟩ := List.forall₂_cons_left_iff.mp h.2.2.2.1
  rw [List.forall₂_nil_left_iff.mp hrest] at heq
  exact ⟨released, heq, hr.1, hr.2.1, hr.2.2 rfl⟩

/-! ## Label cache check: the returned flag -/

theorem scanLabeledLayers_canCache (layers : List QgsMapLayer) (acc : List String)
    (canCache : Bool) :
    (scanLabeledLayers layers acc canCache).2 =
      (canCache && layers.all fun ml => !ml.labelsNeedAdvancedEffects) := by
  induction layers generalizing acc with
  | nil => simp [scanLabeledLayers]
  | cons ml rest ih =>
    unfold scanLabeledLayers
    dsimp only
    by_cases ha : ml.labelsNeedAdvancedEffects = true
    · rw [if_pos ha]
      simp [ha]
    · rw [if_neg ha, ih]
      simp [ha]

theorem prepareLabelCache_flag (st : JobState) :
    (prepareLabelCache st).1 =
      (st.mCache.isSome && st.mSettings.layers.all fun ml => !ml.labelsNeedAdvancedEffects) := by
  rw [← scanLabeledLayers_canCache st.mSettings.layers [] st.mCache.isSome]
  unfold prepareLabelCache
  dsimp only
  cases st.mCache with
  | none => rfl
  | some c =>
    dsimp only
    split_ifs <;> rfl

/-- C29: `prepareLabelCache` returns true if and only if a cache is set and no vector
layer of the stack has labels enabled with a labeling that requires advanced effects;
and when it returns false while the cache holds a label image, the label key has been
cleared in the cache it leaves. -/
theorem prepareLabelCache_returns (st : JobState) :
    ((prepareLabelCache st).1 = true ↔
      st.mCache.isSome = true ∧
        ∀ ml ∈ st.mSettings.layers, ml.labelsNeedAdvancedEffects = false) ∧
    (∀ c, st.mCache = some c → c.hasCacheImage LABEL_CACHE_ID = true →
      (prepareLabelCache st).1 = false →
      (prepareLabelCache st).2.mCache = some (c.clearCacheImage LABEL_CACHE_ID) ∧
      (c.clearCacheImage LABEL_CACHE_ID).hasCacheImage LABEL_CACHE_ID = false) := by
  constructor
  · rw [prepareLabelCache_flag]
    simp [List.all_eq_true]
  · intro c hc himage hfalse
    refine ⟨?_, by simp [QgsMapRendererCache.clearCacheImage, QgsMapRendererCache.hasCacheImage]⟩
    have hscan : (scanLabeledLayers st.mSettings.layers [] true).2 = false := by
      have h := prepareLabelCache_flag st
      rw [hfalse, hc] at h
      rw [scanLabeledLayers_canCache]
      exact h.symm
    unfold prepareLabelCache
    dsimp only
    rw [hc]
    dsimp only
    rw [himage]
    simp [hscan]

/-- C29, at the cache holding a label image: with the labeled layer A the result is
true; with a layer whose labeling requires advanced effects the result is false and the
label image is cleared. -/
theorem prepareLabelCache_returns_witness :
    (prepareLabelCache (exampleLabelState [exampleLabeledLayer])).1 = true ∧
    (prepareLabelCache (exampleLabelState [exampleEffectsLayer])).2.mCache =
      some (exampleLabelCache.clearCacheImage LABEL_CACHE_ID) :=
  ⟨(prepareLabelCache_returns (exampleLabelState [exampleLabeledLayer])).1.mpr
      ⟨rfl, by decide⟩,
    ((prepareLabelCache_returns (exampleLabelState [exampleEffectsLayer])).2
      exampleLabelCache rfl rfl (by decide)).1⟩

/-! ## Label job -/

/-- C22: the label job returned by `prepareLabelingJob` has complete = true if and only
if it has cached = true, which holds if and only if `canUseLabelCache` is true, a cache
is set and the cache holds an image under the label key; in that case the image is the
cached one, and otherwise the job is returned with complete = false, its image being the
newly allocated one or null. -/
theorem prepareLabelingJob_complete_iff_cached (st : JobState) (painter : Option QPainter)
    (labelingEngine2 canUseLabelCache : Bool) :
    ((prepareLabelingJob st painter labelingEngine2 canUseLabelCache).1.complete = true ↔
      (prepareLabelingJob st painter labelingEngine2 canUseLabelCache).1.cached = true) ∧
    ((prepareLabelingJob st painter labelingEngine2 canUseLabelCache).1.cached = true ↔
      canUseLabelCache = true ∧
        ∃ c, st.mCache = some c ∧ c.hasCacheImage LABEL_CACHE_ID = true) ∧
    (∀ c, canUseLabelCache = true → st.mCache = some c →
      c.hasCacheImage LABEL_CACHE_ID = true →
      (prepareLabelingJob st painter labelingEngine2 canUseLabelCache).1.img =
        some (c.cacheImage LABEL_CACHE_ID)) ∧
    ((prepareLabelingJob st painter labelingEngine2 canUseLabelCache).1.cached = false →
      (prepareLabelingJob st painter labelingEngine2 canUseLabelCache).1.complete = false ∧
      (prepareLabelingJob st painter labelingEngine2 canUseLabelCache).1.img =
        if canUseLabelCache && (st.mCache.isSome || painter.isNone) then
          (allocateImage st "labels").1
        else none) := by
  have hcache : hasLabelCache st canUseLabelCache = true ↔
      canUseLabelCache = true ∧
        ∃ c, st.mCache = some c ∧ c.hasCacheImage LABEL_CACHE_ID = true := by
    unfold hasLabelCache
    cases st.mCache <;> simp
  unfold prepareLabelingJob
  dsimp only
  by_cases h : hasLabelCache st canUseLabelCache = true
  · rw [if_pos h]
    refine ⟨by simp, ?_, ?_, by simp⟩
    · simpa using hcache.mp h
    · intro c _ hc _
      simp [hc]
  · rw [if_neg h]
    have hn : ¬(canUseLabelCache = true ∧
        ∃ c, st.mCache = some c ∧ c.hasCacheImage LABEL_CACHE_ID = true) :=
      fun hh => h (hcache.mpr hh)
    split_ifs with h2
    · refine ⟨by simp, by simpa using hn, ?_, by simp⟩
      intro c h1 hc himg
      exact absurd ⟨h1, c, hc, himg⟩ hn
    · refine ⟨by simp, by simpa using hn, ?_, by simp⟩
      intro c h1 hc himg
      exact absurd ⟨h1, c, hc, himg⟩ hn

/-- C22, at the cache holding a label image: the job is cached and complete with the
cached image; without a cache the job gets an allocated image and is not complete. -/
theorem prepareLabelingJob_complete_iff_cached_witness :
    (prepareLabelingJob (exampleLabelState []) none true true).1.img =
      some exampleImageLabels ∧
    (prepareLabelingJob examplePlannerState none true true).1.complete = false ∧
    (prepareLabelingJob examplePlannerState none true true).1.img.isSome = true :=
  ⟨((prepareLabelingJob_complete_iff_cached (exampleLabelState []) none true true).2.2.1
      exampleLabelCache rfl rfl rfl).trans rfl,
    ((prepareLabelingJob_complete_iff_cached examplePlannerState none true true).2.2.2
      rfl).1,
    by rw [((prepareLabelingJob_complete_iff_cached examplePlannerState none true true).2.2.2
      rfl).2]; rfl⟩

/-! ## Extent reprojector: the second rectangle -/

theorem reprojectToLayerExtent_cases (ml : QgsMapLayer) (ct : QgsCoordinateTransform)
    (extent r2 : QgsRectangle) :
    (∃ calls extent1,
      reprojectTry ml (ct.setBallparkTransformsAreAppropriate true) extent =
        (calls, .ok extent1) ∧
      reprojectToLayerExtent ml ct extent r2 = ⟨false, extent1, r2, calls⟩) ∨
    (∃ calls e,
      reprojectTry ml (ct.setBallparkTransformsAreAppropriate true) extent =
        (calls, .error e) ∧
      reprojectToLayerExtent ml ct extent r2 =
        ⟨false, QgsRectangle.unbounded, QgsRectangle.unbounded, calls⟩) := by
  rcases h : reprojectTry ml (ct.setBallparkTransformsAreAppropriate true) extent with
    ⟨calls, e | extent1⟩
  · exact Or.inr ⟨calls, e, rfl, reprojectToLayerExtent_error ml ct extent r2 calls e h⟩
  · exact Or.inl ⟨calls, extent1, rfl, reprojectToLayerExtent_ok ml ct extent r2 extent1 calls h⟩

theorem layerExtents_r2_finite (settings : QgsMapSettings) (ml : QgsMapLayer) :
    (layerExtents settings ml).r2.isFinite = true := by
  unfold layerExtents
  dsimp only
  split_ifs
  · rcases reprojectToLayerExtent_cases ml (settings.layerTransform ml)
      (settings.visibleExtent.grow settings.extentBuffer) QgsRectangle.null with
      ⟨_, _, _, h⟩ | ⟨_, _, _, h⟩
    · rw [h]; rfl
    · rw [h]; rfl
  · rfl

/-- C30: `reprojectToLayerExtent` returns false for every input; it leaves `r2` as it was
unless a transform exception was caught, in which case `r2` is the unbounded rectangle,
which is finite; so a finite `r2` (such as the default constructed one of `prepareJobs`)
is finite afterwards, the skip test of `prepareJobs` equals the test of `r1` alone, and a
valid layer in scale range is skipped with the extent error exactly along the value of
`r1.isFinite()`. -/
theorem reprojectToLayerExtent_second_rectangle (ml : QgsMapLayer)
    (ct : QgsCoordinateTransform) (extent r2 : QgsRectangle) :
    (reprojectToLayerExtent ml ct extent r2).split = false ∧
    ((reprojectToLayerExtent ml ct extent r2).r2 = r2 ∨
      ((reprojectToLayerExtent ml ct extent r2).r2 = QgsRectangle.unbounded ∧
        ∃ calls e, reprojectTry ml (ct.setBallparkTransformsAreAppropriate true) extent =
          (calls, .error e))) ∧
    ((∃ calls extent1, reprojectTry ml (ct.setBallparkTransformsAreAppropriate true) extent =
        (calls, .ok extent1)) → (reprojectToLayerExtent ml ct extent r2).r2 = r2) ∧
    QgsRectangle.unbounded.isFinite = true ∧ QgsRectangle.null.isFinite = true ∧
    (r2.isFinite = true → (reprojectToLayerExtent ml ct extent r2).r2.isFinite = true) ∧
    (∀ settings : QgsMapSettings,
      (layerExtents settings ml).r2.isFinite = true ∧
      (!(layerExtents settings ml).extent.isFinite || !(layerExtents settings ml).r2.isFinite) =
        !(layerExtents settings ml).extent.isFinite) ∧
    (∀ (painter : Option QPainter) (le dp rl : Bool) (st : JobState),
      ml.isValid = true → ml.isInScaleRange st.mSettings.scale = true →
      ((layerExtents st.mSettings ml).extent.isFinite = false →
        prepareJobsLayer painter le dp rl st ml =
          ({ st with mErrors := st.mErrors ++ [⟨ml.id, extentErrorMessage⟩] }, none)) ∧
      ((layerExtents st.mSettings ml).extent.isFinite = true →
        (∃ j, (prepareJobsLayer painter le dp rl st ml).2 = some j) ∨
        ((prepareJobsLayer painter le dp rl st ml).2 = none ∧
          (prepareJobsLayer painter le dp rl st ml).1.mErrors =
            st.mErrors ++ [⟨ml.id, memoryErrorMessage st.mSettings⟩]))) := by
  have hcases := reprojectToLayerExtent_cases ml ct extent r2
  refine ⟨?_, ?_, ?_, rfl, rfl, ?_, ?_, ?_⟩
  · rcases hcases with ⟨_, _, _, h⟩ | ⟨_, _, _, h⟩ <;> rw [h]
  · rcases hcases with ⟨_, _, _, h⟩ | ⟨calls, e, ht, h⟩
    · left; rw [h]
    · right; rw [h]; exact ⟨rfl, calls, e, ht⟩
  · rintro ⟨calls, extent1, ht⟩
    rw [reprojectToLayerExtent_ok ml ct extent r2 extent1 calls ht]
  · intro hr2
    rcases hcases with ⟨_, _, _, h⟩ | ⟨_, _, _, h⟩
    · rw [h]; exact hr2
    · rw [h]; rfl
  · intro settings
    have h := layerExtents_r2_finite settings ml
    exact ⟨h, by rw [h]; simp⟩
  · intro painter le dp rl st hValid hScale
    exact ⟨fun h => prepareJobsLayer_non_finite painter le dp rl st ml hValid hScale (Or.inl h),
      fun h => prepareJobsLayer_processed_outcome painter le dp rl st ml hValid hScale h
        (layerExtents_r2_finite st.mSettings ml)⟩

/-- C30, at the failing transform (an exception is caught, `r2` becomes the unbounded
rectangle) and at the layer "far" of the example stack, whose `r1` is not finite and
which is skipped with the extent error. -/
theorem reprojectToLayerExtent_second_rectangle_witness :
    (reprojectToLayerExtent exampleProjectedLayer exampleFailingTransform exampleSmallExtent
      QgsRectangle.null).r2.isFinite = true ∧
    prepareJobsLayer none false false false exampleFarState exampleFarLayer =
      ({ exampleFarState with
         mErrors := exampleFarState.mErrors ++ [⟨"far", extentErrorMessage⟩] }, none) :=
  ⟨(reprojectToLayerExtent_second_rectangle exampleProjectedLayer exampleFailingTransform
      exampleSmallExtent QgsRectangle.null).2.2.2.2.2.1 rfl,
    ((reprojectToLayerExtent_second_rectangle exampleFarLayer exampleNoTransform
      exampleSmallExtent QgsRectangle.null).2.2.2.2.2.2.2 none false false false
        exampleFarState rfl rfl).1 exampleFarLayer_non_finite⟩

/-! ## Second-pass planner: no mask declared -/

theorem collectAllMasks_replay (firstPassJobs : List LayerRenderJob)
    (labelJob : LabelRenderJob) :
    (collectAllMasks firstPassJobs labelJob).1.maskedSymbolLayers =
      replayRequests [] (collectAllMasks firstPassJobs labelJob).1.requests :=
  foldl_collectJobMasks_replay firstPassJobs.enum ({}, labelJob.maskIdProvider) rfl

theorem collectAllMasks_empty (firstPassJobs : List LayerRenderJob)
    (labelJob : LabelRenderJob) (h : maskTargets firstPassJobs = []) :
    (collectAllMasks firstPassJobs labelJob).1.maskedSymbolLayers = [] := by
  have hreq : (collectAllMasks firstPassJobs labelJob).1.requests = [] := by
    have ht := collectAllMasks_targets firstPassJobs labelJob
    rw [h] at ht
    exact List.map_eq_nil_iff.mp ht
  rw [collectAllMasks_replay, hreq]
  rfl

/-- C26: when no first-pass vector layer declares a mask target, `prepareSecondPassJobs`
returns the empty list and allocates nothing: the object state, with its allocation
count and error list, is the one before, the first-pass jobs are returned as they were
(image, mask image and painters included), and the label job differs from the one given
at most in its mask id provider, its image and mask image list being those given. -/
theorem prepareSecondPassJobs_no_masks (st : JobState) (firstPassJobs : List LayerRenderJob)
    (labelJob : LabelRenderJob) (hNone : maskTargets firstPassJobs = []) :
    prepareSecondPassJobs st firstPassJobs labelJob =
      .ok ⟨st, firstPassJobs,
        { labelJob with maskIdProvider := (collectAllMasks firstPassJobs labelJob).2 }, []⟩ ∧
    ∃ plan, prepareSecondPassJobs st firstPassJobs labelJob = .ok plan ∧
      plan.secondPassJobs = [] ∧ plan.state = st ∧ plan.firstPassJobs = firstPassJobs ∧
      plan.labelJob.img = labelJob.img ∧ plan.labelJob.maskImages = labelJob.maskImages ∧
      plan.labelJob.context = labelJob.context := by
  have h : prepareSecondPassJobs st firstPassJobs labelJob =
      .ok ⟨st, firstPassJobs,
        { labelJob with maskIdProvider := (collectAllMasks firstPassJobs labelJob).2 }, []⟩ := by
    unfold prepareSecondPassJobs
    dsimp only
    rw [collectAllMasks_empty firstPassJobs labelJob hNone]
    rfl
  exact ⟨h, _, h, rfl, rfl, rfl, rfl, rfl, rfl⟩

/-- C26, at the first-pass jobs T (drawing directly on the shared painter, null image)
and A, none of which declares a mask: the list returned is empty, no allocation is made
and the job of T still has a null image. -/
theorem prepareSecondPassJobs_no_masks_witness :
    ∃ plan, prepareSecondPassJobs examplePlannerState [exampleTargetJob, exampleJobA] {} =
        .ok plan ∧
      plan.secondPassJobs = [] ∧ plan.state.allocations = 0 ∧
      plan.firstPassJobs.map (·.img) = [none, some exampleImageA] := by
  obtain ⟨plan, h1, h2, h3, h4, _⟩ :=
    (prepareSecondPassJobs_no_masks examplePlannerState [exampleTargetJob, exampleJobA] {}
      (by decide)).2
  exact ⟨plan, h1, h2, by rw [h3]; rfl, by rw [h4]; rfl⟩

/-! ## Second-pass planner: failed allocations -/

/-- C25, the code at two failing inputs: with every allocation failing, the mask image of
the source V1 stays null and `job.maskImage->fill( 0 )` dereferences it; with only the
first allocation failing, the image of the first-pass job of T stays null and the
function returns a second-pass job whose `firstPassJob` is that job. -/
theorem prepareSecondPassJobs_null_image_dereference :
    prepareSecondPassJobs exampleNoMemoryState exampleUnallocatedJobs {} =
      .error .maskImage ∧
    (prepareSecondPassJobs exampleFirstAllocationFails exampleUnallocatedJobs {}).toOption.map
        (fun plan =>
          (plan.secondPassJobs.map (·.firstPassJob), plan.firstPassJobs.map (·.img.isSome))) =
      some ([some 0], [false, true]) :=
  ⟨by rfl, by rfl⟩

/-! ## Second-pass planner: mask buffers -/

theorem collectMasks_layerHasMask (col : MaskCollection)
    (masks : List (String × List QgsSymbolLayerId)) (sourceLayerId ruleId : String)
    (labelMaskId : Int) (id : String) :
    id ∈ (collectMasks col masks sourceLayerId ruleId labelMaskId).layerHasMask ↔
      id ∈ col.layerHasMask ∨ (masks.isEmpty = false ∧ id = sourceLayerId) := by
  unfold collectMasks
  dsimp only
  cases h : masks.isEmpty <;> simp

theorem collectLabelRules_layerHasMask (vlId : String)
    (rules : List (String × List (String × List QgsSymbolLayerId)))
    (acc : MaskCollection × QgsMaskIdProvider) (id : String) :
    id ∈ (rules.foldl (collectLabelRule vlId) acc).1.layerHasMask ↔
      id ∈ acc.1.layerHasMask ∨
        ((rules.any fun it => !it.2.isEmpty) = true ∧ id = vlId) := by
  induction rules generalizing acc with
  | nil => simp
  | cons it rest ih =>
    rw [List.foldl_cons, ih]
    have h : id ∈ (collectLabelRule vlId acc it).1.layerHasMask ↔
        id ∈ acc.1.layerHasMask ∨ (it.2.isEmpty = false ∧ id = vlId) :=
      collectMasks_layerHasMask _ _ _ _ _ id
    rw [h, List.any_cons]
    generalize (rest.any fun it => !it.2.isEmpty) = b
    generalize it.2.isEmpty = e
    cases b <;> cases e <;> simp [or_assoc]

theorem collectJobMasks_layerHasMask (acc : MaskCollection × QgsMaskIdProvider)
    (ij : Nat × LayerRenderJob) (id : String) :
    id ∈ (collectJobMasks acc ij).1.layerHasMask ↔
      id ∈ acc.1.layerHasMask ∨ id ∈ jobMaskSourceIds ij.2 := by
  unfold collectJobMasks jobMaskSourceIds
  cases ij.2.layer.bind QgsMapLayer.asVectorLayer with
  | none => simp
  | some vl =>
    dsimp only
    rw [collectMasks_layerHasMask, collectLabelRules_layerHasMask]
    unfold declaresMask
    generalize (vl.labelMasks.any fun it => !it.2.isEmpty) = b
    generalize vl.symbolLayerMasks.isEmpty = e
    cases b <;> cases e <;> simp [or_assoc]

theorem foldl_collectJobMasks_layerHasMask (jobs : List LayerRenderJob) (n : Nat)
    (acc : MaskCollection × QgsMaskIdProvider) (id : String) :
    id ∈ ((jobs.enumFrom n).foldl collectJobMasks acc).1.layerHasMask ↔
      id ∈ acc.1.layerHasMask ∨ id ∈ jobs.flatMap jobMaskSourceIds := by
  induction jobs generalizing n acc with
  | nil => simp
  | cons job rest ih =>
    rw [List.enumFrom_cons, List.foldl_cons, ih, collectJobMasks_layerHasMask]
    simp [or_assoc]

theorem collectAllMasks_layerHasMask (firstPassJobs : List LayerRenderJob)
    (labelJob : LabelRenderJob) (id : String) :
    id ∈ (collectAllMasks firstPassJobs labelJob).1.layerHasMask ↔
      id ∈ maskSourceIds firstPassJobs := by
  unfold collectAllMasks maskSourceIds List.enum
  rw [foldl_collectJobMasks_layerHasMask]
  simp

theorem ensureJobImage_buffers (st : JobState) (ml : QgsMapLayer) (job : LayerRenderJob)
    (hAlloc : ∀ n, (st.newImage n).isSome = true) :
    (ensureJobImage st ml job).1.img.isSome = true ∧
    (ensureJobImage st ml job).1.maskImage = job.maskImage := by
  unfold ensureJobImage
  split_ifs with h
  · obtain ⟨image, himage⟩ := allocateImageAndPainter_some st ml.id hAlloc
    dsimp only
    rw [himage]
    exact ⟨rfl, rfl⟩
  · refine ⟨?_, rfl⟩
    cases himg : job.img with
    | none => simp [himg] at h
    | some img => rfl

theorem allocateMaskImage_buffers (layerHasMask : List String) (st : JobState)
    (ml : QgsMapLayer) (job : LayerRenderJob)
    (hAlloc : ∀ n, (st.newImage n).isSome = true) (hNoMask : job.maskImage = none) :
    ∃ r, allocateMaskImage layerHasMask st ml job = .ok r ∧ r.1.img = job.img ∧
      (r.1.maskImage.isSome = true ↔ ml.id ∈ layerHasMask) ∧
      ∀ m, r.1.maskImage = some m → m.isTransparent := by
  unfold allocateMaskImage
  split_ifs with h
  · obtain ⟨image, himage⟩ := allocateImageAndPainter_some st ml.id hAlloc
    dsimp only
    rw [himage]
    refine ⟨_, rfl, rfl, by simp [h], ?_⟩
    intro m hm
    have hm1 : image.fill ⟨0, 0, 0, 0⟩ = m := Option.some.inj hm
    rw [← hm1]
    intro x y
    rfl
  · refine ⟨_, rfl, rfl, by simp [h, hNoMask], ?_⟩
    intro m hm
    rw [hNoMask] at hm
    cases hm

theorem allocateFirstPassJob_buffers (layerHasMask : List String) (st : JobState)
    (job : LayerRenderJob) (hAlloc : ∀ n, (st.newImage n).isSome = true)
    (hLive : job.layer.isSome = true) (hNoMask : job.maskImage = none) :
    ∃ r, allocateFirstPassJob layerHasMask st job = .ok r ∧ r.1.img.isSome = true ∧
      (r.1.maskImage.isSome = true ↔ isMaskSource layerHasMask job = true) ∧
      ∀ m, r.1.maskImage = some m → m.isTransparent := by
  obtain ⟨ml, hml⟩ := Option.isSome_iff_exists.mp hLive
  obtain ⟨h1, h2⟩ := ensureJobImage_buffers st ml job hAlloc
  obtain ⟨g1, _⟩ := ensureJobImage_ok st ml job
  obtain ⟨r, hr, h3, h4, h5⟩ := allocateMaskImage_buffers layerHasMask
    (ensureJobImage st ml job).2 ml (ensureJobImage st ml job).1
    (sameAllocator_succeeds g1 hAlloc) (h2.trans hNoMask)
  have hsource : isMaskSource layerHasMask job = decide (ml.id ∈ layerHasMask) := by
    unfold isMaskSource
    rw [hml]
  unfold allocateFirstPassJob
  rw [hml]
  dsimp only
  refine ⟨r, hr, by rw [h3]; exact h1, ?_, h5⟩
  rw [h4, hsource, decide_eq_true_iff]

theorem allocateFirstPass_buffers (layerHasMask : List String) (jobs : List LayerRenderJob)
    (st : JobState) (hAlloc : ∀ n, (st.newImage n).isSome = true)
    (hLive : ∀ job ∈ jobs, job.layer.isSome = true)
    (hNoMask : ∀ job ∈ jobs, job.maskImage = none) :
    ∃ r, allocateFirstPass layerHasMask jobs st = .ok r ∧
      List.Forall₂
        (fun job job1 =>
          job1.img.isSome = true ∧
          (job1.maskImage.isSome = true ↔ isMaskSource layerHasMask job = true) ∧
          ∀ m, job1.maskImage = some m → m.isTransparent)
        jobs r.1 := by
  induction jobs generalizing st with
  | nil => exact ⟨_, rfl, List.Forall₂.nil⟩
  | cons job rest ih =>
    obtain ⟨r, hr, h1, h2, h3⟩ := allocateFirstPassJob_buffers layerHasMask st job hAlloc
      (hLive job (List.mem_cons_self _ _)) (hNoMask job (List.mem_cons_self _ _))
    obtain ⟨r0, hr0, hsame, _⟩ := allocateFirstPassJob_ok layerHasMask st job hAlloc
      (hLive job (List.mem_cons_self _ _))
    have hrr : r0 = r := Except.ok.inj (hr0.symm.trans hr)
    rw [hrr] at hsame
    obtain ⟨rs, hrs, h4⟩ := ih r.2 (sameAllocator_succeeds hsame hAlloc)
      (fun j hj => hLive j (List.mem_cons_of_mem _ hj))
      (fun j hj => hNoMask j (List.mem_cons_of_mem _ hj))
    rw [allocateFirstPass, hr]
    dsimp only
    rw [hrs]
    exact ⟨_, rfl, List.Forall₂.cons ⟨h1, h2, h3⟩ h4⟩

theorem allocateLabelImage_masks (st : JobState) (labelJob : LabelRenderJob) :
    (allocateLabelImage st labelJob).1.maskImages = labelJob.maskImages ∧
    (allocateLabelImage st labelJob).1.maskIdProvider = labelJob.maskIdProvider := by
  unfold allocateLabelImage
  split_ifs <;> exact ⟨rfl, rfl⟩

theorem allocateLabelMasks_images (maskId count : Nat) (labelJob : LabelRenderJob)
    (st : JobState) (hAlloc : ∀ n, (st.newImage n).isSome = true) :
    ∃ r, allocateLabelMasks maskId count labelJob st = .ok r ∧
      r.1.maskIdProvider = labelJob.maskIdProvider ∧ r.1.img = labelJob.img ∧
      ∃ added : List (Option QImage), r.1.maskImages = labelJob.maskImages ++ added ∧
        added.length = count ∧
        ∀ m ∈ added, ∃ img, m = some img ∧ img.isTransparent := by
  induction count generalizing maskId labelJob st with
  | zero => exact ⟨_, rfl, rfl, rfl, [], by simp, rfl, by simp⟩
  | succ count ih =>
    obtain ⟨image, himage⟩ := allocateImageAndPainter_some st "label mask" hAlloc
    have h1 := allocateImageAndPainter_same st "label mask"
    rw [allocateLabelMasks]
    dsimp only
    rw [himage]
    dsimp only
    obtain ⟨r, hr, g1, g2, added, g3, g4, g5⟩ := ih (maskId + 1)
      { labelJob with
        context :=
          { labelJob.context with
            maskPainters := setMaskPainterAt labelJob.context.maskPainters maskId
              (allocateImageAndPainter st "label mask").1 }
        maskImages := labelJob.maskImages ++ [some (image.fill ⟨0, 0, 0, 0⟩)] }
      (allocateImageAndPainter st "label mask").2.2 (sameAllocator_succeeds h1 hAlloc)
    refine ⟨r, hr, g1, g2, some (image.fill ⟨0, 0, 0, 0⟩) :: added, ?_, ?_, ?_⟩
    · rw [g3]
      simp
    · simp [g4]
    · intro m hm
      rcases List.mem_cons.mp hm with h | h
      · exact ⟨_, h, fun x y => rfl⟩
      · exact g5 m h

theorem prepareSecondPassJobs_phases (st : JobState) (firstPassJobs : List LayerRenderJob)
    (labelJob : LabelRenderJob)
    (hFound : maskTargets firstPassJobs ≠ [])
    (hAlloc : ∀ n, (st.newImage n).isSome = true)
    (hLive : ∀ job ∈ firstPassJobs, job.layer.isSome = true)
    (hVector : ∀ job ∈ firstPassJobs, isMaskTarget (maskTargets firstPassJobs) job = true →
      ((job.layer.bind QgsMapLayer.asVectorLayer).bind (·.mapRenderer)).isSome = true) :
    ∃ (first : List LayerRenderJob × JobState) (masks : LabelRenderJob × JobState)
        (second : List LayerRenderJob × JobState),
      allocateFirstPass (collectAllMasks firstPassJobs labelJob).1.layerHasMask
        firstPassJobs st = .ok first ∧
      allocateLabelMasks 0 (collectAllMasks firstPassJobs labelJob).2.length
        (allocateLabelImage first.2
          { labelJob with maskIdProvider := (collectAllMasks firstPassJobs labelJob).2 }).1
        (allocateLabelImage first.2
          { labelJob with maskIdProvider := (collectAllMasks firstPassJobs labelJob).2 }).2 =
        .ok masks ∧
      prepareSecondPassJobs st firstPassJobs labelJob =
        .ok ⟨second.2, first.1, masks.1, second.1⟩ := by
  have hT := collectAllMasks_isSome firstPassJobs labelJob
  have hempty : ¬(collectAllMasks firstPassJobs labelJob).1.maskedSymbolLayers.isEmpty = true := by
    intro hempty
    apply hFound
    apply List.eq_nil_iff_forall_not_mem.mpr
    intro t ht
    have h := (hT t).mpr ht
    rw [List.isEmpty_iff.mp hempty] at h
    cases h
  obtain ⟨first, hfirst, hs1, hplan⟩ := allocateFirstPass_ok
    (collectAllMasks firstPassJobs labelJob).1.layerHasMask firstPassJobs st hAlloc hLive
  have hs2 := allocateLabelImage_same first.2
    { labelJob with maskIdProvider := (collectAllMasks firstPassJobs labelJob).2 }
  have hs12 := sameAllocator_trans hs1 hs2
  obtain ⟨masks, hmasks, hs3⟩ := allocateLabelMasks_ok 0
    (collectAllMasks firstPassJobs labelJob).2.length
    (allocateLabelImage first.2
      { labelJob with maskIdProvider := (collectAllMasks firstPassJobs labelJob).2 }).1
    (allocateLabelImage first.2
      { labelJob with maskIdProvider := (collectAllMasks firstPassJobs labelJob).2 }).2
    (sameAllocator_succeeds hs12 hAlloc)
  have hs123 := sameAllocator_trans hs12 hs3
  have hLive1 : ∀ job ∈ first.1, job.layer.isSome = true := by
    intro job hjob
    obtain ⟨j, hj, hjl⟩ := planInput_mem _ _ hplan job hjob
    rw [← hjl]
    exact hLive j hj
  have hVector1 : ∀ job ∈ first.1, isMaskTarget (maskTargets firstPassJobs) job = true →
      ((job.layer.bind QgsMapLayer.asVectorLayer).bind (·.mapRenderer)).isSome = true := by
    intro job hjob htarget
    obtain ⟨j, hj, hjl⟩ := planInput_mem _ _ hplan job hjob
    have h := hVector j hj (by unfold isMaskTarget at htarget ⊢; rw [hjl]; exact htarget)
    rw [hjl] at h
    exact h
  obtain ⟨second, hsecond, _⟩ :=
    secondPassLoop_ok (collectAllMasks firstPassJobs labelJob).1 (maskTargets firstPassJobs)
      hT first.1 0 masks.2 (sameAllocator_succeeds hs123 hAlloc) hLive1 hVector1
  refine ⟨first, masks, second, hfirst, hmasks, ?_⟩
  unfold prepareSecondPassJobs
  dsimp only
  rw [if_neg hempty, hfirst]
  dsimp only
  rw [hmasks]
  dsimp only
  rw [hsecond]

theorem isMaskSource_congr (a b : List String) (job : LayerRenderJob)
    (h : ∀ id, id ∈ a ↔ id ∈ b) : isMaskSource a job = isMaskSource b job := by
  unfold isMaskSource
  cases job.layer with
  | none => rfl
  | some ml =>
    dsimp only
    exact decide_eq_decide.mpr (h ml.id)

/-- C24: after `prepareSecondPassJobs` has found a mask declaration, with every
allocation succeeding, on first-pass jobs as `prepareJobs` makes them (live layer, no
mask image yet; masked layers are vector layers with a renderer) and a label job
without mask images: a first-pass job has a mask image if and only if its layer is a
mask source, every first-pass job has an image, every mask image is filled with 0, and
the label job holds exactly one mask image per id of its mask id provider, each filled
with 0, the image of the id `i` at index `i`. -/
theorem prepareSecondPassJobs_mask_buffers (st : JobState)
    (firstPassJobs : List LayerRenderJob) (labelJob : LabelRenderJob)
    (hFound : maskTargets firstPassJobs ≠ [])
    (hAlloc : ∀ n, (st.newImage n).isSome = true)
    (hLive : ∀ job ∈ firstPassJobs, job.layer.isSome = true)
    (hVector : ∀ job ∈ firstPassJobs, isMaskTarget (maskTargets firstPassJobs) job = true →
      ((job.layer.bind QgsMapLayer.asVectorLayer).bind (·.mapRenderer)).isSome = true)
    (hNoMask : ∀ job ∈ firstPassJobs, job.maskImage = none)
    (hLabel : labelJob.maskImages = []) :
    ∃ plan, prepareSecondPassJobs st firstPassJobs labelJob = .ok plan ∧
      List.Forall₂
        (fun job job1 =>
          job1.img.isSome = true ∧
          (job1.maskImage.isSome = true ↔
            isMaskSource (maskSourceIds firstPassJobs) job = true) ∧
          ∀ m, job1.maskImage = some m → m.isTransparent)
        firstPassJobs plan.firstPassJobs ∧
      plan.labelJob.maskIdProvider = (collectAllMasks firstPassJobs labelJob).2 ∧
      plan.labelJob.maskImages.length = plan.labelJob.maskIdProvider.length ∧
      ∀ i, i < plan.labelJob.maskIdProvider.length →
        ∃ img, plan.labelJob.maskImages[i]? = some (some img) ∧ img.isTransparent := by
  obtain ⟨first, masks, second, hfirst, hmasks, hplan⟩ :=
    prepareSecondPassJobs_phases st firstPassJobs labelJob hFound hAlloc hLive hVector
  obtain ⟨first0, hfirst0, hbuffers⟩ := allocateFirstPass_buffers
    (collectAllMasks firstPassJobs labelJob).1.layerHasMask firstPassJobs st hAlloc hLive
    hNoMask
  have hff : first0 = first := Except.ok.inj (hfirst0.symm.trans hfirst)
  rw [hff] at hbuffers
  obtain ⟨first1, hfirst1, hsame1, _⟩ := allocateFirstPass_ok
    (collectAllMasks firstPassJobs labelJob).1.layerHasMask firstPassJobs st hAlloc hLive
  have hsame : SameAllocator st first.2 := by
    have h : first1 = first := Except.ok.inj (hfirst1.symm.trans hfirst)
    rw [h] at hsame1
    exact hsame1
  have hs2 := allocateLabelImage_same first.2
    { labelJob with maskIdProvider := (collectAllMasks firstPassJobs labelJob).2 }
  obtain ⟨hm1, hm2⟩ := allocateLabelImage_masks first.2
    { labelJob with maskIdProvider := (collectAllMasks firstPassJobs labelJob).2 }
  obtain ⟨masks0, hmasks0, hp, _, added, hadd, hlen, htrans⟩ := allocateLabelMasks_images 0
    (collectAllMasks firstPassJobs labelJob).2.length
    (allocateLabelImage first.2
      { labelJob with maskIdProvider := (collectAllMasks firstPassJobs labelJob).2 }).1
    (allocateLabelImage first.2
      { labelJob with maskIdProvider := (collectAllMasks firstPassJobs labelJob).2 }).2
    (sameAllocator_succeeds (sameAllocator_trans hsame hs2) hAlloc)
  have hmm : masks0 = masks := Except.ok.inj (hmasks0.symm.trans hmasks)
  rw [hmm] at hp hadd
  have hprovider : masks.1.maskIdProvider = (collectAllMasks firstPassJobs labelJob).2 :=
    hp.trans hm2
  have himages : masks.1.maskImages = added := by
    rw [hadd, hm1]
    dsimp only
    rw [hLabel]
    rfl
  refine ⟨_, hplan, ?_, hprovider, ?_, ?_⟩
  · refine List.Forall₂.imp ?_ hbuffers
    intro job job1 h
    refine ⟨h.1, ?_, h.2.2⟩
    rw [h.2.1, isMaskSource_congr _ _ job (collectAllMasks_layerHasMask firstPassJobs labelJob)]
  · dsimp only
    rw [himages, hlen, hprovider]
  · intro i hi
    dsimp only at hi ⊢
    rw [hprovider, ← hlen] at hi
    rw [himages]
    obtain ⟨img, himg, ht⟩ := htrans added[i] (List.getElem_mem hi)
    exact ⟨img, by rw [List.getElem?_eq_getElem hi, himg], ht⟩

/-- C24, at the first-pass jobs T, L (a label rule of L masks T) and V1 (a symbol layer
mask on T) without images, all allocations succeeding: L and V1 get a mask image, T gets
none, and the label job gets the mask image of the one label mask id. -/
theorem prepareSecondPassJobs_mask_buffers_witness :
    (maskSourceIds exampleLabelMaskJobs = ["L", "V1"] ∧
      (collectAllMasks exampleLabelMaskJobs {}).2.length = 1) ∧
    ∃ plan, prepareSecondPassJobs examplePlannerState exampleLabelMaskJobs {} = .ok plan ∧
      List.Forall₂
        (fun job job1 =>
          job1.img.isSome = true ∧
          (job1.maskImage.isSome = true ↔
            isMaskSource (maskSourceIds exampleLabelMaskJobs) job = true) ∧
          ∀ m, job1.maskImage = some m → m.isTransparent)
        exampleLabelMaskJobs plan.firstPassJobs ∧
      plan.labelJob.maskIdProvider = (collectAllMasks exampleLabelMaskJobs {}).2 ∧
      plan.labelJob.maskImages.length = plan.labelJob.maskIdProvider.length ∧
      ∀ i, i < plan.labelJob.maskIdProvider.length →
        ∃ img, plan.labelJob.maskImages[i]? = some (some img) ∧ img.isTransparent :=
  ⟨⟨by decide, by decide⟩,
    prepareSecondPassJobs_mask_buffers examplePlannerState exampleLabelMaskJobs {}
      (by decide) (fun _ => rfl) (by decide) (by decide)
      (by
        intro job hjob
        simp only [exampleLabelMaskJobs, List.mem_cons, List.mem_singleton,
          List.not_mem_nil, or_false] at hjob
        rcases hjob with h | h | h <;> rw [h] <;> rfl)
      rfl⟩

/-! ## Compositor: mask buffers -/

theorem map_set_same {α β : Type} (f : α → β) (l : List α) (i : Nat) (a b : α)
    (h : l[i]? = some a) (hf : f b = f a) : (l.set i b).map f = l.map f := by
  apply List.ext_getElem?
  intro n
  rw [List.getElem?_map, List.getElem?_map]
  by_cases hn : i = n
  · subst hn
    have hi : i < l.length := by
      rcases Nat.lt_or_ge i l.length with h1 | h1
      · exact h1
      · rw [List.getElem?_eq_none h1] at h; cases h
    rw [List.getElem?_set_self hi, h]
    simp [hf]
  · rw [List.getElem?_set_ne hn]

theorem maskImageOf_congr (st st1 : SecondPassState) (p : MaskJob)
    (h1 : st1.firstPassJobs.map (·.maskImage) = st.firstPassJobs.map (·.maskImage))
    (h2 : st1.labelJob.maskImages = st.labelJob.maskImages) :
    maskImageOf st1 p = maskImageOf st p := by
  unfold maskImageOf
  cases p.1 with
  | none => dsimp only; rw [h2]
  | some i =>
    dsimp only
    rw [← List.getElem?_map, ← List.getElem?_map, h1]

theorem composeSecondPassJob_single_frame (qt : QtBlend) (st st1 : SecondPassState)
    (job job1 : LayerRenderJob) (hOne : job.maskJobs.length ≤ 1)
    (h : composeSecondPassJob qt st job = some (st1, job1)) :
    st1.firstPassJobs.map (·.maskImage) = st.firstPassJobs.map (·.maskImage) ∧
    st1.labelJob = st.labelJob := by
  unfold composeSecondPassJob at h
  rw [if_neg (by omega)] at h
  dsimp only at h
  cases hm : job.maskJobs with
  | nil =>
    rw [hm] at h
    dsimp only at h
    have h1 := Option.some.inj h
    rw [← (Prod.mk.inj h1).1]
    exact ⟨rfl, rfl⟩
  | cons p rest =>
    rw [hm] at h
    dsimp only at h
    split at h
    · rename_i maskImage painter0 fpIdx _ _ _
      split at h
      · rename_i fp secondImage hfp _
        have h1 := Option.some.inj h
        rw [← (Prod.mk.inj h1).1]
        exact ⟨map_set_same _ _ _ fp _ hfp rfl, rfl⟩
      · cases h
    · cases h

theorem getElem?_isSome_congr {α β : Type} (f : α → β) (l l1 : List α) (i : Nat)
    (h : l1.map f = l.map f) : (l1[i]?).isSome = (l[i]?).isSome := by
  have h1 : ((l1.map f)[i]?).isSome = ((l.map f)[i]?).isSome := by rw [h]
  simpa [List.getElem?_map] using h1

theorem composeSecondPassJob_single_congr (qt : QtBlend) (st st1 : SecondPassState)
    (job : LayerRenderJob) (hOne : job.maskJobs.length ≤ 1)
    (h1 : st1.firstPassJobs.map (·.maskImage) = st.firstPassJobs.map (·.maskImage))
    (h2 : st1.labelJob.maskImages = st.labelJob.maskImages) :
    (composeSecondPassJob qt st1 job).map (·.2) =
      (composeSecondPassJob qt st job).map (·.2) := by
  have hlen : ¬job.maskJobs.length > 1 := by omega
  unfold composeSecondPassJob
  rw [if_neg hlen, if_neg hlen]
  dsimp only
  cases hm : job.maskJobs with
  | nil => rfl
  | cons p rest =>
    dsimp only
    rw [maskImageOf_congr st st1 p h1 h2]
    rcases hM : maskImageOf st p with _ | _ | maskImage <;>
      rcases hP : job.context.painter with _ | painter0 <;>
      rcases hF : job.firstPassJob with _ | fpIdx <;> try rfl
    dsimp only
    have hsome := getElem?_isSome_congr (·.maskImage) st.firstPassJobs st1.firstPassJobs
      fpIdx h1
    rcases hI : job.img with _ | im
    · rcases st1.firstPassJobs[fpIdx]? with _ | fp1 <;>
        rcases st.firstPassJobs[fpIdx]? with _ | fp <;> rfl
    · rcases hA : st1.firstPassJobs[fpIdx]? with _ | fp1 <;>
        rcases hB : st.firstPassJobs[fpIdx]? with _ | fp
      · rfl
      · rw [hA, hB] at hsome; cases hsome
      · rw [hA, hB] at hsome; cases hsome
      · rfl

theorem composeSecondPass_single_spec (qt : QtBlend) (jobs : List LayerRenderJob)
    (st st0 : SecondPassState) (hOne : ∀ job ∈ jobs, job.maskJobs.length ≤ 1)
    (h1 : st.firstPassJobs.map (·.maskImage) = st0.firstPassJobs.map (·.maskImage))
    (h2 : st.labelJob.maskImages = st0.labelJob.maskImages) :
    (composeSecondPass qt st jobs).map (·.2) = composeIndependently qt st0 jobs ∧
    ∀ st1 jobs1, composeSecondPass qt st jobs = some (st1, jobs1) →
      st1.firstPassJobs.map (·.maskImage) = st0.firstPassJobs.map (·.maskImage) ∧
      st1.labelJob = st.labelJob := by
  induction jobs generalizing st with
  | nil =>
    refine ⟨rfl, ?_⟩
    intro st1 jobs1 h
    have h3 := Prod.mk.inj (Option.some.inj h)
    rw [← h3.1]
    exact ⟨h1, rfl⟩
  | cons job rest ih =>
    have hjob := hOne job (List.mem_cons_self _ _)
    have hrest : ∀ j ∈ rest, j.maskJobs.length ≤ 1 :=
      fun j hj => hOne j (List.mem_cons_of_mem _ hj)
    have hcongr := composeSecondPassJob_single_congr qt st0 st job hjob h1 h2
    rw [composeSecondPass, composeIndependently]
    rcases hA : composeSecondPassJob qt st job with _ | ⟨sa, ja⟩
    · rw [hA] at hcongr
      rcases hB : composeSecondPassJob qt st0 job with _ | rb
      · refine ⟨rfl, ?_⟩
        intro st1 jobs1 h
        cases h
      · rw [hB] at hcongr
        cases hcongr
    · rw [hA] at hcongr
      rcases hB : composeSecondPassJob qt st0 job with _ | ⟨sb, jb⟩
      · rw [hB] at hcongr
        cases hcongr
      · rw [hB] at hcongr
        have hj : ja = jb := Option.some.inj hcongr
        obtain ⟨f1, f2⟩ := composeSecondPassJob_single_frame qt st sa job ja hjob hA
        obtain ⟨g1, g2⟩ := ih sa hrest (f1.trans h1) (by rw [f2]; exact h2)
        dsimp only
        rcases hC : composeSecondPass qt sa rest with _ | ⟨sc, jc⟩
        · rw [hC] at g1
          rw [← g1]
          refine ⟨rfl, ?_⟩
          intro st1 jobs1 h
          cases h
        · rw [hC] at g1
          rw [← g1]
          dsimp only
          refine ⟨by rw [hj]; rfl, ?_⟩
          intro st1 jobs1 h
          have h3 := Prod.mk.inj (Option.some.inj h)
          obtain ⟨k1, k2⟩ := g2 sc jc hC
          rw [← h3.1]
          exact ⟨k1, k2.trans f2⟩

/-- C21, counterexample: the second-pass job of "roads" has the two mask sources "rivers"
(empty mask) and "places" (mask alpha 1/2); `composeSecondPass` returns and has drawn the
mask of "places" on the mask buffer of "rivers", whose pixel (0, 0) has alpha 1/2
afterwards instead of 0. -/
theorem composeSecondPass_mask_frame_counterexample :
    (exampleTwoMaskState.firstPassJobs[1]?).bind (·.maskImage) = some exampleEmptyMask ∧
    (exampleEmptyMask.pixel 0 0).a = 0 ∧
    ∃ st jobs fp mask,
      composeSecondPass exampleBlend exampleTwoMaskState [exampleTwoMaskJob] =
        some (st, jobs) ∧
      st.firstPassJobs[1]? = some fp ∧ fp.maskImage = some mask ∧
      (mask.pixel 0 0).a = 1 / 2 ∧ mask.pixel 0 0 ≠ exampleEmptyMask.pixel 0 0 := by
  refine ⟨rfl, rfl, ?_⟩
  simp [composeSecondPass, composeSecondPassJob, mergeMasks, drawOnMask, maskPainterOf,
    exampleTwoMaskJob, exampleTwoMaskState, maskImageOf, exampleMaskSourceJob,
    exampleFirstSourceJob, exampleMaskedJob, QPainter.fresh, QPainter.setCompositionMode,
    drawImage, blendPixel, exampleImageA, exampleMask, exampleEmptyMask, QImage.filled,
    Pixel.scale, Pixel.add]

/-- C21 (amended): when every second-pass job of the list has at most one mask source,
`composeSecondPass` modifies no mask buffer: if it returns, every first-pass job's mask
image and every label mask image is the one before; and the jobs it leaves, as well as
whether it returns at all, are those of composing each job on its own from the initial
state, so the result for a job does not depend on the jobs composed before it. -/
theorem composeSecondPass_single_mask_frame (qt : QtBlend) (st : SecondPassState)
    (jobs : List LayerRenderJob) (hOne : ∀ job ∈ jobs, job.maskJobs.length ≤ 1) :
    (∀ st1 jobs1, composeSecondPass qt st jobs = some (st1, jobs1) →
      st1.firstPassJobs.map (·.maskImage) = st.firstPassJobs.map (·.maskImage) ∧
      st1.labelJob.maskImages = st.labelJob.maskImages) ∧
    (composeSecondPass qt st jobs).map (·.2) = composeIndependently qt st jobs := by
  obtain ⟨h1, h2⟩ := composeSecondPass_single_spec qt jobs st st hOne rfl rfl
  refine ⟨?_, h1⟩
  intro st1 jobs1 h
  obtain ⟨g1, g2⟩ := h2 st1 jobs1 h
  exact ⟨g1, by rw [g2]⟩

/-- C21 (amended), at the example mask scene with its single mask source: the call
returns and the mask images are those before. -/
theorem composeSecondPass_single_mask_frame_witness :
    (composeSecondPass exampleBlend exampleMaskState [exampleSecondPassJob]).isSome = true ∧
    ∀ st1 jobs1,
      composeSecondPass exampleBlend exampleMaskState [exampleSecondPassJob] =
        some (st1, jobs1) →
      st1.firstPassJobs.map (·.maskImage) = exampleMaskState.firstPassJobs.map (·.maskImage) ∧
      st1.labelJob.maskImages = exampleMaskState.labelJob.maskImages :=
  ⟨rfl, (composeSecondPass_single_mask_frame exampleBlend exampleMaskState
    [exampleSecondPassJob] (by decide)).1⟩

/-! ## Compositor: merging several mask sources -/

theorem getElem?_lt_of_some {α : Type} (l : List α) (i : Nat) (a : α) (h : l[i]? = some a) :
    i < l.length := by
  rcases Nat.lt_or_ge i l.length with h1 | h1
  · exact h1
  · rw [List.getElem?_eq_none h1] at h
    cases h

theorem maskImageOf_drawOnMask_self (qt : QtBlend) (st : SecondPassState) (p : MaskJob)
    (painter : QPainter) (mask src : QImage) (h : maskImageOf st p = some (some mask)) :
    maskImageOf (drawOnMask qt st p painter src) p =
      some (some (drawImage qt painter mask src)) := by
  obtain ⟨p1, p2⟩ := p
  cases p1 with
  | some i =>
    unfold maskImageOf at h ⊢
    unfold drawOnMask
    dsimp only at h ⊢
    rcases hfp : st.firstPassJobs[i]? with _ | fp
    · rw [hfp] at h; cases h
    · rw [hfp] at h
      have hm : fp.maskImage = some mask := Option.some.inj h
      dsimp only
      rw [List.getElem?_set_self (getElem?_lt_of_some _ _ _ hfp)]
      simp [hm]
  | none =>
    unfold maskImageOf at h ⊢
    unfold drawOnMask
    dsimp only at h ⊢
    by_cases h0 : 0 ≤ p2
    · rw [if_pos h0] at h ⊢
      rw [h]
      dsimp only
      rw [List.getElem?_set_self (getElem?_lt_of_some _ _ _ h)]
      rfl
    · rw [if_neg h0] at h
      cases h

theorem maskImageOf_drawOnMask_other (qt : QtBlend) (st : SecondPassState) (p q : MaskJob)
    (painter : QPainter) (src : QImage) (hq : sameBuffer p q = false) :
    maskImageOf (drawOnMask qt st p painter src) q = maskImageOf st q := by
  obtain ⟨p1, p2⟩ := p
  obtain ⟨q1, q2⟩ := q
  cases p1 with
  | some i =>
    cases q1 with
    | some j =>
      have hij : i ≠ j := by simpa [sameBuffer] using hq
      unfold maskImageOf drawOnMask
      dsimp only
      rcases st.firstPassJobs[i]? with _ | fp
      · rfl
      · dsimp only
        rw [List.getElem?_set_ne hij]
    | none =>
      unfold maskImageOf drawOnMask
      dsimp only
      rcases st.firstPassJobs[i]? with _ | fp <;> rfl
  | none =>
    cases q1 with
    | some j =>
      unfold maskImageOf drawOnMask
      dsimp only
      rcases st.labelJob.maskImages[p2.toNat]? with _ | m <;> rfl
    | none =>
      have hne : p2.toNat ≠ q2.toNat := by simpa [sameBuffer] using hq
      unfold maskImageOf drawOnMask
      dsimp only
      rcases st.labelJob.maskImages[p2.toNat]? with _ | m
      · rfl
      · dsimp only
        split_ifs
        · rw [List.getElem?_set_ne hne]
        · rfl

theorem mergeMasks_onto_first (qt : QtBlend) (p : MaskJob) (painter : QPainter)
    (rest : List MaskJob) (images : List QImage) (st : SecondPassState) (mask : QImage)
    (hFirst : maskImageOf st p = some (some mask))
    (hImages : List.Forall₂ (fun q img => maskImageOf st q = some (some img)) rest images)
    (hDistinct : ∀ q ∈ rest, sameBuffer p q = false) :
    ∃ st1, mergeMasks qt rest (some (p, painter)) st = some st1 ∧
      maskImageOf st1 p = some (some (images.foldl (drawImage qt painter) mask)) ∧
      ∀ q, sameBuffer p q = false → maskImageOf st1 q = maskImageOf st q := by
  induction rest generalizing images st mask with
  | nil =>
    rw [List.forall₂_nil_left_iff.mp hImages]
    exact ⟨st, rfl, hFirst, fun _ _ => rfl⟩
  | cons q rest ih =>
    obtain ⟨img, images1, hq, hrest, himages⟩ := List.forall₂_cons_left_iff.mp hImages
    rw [himages]
    have hstep : mergeMasks qt (q :: rest) (some (p, painter)) st =
        mergeMasks qt rest (some (p, painter)) (drawOnMask qt st p painter img) := by
      rw [mergeMasks, hq]
    have hrest1 : List.Forall₂
        (fun q img1 => maskImageOf (drawOnMask qt st p painter img) q = some (some img1))
        rest images1 := by
      have hmem : ∀ q1 ∈ rest, sameBuffer p q1 = false :=
        fun q1 h1 => hDistinct q1 (List.mem_cons_of_mem _ h1)
      clear ih hstep hImages himages
      induction hrest with
      | nil => exact List.Forall₂.nil
      | @cons q1 img1 rest1 imgs1 h1 _ ih1 =>
        refine List.Forall₂.cons ?_ (ih1 ?_ ?_)
        · rw [maskImageOf_drawOnMask_other qt st p q1 painter img
            (hmem q1 (List.mem_cons_self _ _))]
          exact h1
        · intro q2 h2
          exact hDistinct q2 (by
            rcases List.mem_cons.mp h2 with h3 | h3
            · rw [h3]; exact List.mem_cons_self _ _
            · exact List.mem_cons_of_mem _ (List.mem_cons_of_mem _ h3))
        · intro q2 h2
          exact hmem q2 (List.mem_cons_of_mem _ h2)
    obtain ⟨st1, h1, h2, h3⟩ := ih images1 (drawOnMask qt st p painter img)
      (drawImage qt painter mask img)
      (maskImageOf_drawOnMask_self qt st p painter mask img hFirst) hrest1
      (fun q1 hq1 => hDistinct q1 (List.mem_cons_of_mem _ hq1))
    refine ⟨st1, hstep.trans h1, h2, ?_⟩
    intro q1 hq1
    rw [h3 q1 hq1, maskImageOf_drawOnMask_other qt st p q1 painter img hq1]

theorem drawImage_sourceOver_alpha (qt : QtBlend) (painter : QPainter)
    (hMode : painter.compositionMode = .SourceOver) (hOpacity : painter.opacity = 1)
    (dst src : QImage) (x y : Nat) (hx : x < src.width) (hy : y < src.height) :
    ((drawImage qt painter dst src).pixel x y).a =
      (src.pixel x y).a + (dst.pixel x y).a * (1 - (src.pixel x y).a) := by
  simp only [drawImage, hx, hy, and_self, if_true, hMode, hOpacity, blendPixel, Pixel.scale,
    Pixel.add]
  ring

theorem sourceOver_alpha_zero_iff (s d : ℚ) (hs : 0 ≤ s ∧ s ≤ 1) (hd : 0 ≤ d ∧ d ≤ 1) :
    (0 ≤ s + d * (1 - s) ∧ s + d * (1 - s) ≤ 1) ∧ (s + d * (1 - s) ≠ 0 ↔ d ≠ 0 ∨ s ≠ 0) := by
  have h1 : 0 ≤ d * (1 - s) := mul_nonneg hd.1 (by linarith [hs.2])
  have h2 : 0 ≤ (1 - d) * (1 - s) := mul_nonneg (by linarith [hd.2]) (by linarith [hs.2])
  refine ⟨⟨by linarith [hs.1], by nlinarith⟩, ?_⟩
  constructor
  · intro h
    by_contra hne
    push_neg at hne
    apply h
    rw [hne.1, hne.2]
    ring
  · intro h heq
    have hs0 : s = 0 := by linarith [hs.1]
    rw [hs0] at heq
    have hd0 : d = 0 := by linarith
    rcases h with h | h
    · exact h hd0
    · exact h hs0

theorem foldl_drawImage_union (qt : QtBlend) (painter : QPainter)
    (hMode : painter.compositionMode = .SourceOver) (hOpacity : painter.opacity = 1)
    (images : List QImage) (mask : QImage) (x y : Nat)
    (hMask : 0 ≤ (mask.pixel x y).a ∧ (mask.pixel x y).a ≤ 1)
    (hImages : ∀ img ∈ images,
      (0 ≤ (img.pixel x y).a ∧ (img.pixel x y).a ≤ 1) ∧ x < img.width ∧ y < img.height) :
    (0 ≤ ((images.foldl (drawImage qt painter) mask).pixel x y).a ∧
      ((images.foldl (drawImage qt painter) mask).pixel x y).a ≤ 1) ∧
    (((images.foldl (drawImage qt painter) mask).pixel x y).a ≠ 0 ↔
      (mask.pixel x y).a ≠ 0 ∨ ∃ img ∈ images, (img.pixel x y).a ≠ 0) := by
  induction images generalizing mask with
  | nil => exact ⟨hMask, by simp⟩
  | cons img rest ih =>
    obtain ⟨hv, hx, hy⟩ := hImages img (List.mem_cons_self _ _)
    have halpha := drawImage_sourceOver_alpha qt painter hMode hOpacity mask img x y hx hy
    obtain ⟨k1, k2⟩ := sourceOver_alpha_zero_iff _ _ hv hMask
    rw [← halpha] at k1 k2
    obtain ⟨g1, g2⟩ := ih (drawImage qt painter mask img) k1
      (fun i hi => hImages i (List.mem_cons_of_mem _ hi))
    rw [List.foldl_cons]
    refine ⟨g1, ?_⟩
    rw [g2, k2]
    simp only [List.mem_cons, exists_eq_or_imp]
    tauto

theorem mergeMasks_first (qt : QtBlend) (p : MaskJob) (painter : QPainter)
    (rest : List MaskJob) (st : SecondPassState) (mask : QImage)
    (hFirst : maskImageOf st p = some (some mask))
    (hPainter : maskPainterOf st p = some painter) :
    mergeMasks qt (p :: rest) none st = mergeMasks qt rest (some (p, painter)) st := by
  rw [mergeMasks, hFirst]
  dsimp only
  rw [hPainter]
  rfl

theorem composeSecondPassJob_merged (qt : QtBlend) (st st1 : SecondPassState)
    (job : LayerRenderJob) (p : MaskJob) (rest : List MaskJob)
    (hJobs : job.maskJobs = p :: rest) (hMore : rest ≠ [])
    (hMerge : mergeMasks qt job.maskJobs none st = some st1) :
    composeSecondPassJob qt st job =
      (composeSecondPassJob qt st1 { job with maskJobs := [p] }).map
        fun r => (r.1, { r.2 with maskJobs := job.maskJobs }) := by
  have hlen : job.maskJobs.length > 1 := by
    rw [hJobs]
    cases rest with
    | nil => exact absurd rfl hMore
    | cons q rest1 => simp
  unfold composeSecondPassJob
  rw [if_pos hlen, hMerge]
  dsimp only
  rw [if_neg (by simp), hJobs]
  dsimp only
  rcases maskImageOf st1 p with _ | _ | maskImage <;>
    rcases job.context.painter with _ | painter0 <;>
    rcases job.firstPassJob with _ | fpIdx <;> try rfl
  dsimp only
  rcases job.img with _ | im <;> rcases st1.firstPassJobs[fpIdx]? with _ | fp <;> rfl

/-- C23: for a second-pass job with more than one mask source, given distinct mask
buffers of one size with alpha values in [0, 1] and the first source's mask painter in
its initial state (SourceOver, opacity 1), the merge loop of `composeSecondPass` returns
and leaves in the first source's mask buffer the images of the sources 2..n drawn onto
it in list order, the other buffers being untouched; a pixel of that buffer has non-zero
alpha if and only if it had non-zero alpha in at least one of the n source buffers; and
the composition of the job is the composition with the single source 1 on the merged
state, so the mask applied to the second-pass and first-pass images is the merged first
buffer. -/
theorem composeSecondPass_merges_masks (qt : QtBlend) (st : SecondPassState)
    (job : LayerRenderJob) (p : MaskJob) (rest : List MaskJob) (painter : QPainter)
    (mask : QImage) (images : List QImage)
    (hJobs : job.maskJobs = p :: rest) (hMore : rest ≠ [])
    (hPainter : maskPainterOf st p = some painter)
    (hMode : painter.compositionMode = .SourceOver) (hOpacity : painter.opacity = 1)
    (hFirst : maskImageOf st p = some (some mask))
    (hImages : List.Forall₂ (fun q img => maskImageOf st q = some (some img)) rest images)
    (hDistinct : ∀ q ∈ rest, sameBuffer p q = false)
    (hValid : mask.alphaValid ∧ ∀ img ∈ images, img.alphaValid)
    (hSize : ∀ img ∈ images, img.width = mask.width ∧ img.height = mask.height) :
    ∃ st1, mergeMasks qt job.maskJobs none st = some st1 ∧
      maskImageOf st1 p = some (some (images.foldl (drawImage qt painter) mask)) ∧
      (∀ q ∈ rest, maskImageOf st1 q = maskImageOf st q) ∧
      (∀ x y, x < mask.width → y < mask.height →
        (((images.foldl (drawImage qt painter) mask).pixel x y).a ≠ 0 ↔
          (mask.pixel x y).a ≠ 0 ∨ ∃ img ∈ images, (img.pixel x y).a ≠ 0)) ∧
      composeSecondPassJob qt st job =
        (composeSecondPassJob qt st1 { job with maskJobs := [p] }).map
          fun r => (r.1, { r.2 with maskJobs := job.maskJobs }) := by
  obtain ⟨st1, h1, h2, h3⟩ :=
    mergeMasks_onto_first qt p painter rest images st mask hFirst hImages hDistinct
  have hmerge : mergeMasks qt job.maskJobs none st = some st1 := by
    rw [hJobs, mergeMasks_first qt p painter rest st mask hFirst hPainter]
    exact h1
  refine ⟨st1, hmerge, h2, fun q hq => h3 q (hDistinct q hq), ?_,
    composeSecondPassJob_merged qt st st1 job p rest hJobs hMore hmerge⟩
  intro x y hx hy
  refine (foldl_drawImage_union qt painter hMode hOpacity images mask x y (hValid.1 x y) ?_).2
  intro img himg
  obtain ⟨hw, hh⟩ := hSize img himg
  exact ⟨hValid.2 img himg x y, by rw [hw]; exact hx, by rw [hh]; exact hy⟩

/-- C23, at the scene with the two mask sources "rivers" (empty mask) and "places" (mask
alpha 1/2): the mask of "places" is drawn onto the buffer of "rivers", whose pixel (0, 0)
has non-zero alpha afterwards. -/
theorem composeSecondPass_merges_masks_witness :
    ∃ st1, mergeMasks exampleBlend exampleTwoMaskJob.maskJobs none exampleTwoMaskState =
        some st1 ∧
      maskImageOf st1 (some 1, -1) =
        some (some ([exampleMask].foldl (drawImage exampleBlend QPainter.fresh)
          exampleEmptyMask)) ∧
      (∀ q ∈ [((some 2, -1) : MaskJob)],
        maskImageOf st1 q = maskImageOf exampleTwoMaskState q) ∧
      (∀ x y, x < exampleEmptyMask.width → y < exampleEmptyMask.height →
        ((([exampleMask].foldl (drawImage exampleBlend QPainter.fresh)
            exampleEmptyMask).pixel x y).a ≠ 0 ↔
          (exampleEmptyMask.pixel x y).a ≠ 0 ∨
            ∃ img ∈ [exampleMask], (img.pixel x y).a ≠ 0)) ∧
      composeSecondPassJob exampleBlend exampleTwoMaskState exampleTwoMaskJob =
        (composeSecondPassJob exampleBlend st1
          { exampleTwoMaskJob with maskJobs := [(some 1, -1)] }).map
          fun r => (r.1, { r.2 with maskJobs := exampleTwoMaskJob.maskJobs }) :=
  composeSecondPass_merges_masks exampleBlend exampleTwoMaskState exampleTwoMaskJob
    (some 1, -1) [(some 2, -1)] QPainter.fresh exampleEmptyMask [exampleMask]
    rfl (by simp) rfl rfl rfl rfl (List.Forall₂.cons rfl List.Forall₂.nil) (by decide)
    ⟨fun _ _ => by simp [exampleEmptyMask, QImage.filled],
      fun img himg x y => by
        rw [List.mem_singleton.mp himg]
        simp [exampleMask, QImage.filled]
        norm_num⟩
    (fun img himg => by rw [List.mem_singleton.mp himg]; exact ⟨rfl, rfl⟩)

end QgsMapRendererJob
